import Mathlib

/-!
# proSLAM world map and parameters

A shallow embedding of `WorldMap` (src/types/world_map.cpp) with the containers
and objects it works on, and of the parameter parsing of `ParameterCollection`
(src/types/parameters.cpp), followed by the properties established for them:
landmark merging (`mergeLandmarks`), the frame and local-map bookkeeping
(`createFrame`, `createLocalMap`, `breakTrack`, `setTrack`, `addLoopClosure`),
the configuration file and the command line (`parseFromFile`,
`parseFromCommandLine`, `validateParameters`).

Modelling decisions.

* `Identifier` and `Count` are natural numbers.  The values of the
  floating-point type `real` are rationals; the floating-point addition that
  `+=` performs on them is a parameter `add` of the model, so that no statement
  depends on how a sum is rounded.
* A `std::map` is a list of key/value pairs kept in increasing key order, with
  the operations of `std::map` that the code calls (`find`, `insert`, `erase`,
  assignment through an iterator).  Range-for over a `std::map` visits the pairs
  in increasing key order, which is the order of the list.
* A pointer to a `Landmark`, `Frame` or `LocalMap` is represented by the
  identifier of the object it points to, a null pointer by `none`.  The objects
  live in the container of the world map that holds them: `createLandmark` and
  `createFrame` store every object under its own identifier, so the identifier
  read through a pointer obtained from `_landmarks.at(k)` is `k`.
* A call of `mergeLandmarks` that does not return is the `Except.error` result:
  `std::out_of_range` leaves the function, or the null pointer is dereferenced
  in the handler for a missing query.  The error says which of the two it is
  and carries the state at that point.
* For the frame and local-map operations `none` is a call that does not
  complete: a failed `assert`, an escaping exception, a null pointer that is
  dereferenced or `pop_back`/`back` on an empty vector.
* An exception leaving the parameter parsing is the `Except.error` result; it
  carries the exception and the collection as it is at the throw.  The command
  line is the list `argv[1..argc-1]`.
-/

namespace proslam

abbrev Identifier := Nat
abbrev Count := Nat

/-- The values of the floating-point type `real` of the sources (the type is
defined in definitions.h, which is not part of the sources).  Comparisons of
such values are exact; additions are not, see `createLocalMap`. -/
abbrev real := ℚ

/-- The sum without rounding error.  A floating-point addition agrees with it
whenever the exact sum is representable, as it is for the small integers and
dyadic fractions of the runs that are evaluated below. -/
def exactSum (a b : real) : real := a + b

/-- A `TransformMatrix3D`, carried as its coefficients; no arithmetic on
transforms is modelled. -/
abbrev TransformMatrix3D := List ℚ

/-! ## std::map -/

/-- A `std::map<Identifier, V>`: key/value pairs, iterated front to back. -/
abbrev StdMap (V : Type) := List (Identifier × V)

namespace StdMap

variable {V : Type}

/-- Lookup, as both `std::map::find` (`none` is `end()`) and `std::map::at`
(`none` is the `std::out_of_range` case). -/
def find : StdMap V → Identifier → Option V
  | [], _ => none
  | (k, v) :: m, x => if x = k then some v else find m x

/-- Position-respecting insertion of a key that is not present. -/
def orderedInsert : StdMap V → Identifier → V → StdMap V
  | [], x, v => [(x, v)]
  | (k, w) :: m, x, v => if x < k then (x, v) :: (k, w) :: m else (k, w) :: orderedInsert m x v

/-- The member `std::map::insert`: an existing key keeps its value. -/
def insert (m : StdMap V) (x : Identifier) (v : V) : StdMap V :=
  match find m x with
  | some _ => m
  | none => orderedInsert m x v

/-- The member `std::map::erase(key)`. -/
def erase (m : StdMap V) (x : Identifier) : StdMap V :=
  m.filter (fun p => decide (p.1 ≠ x))

/-- Assignment `it->second = v` through an iterator that points at key `x`. -/
def assign (m : StdMap V) (x : Identifier) (v : V) : StdMap V :=
  m.map (fun p => (p.1, if p.1 = x then v else p.2))

/-- The member `std::map::size`. -/
def size (m : StdMap V) : Nat := m.length

/-- A write through a pointer to the object stored under `x`: the object is
replaced by `g` of itself. -/
def modify (m : StdMap V) (x : Identifier) (g : V → V) : StdMap V :=
  m.map (fun p => (p.1, if p.1 = x then g p.2 else p.2))

end StdMap

/-! ## Data -/

/-- The fields of a `Landmark` that merging touches.  `_local_maps` is the set of
local maps (by identifier) the landmark appears in, read by the shared-local-map
test; `observations` stands for the measurements that `Landmark::merge` moves. -/
structure Landmark where
  _local_maps : List Identifier
  observations : List Identifier
  deriving DecidableEq

/-- Modelled from the spec: `Landmark::merge` (landmark.cpp is not part of the
sources).  "`r.merge(q)` transfers observations", so that afterwards
`r.observations == r.observations_before ∪ q.observations_before`.  The spec does
not say what happens to the local-map membership, hence every general statement
below is made for an arbitrary merge function and this one is used in concrete
evaluations only. -/
def Landmark.merge (r q : Landmark) : Landmark :=
  { r with observations := r.observations ++ q.observations }

/-- A `Closure::Correspondence`: the identifiers of the two landmarks it points
to, the matching count and the inlier flag. -/
structure Correspondence where
  query : Identifier
  reference : Identifier
  matching_count : Count
  is_inlier : Bool
  deriving DecidableEq

/-- A `LocalMap::ClosureConstraint`: the correspondences it carries, which is
all that `mergeLandmarks` reads, and the reference local map, the relative
transform and the information value recorded with them. -/
structure ClosureConstraint where
  landmark_correspondences : List Correspondence
  local_map : Identifier := 0
  relation : TransformMatrix3D := []
  omega : real := 0
  deriving DecidableEq

/-- The fields of a `Frame` (frame.h) that the world map's bookkeeping touches:
the links to the preceding and subsequent frame, the root of the track, the
local map the frame belongs to, the keyframe flag and the framepoints.  `_root`
has no initializer in frame.h; `none` is a root that was never set. -/
structure Frame where
  _previous : Option Identifier := none
  _next : Option Identifier := none
  _root : Option Identifier := none
  _local_map : Option Identifier := none
  _is_keyframe : Bool := false
  _created_points : List Identifier := []
  _active_points : List Identifier := []
  deriving DecidableEq

/-- A `LocalMap` (local_map.h is not part of the sources): root, previous and
next links, the keyframe it is anchored at, its frames and its closure
constraints. -/
structure LocalMap where
  _root : Option Identifier := none
  _previous : Option Identifier := none
  _next : Option Identifier := none
  _keyframe : Option Identifier := none
  _frames : List Identifier := []
  _closures : List ClosureConstraint := []
  deriving DecidableEq

/-- The `WorldMapParameters` read by `createLocalMap`. -/
structure WorldMapParameters where
  minimum_distance_traveled_for_local_map : real := 0
  minimum_degrees_rotated_for_local_map : real := 0
  minimum_number_of_frames_for_local_map : Count := 0
  deriving DecidableEq

/-- The members of `WorldMap`.  The first three are those that `mergeLandmarks`
reads or writes.  `_local_maps` is the vector of local maps in creation order,
which is also the order of their identifiers.  `frame_instances` and
`local_map_instances` are the static instance counters of `Frame` and
`LocalMap`, from which identifiers are taken. -/
structure WorldMap where
  _landmarks : StdMap Landmark
  _currently_tracked_landmarks : List Identifier
  _number_of_merged_landmarks : Count
  _parameters : WorldMapParameters := {}
  _frames : StdMap Frame := []
  _local_maps : StdMap LocalMap := []
  _frame_queue_for_local_map : List Identifier := []
  _current_frame : Option Identifier := none
  _previous_frame : Option Identifier := none
  _root_frame : Option Identifier := none
  _current_local_map : Option Identifier := none
  _root_local_map : Option Identifier := none
  _last_frame_before_track_break : Option Identifier := none
  _last_local_map_before_track_break : Option Identifier := none
  _distance_traveled_window : real := 0
  _degrees_rotated_window : real := 0
  _relocalized : Bool := false
  _number_of_closures : Count := 0
  frame_instances : Count := 0
  local_map_instances : Count := 0
  deriving DecidableEq

/-! ## Phase 1: the duplicate filter (world_map.cpp, lines 298-366) -/

/-- The two local maps built by the first loop. -/
structure FilterState where
  landmark_queries_to_references_filtered : StdMap (Identifier × Count)
  landmark_references_to_queries_filtered : StdMap (Identifier × Count)
  deriving DecidableEq

/-- Lines 315-363: the candidate pair `(identifier_query, identifier_reference)`
with its `matching_count` meets the two filtered maps. -/
def updateFiltered (f : FilterState) (identifier_query identifier_reference : Identifier)
    (matching_count : Count) : FilterState :=
  let candidate_query : Identifier × Count := (identifier_query, matching_count)
  let candidate_reference : Identifier × Count := (identifier_reference, matching_count)
  match f.landmark_queries_to_references_filtered.find identifier_query,
        f.landmark_references_to_queries_filtered.find identifier_reference with
  -- no entry for the query nor the reference
  | none, none =>
    { landmark_queries_to_references_filtered :=
        f.landmark_queries_to_references_filtered.insert identifier_query candidate_reference
      landmark_references_to_queries_filtered :=
        f.landmark_references_to_queries_filtered.insert identifier_reference candidate_query }
  -- a new reference for an already added query
  | some found_query, none =>
    if matching_count > found_query.2 then
      { landmark_queries_to_references_filtered :=
          f.landmark_queries_to_references_filtered.assign identifier_query candidate_query
        landmark_references_to_queries_filtered :=
          (f.landmark_references_to_queries_filtered.erase found_query.1).insert
            identifier_reference candidate_query }
    else f
  -- a new query for an already added reference
  | none, some found_reference =>
    if matching_count > found_reference.2 then
      { landmark_queries_to_references_filtered :=
          (f.landmark_queries_to_references_filtered.erase found_reference.1).insert
            identifier_query candidate_reference
        landmark_references_to_queries_filtered :=
          f.landmark_references_to_queries_filtered.assign identifier_reference
            candidate_reference }
    else f
  | some _, some _ => f

/-- Body of the inner loop (lines 303-365) for one correspondence: the two
identifiers are put in order (query above reference, lines 308-310) and the pair
is considered when the correspondence is an inlier with two different
identifiers (line 313). -/
def filterStep (f : FilterState) (c : Correspondence) : FilterState :=
  let identifier_query := if c.query < c.reference then c.reference else c.query
  let identifier_reference := if c.query < c.reference then c.query else c.reference
  if c.is_inlier = true ∧ identifier_query ≠ identifier_reference then
    updateFiltered f identifier_query identifier_reference c.matching_count
  else f

/-- The whole first loop: all correspondences of all closures, in order. -/
def filterCorrespondences (closures_ : List ClosureConstraint) : FilterState :=
  closures_.foldl (fun f closure => closure.landmark_correspondences.foldl filterStep f)
    { landmark_queries_to_references_filtered := [],
      landmark_references_to_queries_filtered := [] }

/-! ## Phase 2: the merges (world_map.cpp, lines 368-443) -/

/-- What the second loop works on: the landmark table, the tracked-landmark
cache and the local `merged_landmark_identifiers`. -/
structure MergeState where
  _landmarks : StdMap Landmark
  _currently_tracked_landmarks : List Identifier
  merged_landmark_identifiers : StdMap Identifier
  deriving DecidableEq

/-- Lines 386-391: the reference is taken from the table; when that lookup
throws, the handler looks the identifier up in `merged_landmark_identifiers` and
then the result in the table, both with `at`.  `none` means that one of the two
`at` calls of the handler threw. -/
def lookupReference (s : MergeState) (identifier_reference : Identifier) :
    Option (Identifier × Landmark) :=
  match s._landmarks.find identifier_reference with
  | some landmark_reference => some (identifier_reference, landmark_reference)
  | none =>
    match s.merged_landmark_identifiers.find identifier_reference with
    | none => none
    | some absorbing =>
      match s._landmarks.find absorbing with
      | none => none
      | some landmark_reference => some (absorbing, landmark_reference)

/-- Lines 400-411: do the two landmarks have a local map in common. -/
def sharedLocalMap (landmark_query landmark_reference : Landmark) : Bool :=
  landmark_query._local_maps.any fun local_map_query =>
    landmark_reference._local_maps.any fun local_map_reference =>
      decide (local_map_query = local_map_reference)

/-- Lines 419-425: entries equal to the query or the reference become the
reference. -/
def retrack (tracked : List Identifier) (query reference : Identifier) : List Identifier :=
  tracked.map fun tracked_identifier =>
    if tracked_identifier = query ∨ tracked_identifier = reference then reference
    else tracked_identifier

/-- Lines 418-441, the merge itself: the cache is redirected, the reference
absorbs the query (`merge r q` is the landmark `r` after `r->merge(q)`), the
pair is recorded and the query leaves the table. -/
def performMerge (merge : Landmark → Landmark → Landmark) (s : MergeState)
    (query reference : Identifier) (landmark_query landmark_reference : Landmark) :
    MergeState :=
  { _landmarks :=
      (s._landmarks.assign reference (merge landmark_reference landmark_query)).erase query
    _currently_tracked_landmarks := retrack s._currently_tracked_landmarks query reference
    merged_landmark_identifiers := s.merged_landmark_identifiers.insert query reference }

/-- The two ways in which the second loop is left without reaching its end. -/
inductive MergeFailure where
  -- `std::out_of_range` thrown by `at` in the handler of lines 389-391
  | out_of_range
  -- `landmark_query->identifier()` on the null pointer (line 382)
  | null_dereference
  deriving DecidableEq

/-- Body of the second loop (lines 372-441) for one entry of the filtered
query map.  When the query is missing, `_landmarks.at` throws before
`landmark_query` is assigned, and the handler evaluates
`landmark_query->identifier()` on the pointer that is still null (line 382,
inside `LOG_WARNING`) before it reaches `continue`: the iteration does not
complete.  A reference that cannot be resolved lets `std::out_of_range`
escape. -/
def mergeStep (merge : Landmark → Landmark → Landmark) (s : MergeState)
    (pair : Identifier × (Identifier × Count)) :
    Except (MergeFailure × MergeState) MergeState :=
  match s._landmarks.find pair.1 with
  | none => .error (.null_dereference, s)
  | some landmark_query =>
    match lookupReference s pair.2.1 with
    | none => .error (.out_of_range, s)
    | some (reference, landmark_reference) =>
      if pair.1 = reference then .ok s
      else if sharedLocalMap landmark_query landmark_reference = true then .ok s
      else .ok (performMerge merge s pair.1 reference landmark_query landmark_reference)

/-- The second loop over the entries of the filtered query map. -/
def mergeLoop (merge : Landmark → Landmark → Landmark) :
    List (Identifier × (Identifier × Count)) → MergeState →
      Except (MergeFailure × MergeState) MergeState
  | [], s => .ok s
  | pair :: rest, s =>
    match mergeStep merge s pair with
    | .ok s' => mergeLoop merge rest s'
    | .error s' => .error s'

/-- State in which the second loop starts. -/
def MergeState.start (w : WorldMap) : MergeState :=
  { _landmarks := w._landmarks
    _currently_tracked_landmarks := w._currently_tracked_landmarks
    merged_landmark_identifiers := [] }

/-- Both loops of `mergeLandmarks`, before the counter is updated. -/
def mergeRun (merge : Landmark → Landmark → Landmark) (w : WorldMap)
    (closures_ : List ClosureConstraint) : Except (MergeFailure × MergeState) MergeState :=
  mergeLoop merge (filterCorrespondences closures_).landmark_queries_to_references_filtered
    (MergeState.start w)

/-- The state the loops end in, whether they ran to the end or were left
earlier. -/
def lastState : Except (MergeFailure × MergeState) MergeState → MergeState
  | .ok s => s
  | .error (_, s) => s

/-- `WorldMap::mergeLandmarks`.  On normal return the counter grows by the size
of `merged_landmark_identifiers` (line 443); when the second loop is left
earlier, the table and the cache stay as the loop left them and line 443 is not
reached. -/
def mergeLandmarks (merge : Landmark → Landmark → Landmark) (w : WorldMap)
    (closures_ : List ClosureConstraint) : Except (MergeFailure × WorldMap) WorldMap :=
  match mergeRun merge w closures_ with
  | .ok s =>
    .ok { w with
          _landmarks := s._landmarks
          _currently_tracked_landmarks := s._currently_tracked_landmarks
          _number_of_merged_landmarks :=
            w._number_of_merged_landmarks + s.merged_landmark_identifiers.size }
  | .error (failure, s) =>
    .error (failure,
      { w with
        _landmarks := s._landmarks
        _currently_tracked_landmarks := s._currently_tracked_landmarks
        _number_of_merged_landmarks := w._number_of_merged_landmarks })

/-- The world map a call leaves behind, on either way out. -/
def afterCall : Except (MergeFailure × WorldMap) WorldMap → WorldMap
  | .ok w => w
  | .error (_, w) => w

/-- The merges a call performed: the final `merged_landmark_identifiers`, which
receives `(q, r)` exactly when `r->merge(q)` is executed (lines 428-431). -/
def mergedRecord (merge : Landmark → Landmark → Landmark) (w : WorldMap)
    (closures_ : List ClosureConstraint) : StdMap Identifier :=
  (lastState (mergeRun merge w closures_)).merged_landmark_identifiers

/-! ## Frames, local maps and tracks (world_map.cpp, lines 50-169 and 247-290) -/

/-- Modelled from the spec: the constructor `Frame::Frame` (frame.cpp is not part
of the sources).  The frame is linked to `previous_` and `next_`, and its "root
pointer to the first frame of its track" is the root of the predecessor when
there is one; without predecessor the constructor leaves the root to
`createFrame`. -/
def Frame.construct (frames : StdMap Frame) (previous_ next_ : Option Identifier) : Frame :=
  { _previous := previous_
    _next := next_
    _root := previous_.bind fun p => (frames.find p).bind fun f => f._root }

/-- Modelled from the spec: `Frame::breakTrack` (not in the frame.h of the
sources).  "A track break sets previous(current) = null and assigns a new root":
the frame `self` becomes the first frame of a track of its own. -/
def Frame.breakTrack (self : Identifier) (f : Frame) : Frame :=
  { f with _previous := none, _root := some self }

/-- Modelled from the spec: `Frame::clear` (declared in frame.h, "free all point
instances"; its body is not part of the sources). -/
def Frame.clear (f : Frame) : Frame :=
  { f with _created_points := [], _active_points := [] }

/-- Modelled from the spec: `LocalMap::addCorrespondence` (local_map.h is not
part of the sources).  It "records a closure edge on the query local map": one
closure constraint with the reference local map, the relative transform, the
correspondences and the information value is appended. -/
def LocalMap.addCorrespondence (local_map : LocalMap) (reference_ : Identifier)
    (query_to_reference_ : TransformMatrix3D)
    (landmark_correspondences_ : List Correspondence) (information_ : real) : LocalMap :=
  { local_map with
    _closures := local_map._closures ++
      [{ landmark_correspondences := landmark_correspondences_
         local_map := reference_
         relation := query_to_reference_
         omega := information_ }] }

/-- The world map after `WorldMap::WorldMap`: `clear()` on empty containers; all
pointers are null and all counters zero. -/
def WorldMap.fresh (parameters_ : WorldMapParameters) : WorldMap :=
  { _landmarks := []
    _currently_tracked_landmarks := []
    _number_of_merged_landmarks := 0
    _parameters := parameters_ }

/-- `WorldMap::createFrame` (lines 50-73).  The identifier of the new frame is
the value of the instance counter.  The result is the new frame and the map. -/
def createFrame (w : WorldMap) : Identifier × WorldMap :=
  let identifier := w.frame_instances
  let frame := Frame.construct w._frames w._current_frame none
  match w._current_frame with
  | some previous =>
    (identifier,
      { w with
        _previous_frame := w._current_frame
        _current_frame := some identifier
        _frames :=
          (w._frames.modify previous fun f => { f with _next := some identifier }).insert
            identifier frame
        _frame_queue_for_local_map := w._frame_queue_for_local_map ++ [identifier]
        frame_instances := w.frame_instances + 1 })
  | none =>
    (identifier,
      { w with
        _previous_frame := w._current_frame
        _current_frame := some identifier
        _root_frame := some identifier
        _frames := w._frames.insert identifier { frame with _root := some identifier }
        _frame_queue_for_local_map := w._frame_queue_for_local_map ++ [identifier]
        frame_instances := w.frame_instances + 1 })

/-- `WorldMap::resetWindowForLocalMapCreation` (lines 128-147).  With
`drop_framepoints_` the last two frames are popped off the window and the
remaining ones are cleared; popping from an empty window does not complete. -/
def resetWindowForLocalMapCreation (w : WorldMap) (drop_framepoints_ : Bool) :
    Option WorldMap :=
  if drop_framepoints_ = true then
    if 2 ≤ w._frame_queue_for_local_map.length then
      some { w with
        _distance_traveled_window := 0
        _degrees_rotated_window := 0
        _frames := w._frame_queue_for_local_map.dropLast.dropLast.foldl
          (fun frames frame => frames.modify frame Frame.clear) w._frames
        _frame_queue_for_local_map := [] }
    else none
  else
    some { w with
      _distance_traveled_window := 0
      _degrees_rotated_window := 0
      _frame_queue_for_local_map := [] }

/-- The test of lines 95-98 on the updated accumulators. -/
def localMapDue (w : WorldMap) : Prop :=
  w._degrees_rotated_window > w._parameters.minimum_degrees_rotated_for_local_map ∨
  (w._distance_traveled_window > w._parameters.minimum_distance_traveled_for_local_map ∧
    w._frame_queue_for_local_map.length >
      w._parameters.minimum_number_of_frames_for_local_map) ∨
  (w._frame_queue_for_local_map.length >
      w._parameters.minimum_number_of_frames_for_local_map ∧
    w._local_maps.size < 5)

instance (w : WorldMap) : Decidable (localMapDue w) := by
  unfold localMapDue
  exact inferInstance

/-- Modelled from the spec: the constructor `LocalMap::LocalMap(frames, parameters,
root, previous)` (local_map.cpp is not part of the sources), called on line 101
with the window, `_root_local_map` and `_current_local_map`.  "The anchor is the
newest frame", "the anchor is marked as keyframe; all frames in the window have
their local-map pointer set", "LocalMaps form a doubly-linked list".  The result
is the map with the new local map appended to `_local_maps` (line 105) and made
the current one (line 101); an empty window has no anchor. -/
def LocalMap.construct (w : WorldMap) : Option WorldMap :=
  match w._frame_queue_for_local_map.getLast? with
  | none => none
  | some anchor =>
    let identifier := w.local_map_instances
    let local_map : LocalMap :=
      { _root := w._root_local_map
        _previous := w._current_local_map
        _next := none
        _keyframe := some anchor
        _frames := w._frame_queue_for_local_map }
    let linked : StdMap LocalMap :=
      match w._current_local_map with
      | some previous => w._local_maps.modify previous fun m => { m with _next := some identifier }
      | none => w._local_maps
    some { w with
      _current_local_map := some identifier
      _local_maps := linked ++ [(identifier, local_map)]
      _frames :=
        (w._frame_queue_for_local_map.foldl
          (fun frames frame => frames.modify frame fun f => { f with _local_map := some identifier })
          w._frames).modify anchor fun f => { f with _is_keyframe := true }
      local_map_instances := w.local_map_instances + 1 }

/-- `WorldMap::createLocalMap` (lines 81-125).  `distance_last_to_current` and
`degrees_last_to_current` are the two norms of lines 91-92, computed by Eigen
from the poses of the previous and the current frame.  `add a b` is the value
that the floating-point `a += b` of lines 91-92 stores. -/
def createLocalMap (add : real → real → real) (w : WorldMap) (drop_framepoints_ : Bool)
    (distance_last_to_current degrees_last_to_current : real) : Option (Bool × WorldMap) :=
  match w._previous_frame with
  | none => some (false, w)
  | some _ =>
    match w._current_frame with
    | none => none
    | some current =>
      let updated : WorldMap :=
        { w with
          _relocalized := false
          _distance_traveled_window := add w._distance_traveled_window distance_last_to_current
          _degrees_rotated_window := add w._degrees_rotated_window degrees_last_to_current }
      if localMapDue updated then
        match LocalMap.construct updated with
        | none => none
        | some created =>
          -- the assertions of lines 106-107
          if (created._frames.find current).map (fun f => f._is_keyframe) = some true ∧
              (created._frames.find current).bind (fun f => f._local_map)
                = created._current_local_map then
            let rooted : WorldMap :=
              match created._root_local_map, created._current_local_map with
              | none, some identifier =>
                { created with
                  _root_local_map := some identifier
                  _local_maps := created._local_maps.modify identifier
                    fun m => { m with _root := some identifier } }
              | _, _ => created
            (resetWindowForLocalMapCreation rooted drop_framepoints_).map fun w' => (true, w')
          else none
      else some (false, updated)

/-- `WorldMap::breakTrack` (lines 247-266).  The call on line 264 has no
argument; the default of `drop_framepoints_` is in world_map.h, which is not
part of the sources, and is taken to be `false`.  The pose update of line 265 is
not modelled. -/
def breakTrack (w : WorldMap) (frame_ : Identifier) : Option WorldMap :=
  match w._frames.find frame_ with
  | none => none
  | some _ =>
    let saved : Option Identifier × Option Identifier :=
      if w._last_frame_before_track_break = none then
        (w._previous_frame, w._current_local_map)
      else (w._last_frame_before_track_break, w._last_local_map_before_track_break)
    resetWindowForLocalMapCreation
      { w with
        _last_frame_before_track_break := saved.1
        _last_local_map_before_track_break := saved.2
        _frames := w._frames.modify frame_ (Frame.breakTrack frame_)
        _previous_frame := none
        _root_frame := some frame_
        _root_local_map := none
        _currently_tracked_landmarks := [] }
      false

/-- Lines 274-289 of `setTrack`, for the frame `frame_` with local map
`local_map`, the saved pre-break frame `last_frame` with root `root_frame` and
the saved pre-break local map `last_local_map` with root `root_local_map`.  The
writes are made one after the other, as in the source. -/
def stitch (w : WorldMap) (frame_ local_map last_frame last_local_map : Identifier)
    (root_frame root_local_map : Option Identifier) : WorldMap :=
  -- return to original roots
  let frames1 := w._frames.modify frame_ fun f => { f with _root := root_frame }
  let local_maps1 := w._local_maps.modify local_map fun m => { m with _root := root_local_map }
  -- connect the given frame to the last one before the track broke and vice versa
  let frames2 := frames1.modify last_frame fun f => { f with _next := some frame_ }
  let frames3 := frames2.modify frame_ fun f => { f with _previous := some frame_ }
  -- connect local maps
  let local_maps2 :=
    local_maps1.modify last_local_map fun m => { m with _next := some local_map }
  let local_maps3 :=
    local_maps2.modify local_map fun m => { m with _previous := some last_local_map }
  { w with
    _root_frame := root_frame
    _root_local_map := root_local_map
    _frames := frames3
    _local_maps := local_maps3
    _last_frame_before_track_break := none
    _last_local_map_before_track_break := none }

/-- `WorldMap::setTrack` (lines 268-290).  The two assertions have to hold and
the pointers that are dereferenced have to be non-null for the call to
complete. -/
def setTrack (w : WorldMap) (frame_ : Identifier) : Option WorldMap :=
  match w._frames.find frame_ with
  | none => none
  | some frame =>
    match frame._local_map, w._last_local_map_before_track_break,
        w._last_frame_before_track_break with
    | some local_map, some last_local_map, some last_frame =>
      match w._frames.find last_frame, w._local_maps.find last_local_map,
          w._local_maps.find local_map with
      | some last, some last_map, some _ =>
        some (stitch w frame_ local_map last_frame last_local_map last._root last_map._root)
      | _, _, _ => none
    | _, _, _ => none

/-- Lines 163-168 of `addLoopClosure`: the closure is added to the query local
map, the map is flagged as relocalized and the closure is counted. -/
def recordClosure (w : WorldMap) (query_ reference_ : Identifier)
    (query_to_reference_ : TransformMatrix3D)
    (landmark_correspondences_ : List Correspondence) (information_ : real) :
    Option WorldMap :=
  match w._local_maps.find query_ with
  | none => none
  | some _ =>
    some { w with
      _local_maps := w._local_maps.modify query_ fun m =>
        m.addCorrespondence reference_ query_to_reference_ landmark_correspondences_
          information_
      _relocalized := true
      _number_of_closures := w._number_of_closures + 1 }

/-- `WorldMap::addLoopClosure` (lines 149-169).  `_frames.at(0)` throws when
there is no frame 0; the assertion of line 157 is made before `setTrack`. -/
def addLoopClosure (w : WorldMap) (query_ reference_ : Identifier)
    (query_to_reference_ : TransformMatrix3D)
    (landmark_correspondences_ : List Correspondence) (information_ : real) :
    Option WorldMap :=
  match w._frames.find 0, w._current_frame with
  | some first, some current_frame =>
    match w._frames.find current_frame with
    | none => none
    | some current =>
      if first._root ≠ current._root then
        if current._local_map = some query_ then
          match setTrack w current_frame with
          | none => none
          | some stitched =>
            recordClosure stitched query_ reference_ query_to_reference_
              landmark_correspondences_ information_
        else none
      else
        recordClosure w query_ reference_ query_to_reference_ landmark_correspondences_
          information_
  | _, _ => none

/-- The previous frame of frame `f` (`none`: null pointer, or no such frame). -/
def WorldMap.previous (w : WorldMap) (f : Identifier) : Option Identifier :=
  (w._frames.find f).bind fun frame => frame._previous

/-- The next frame of frame `f`. -/
def WorldMap.next (w : WorldMap) (f : Identifier) : Option Identifier :=
  (w._frames.find f).bind fun frame => frame._next

/-- The root of frame `f`. -/
def WorldMap.root (w : WorldMap) (f : Identifier) : Option Identifier :=
  (w._frames.find f).bind fun frame => frame._root

/-- The local map of frame `f`. -/
def WorldMap.localMap (w : WorldMap) (f : Identifier) : Option Identifier :=
  (w._frames.find f).bind fun frame => frame._local_map

/-- The previous local map of local map `m`. -/
def WorldMap.previousLocalMap (w : WorldMap) (m : Identifier) : Option Identifier :=
  (w._local_maps.find m).bind fun local_map => local_map._previous

/-- The next local map of local map `m`. -/
def WorldMap.nextLocalMap (w : WorldMap) (m : Identifier) : Option Identifier :=
  (w._local_maps.find m).bind fun local_map => local_map._next

/-- The root of local map `m`. -/
def WorldMap.rootLocalMap (w : WorldMap) (m : Identifier) : Option Identifier :=
  (w._local_maps.find m).bind fun local_map => local_map._root

/-! ## A run with a track break and a relocalization -/

/-- Parameters under which a local map is due as soon as the window holds more
than two frames and the camera has moved. -/
def runParameters : WorldMapParameters :=
  { minimum_distance_traveled_for_local_map := 0
    minimum_degrees_rotated_for_local_map := 1
    minimum_number_of_frames_for_local_map := 2 }

/-- One step of the pipeline: a frame is created and `createLocalMap` is called
for it, after a motion of distance 1 without rotation.  The accumulated
distances are small integers, whose sums are exact. -/
def trackFrame (w : WorldMap) : Option WorldMap :=
  (createLocalMap exactSum (createFrame w).2 false 1 0).map fun r => r.2

/-- The pipeline step repeated `n` times. -/
def trackFrames : Nat → WorldMap → Option WorldMap
  | 0, w => some w
  | n + 1, w => (trackFrame w).bind (trackFrames n)

/-- Frames 0 to 4 are tracked (local map 0 is anchored at frame 2); frame 5 is
created and the track breaks at it. -/
def runToBreak : Option WorldMap :=
  (trackFrames 5 (WorldMap.fresh runParameters)).bind fun w =>
    breakTrack (createFrame w).2 5

/-- After the break, frames 6 to 20 are tracked; a local map is anchored at
frame 20. -/
def runToRelocalization : Option WorldMap :=
  runToBreak.bind (trackFrames 15)

/-- The relocalization at frame 20: the current local map is closed against
local map 1. -/
def runRelocalized : Option WorldMap :=
  runToRelocalization.bind fun w =>
    match w._current_local_map with
    | some query => addLoopClosure w query 1 [] [] 1
    | none => none

/-- The world map in which the track is about to break: frames 0 to 4 are
tracked and frame 5 has been created. -/
def worldBeforeBreak : WorldMap :=
  ((trackFrames 5 (WorldMap.fresh runParameters)).map fun w => (createFrame w).2).getD
    (WorldMap.fresh runParameters)

/-- The world map in which the relocalization takes place: the track broke at
frame 5 and frame 20 is the current frame. -/
def worldBeforeRelocalization : WorldMap :=
  runToRelocalization.getD (WorldMap.fresh runParameters)

/-- The world map after the relocalization at frame 20, in which the root of the
current frame is the root of frame 0 again. -/
def worldAfterRelocalization : WorldMap :=
  runRelocalized.getD (WorldMap.fresh runParameters)

/-- The world map at frame 2, before `createLocalMap` is called for it: frames
0 and 1 are tracked and frame 2 has been created. -/
def worldAtFrameTwo : WorldMap :=
  ((trackFrames 2 (WorldMap.fresh runParameters)).map fun w => (createFrame w).2).getD
    (WorldMap.fresh runParameters)

/-- The world map after frames 0 to 4 have been tracked. -/
def worldAtFrameFour : WorldMap :=
  (trackFrames 5 (WorldMap.fresh runParameters)).getD (WorldMap.fresh runParameters)

/-- The world map right after the track break at frame 5. -/
def worldAfterBreak : WorldMap :=
  runToBreak.getD (WorldMap.fresh runParameters)

/-- The states that a freshly constructed map reaches by `createFrame`,
`createLocalMap`, `breakTrack` on the current frame and those calls of
`addLoopClosure` that find the root of the current frame equal to the root of
frame 0, so that no track is stitched. -/
inductive ReachableWithoutStitch (add : real → real → real) (parameters_ : WorldMapParameters) :
    WorldMap → Prop
  | fresh : ReachableWithoutStitch add parameters_ (WorldMap.fresh parameters_)
  | createFrame (w : WorldMap) :
      ReachableWithoutStitch add parameters_ w →
      ReachableWithoutStitch add parameters_ (createFrame w).2
  | createLocalMap (w w' : WorldMap) (drop_framepoints_ b : Bool)
      (distance_last_to_current degrees_last_to_current : real) :
      ReachableWithoutStitch add parameters_ w →
      createLocalMap add w drop_framepoints_ distance_last_to_current degrees_last_to_current
        = some (b, w') →
      ReachableWithoutStitch add parameters_ w'
  | breakTrack (w w' : WorldMap) (frame_ : Identifier) :
      ReachableWithoutStitch add parameters_ w →
      w._current_frame = some frame_ →
      breakTrack w frame_ = some w' →
      ReachableWithoutStitch add parameters_ w'
  | addLoopClosure (w w' : WorldMap) (query_ reference_ current_frame : Identifier)
      (query_to_reference_ : TransformMatrix3D)
      (landmark_correspondences_ : List Correspondence) (information_ : real) :
      ReachableWithoutStitch add parameters_ w →
      w._current_frame = some current_frame →
      w.root 0 = w.root current_frame →
      addLoopClosure w query_ reference_ query_to_reference_ landmark_correspondences_
        information_ = some w' →
      ReachableWithoutStitch add parameters_ w'

/-- The previous, next and root pointers of a frame. -/
def Frame.links (f : Frame) : Option Identifier × Option Identifier × Option Identifier :=
  (f._previous, f._next, f._root)

/-- The linkage of the frames of a world map: every frame identifier is below
the instance counter; the frame a next pointer leads to exists and either
points back or starts a track (null previous, its own root); the current frame
exists and has no next frame. -/
def LinksOk (w : WorldMap) : Prop :=
  (∀ a fa, w._frames.find a = some fa → a < w.frame_instances) ∧
  (∀ a fa b, w._frames.find a = some fa → fa._next = some b →
    ∃ fb, w._frames.find b = some fb ∧
      (fb._previous = some a ∨ (fb._previous = none ∧ fb._root = some b))) ∧
  (∀ c, w._current_frame = some c → ∃ fc, w._frames.find c = some fc ∧ fc._next = none)

/-! ## The steps of `createLocalMap` and the reachable states -/

/-- Lines 87-92 of `createLocalMap`: the closure status is reset and the motion
from the previous to the current frame is added to the accumulators of the
window. -/
def WorldMap.moved (w : WorldMap) (add : real → real → real)
    (distance_last_to_current degrees_last_to_current : real) : WorldMap :=
  { w with
    _relocalized := false
    _distance_traveled_window := add w._distance_traveled_window distance_last_to_current
    _degrees_rotated_window := add w._degrees_rotated_window degrees_last_to_current }

/-- Lines 110-113 of `createLocalMap`: without a root local map the new local
map becomes the root local map and its own root. -/
def WorldMap.rooted (created : WorldMap) : WorldMap :=
  match created._root_local_map, created._current_local_map with
  | none, some identifier =>
    { created with
      _root_local_map := some identifier
      _local_maps := created._local_maps.modify identifier
        fun m => { m with _root := some identifier } }
  | _, _ => created

/-- The pipeline step for a list of motions: for each motion (distance,
rotation) a frame is created and `createLocalMap` is called for it.  The result
lists the return values of `createLocalMap`, one per frame. -/
def trackAlong (add : real → real → real) (drop_framepoints_ : Bool) :
    List (real × real) → WorldMap → Option (List Bool × WorldMap)
  | [], w => some ([], w)
  | motion :: rest, w =>
    (createLocalMap add (createFrame w).2 drop_framepoints_ motion.1 motion.2).bind fun r =>
      (trackAlong add drop_framepoints_ rest r.2).map fun s => (r.1 :: s.1, s.2)

/-- The states that a freshly constructed map reaches by `createFrame`,
`createLocalMap`, `breakTrack` on the current frame and `addLoopClosure`. -/
inductive Reachable (add : real → real → real) (parameters_ : WorldMapParameters) :
    WorldMap → Prop
  | fresh : Reachable add parameters_ (WorldMap.fresh parameters_)
  | createFrame (w : WorldMap) :
      Reachable add parameters_ w →
      Reachable add parameters_ (createFrame w).2
  | createLocalMap (w w' : WorldMap) (drop_framepoints_ b : Bool)
      (distance_last_to_current degrees_last_to_current : real) :
      Reachable add parameters_ w →
      createLocalMap add w drop_framepoints_ distance_last_to_current degrees_last_to_current
        = some (b, w') →
      Reachable add parameters_ w'
  | breakTrack (w w' : WorldMap) (frame_ : Identifier) :
      Reachable add parameters_ w →
      w._current_frame = some frame_ →
      breakTrack w frame_ = some w' →
      Reachable add parameters_ w'
  | addLoopClosure (w w' : WorldMap) (query_ reference_ : Identifier)
      (query_to_reference_ : TransformMatrix3D)
      (landmark_correspondences_ : List Correspondence) (information_ : real) :
      Reachable add parameters_ w →
      addLoopClosure w query_ reference_ query_to_reference_ landmark_correspondences_
        information_ = some w' →
      Reachable add parameters_ w'

/-- The bookkeeping of the identifiers: every frame of the table is below the
frame counter, the current frame is in the table, a non-empty window ends with
the current frame, the frames of the window are distinct and below the frame
counter, and every local map is below the local-map counter. -/
def BookkeepingOk (w : WorldMap) : Prop :=
  (∀ a, (w._frames.find a).isSome = true → a < w.frame_instances) ∧
  (∀ c, w._current_frame = some c → (w._frames.find c).isSome = true) ∧
  (∀ x, w._frame_queue_for_local_map.getLast? = some x → w._current_frame = some x) ∧
  (w._frame_queue_for_local_map.Nodup ∧
    ∀ x ∈ w._frame_queue_for_local_map, x < w.frame_instances) ∧
  (∀ p ∈ w._local_maps, p.1 < w.local_map_instances)

/-- The world map at frame 1, before `createLocalMap` is called for it: frame 0
is tracked and frame 1 has been created, so that the window holds two frames,
the minimum of `runParameters`. -/
def worldAtFrameOne : WorldMap :=
  ((trackFrames 1 (WorldMap.fresh runParameters)).map fun w => (createFrame w).2).getD
    (WorldMap.fresh runParameters)

/-- The world map after frames 0 to 2 have been tracked: local map 0 is anchored
at frame 2. -/
def worldAfterFrameTwo : WorldMap :=
  (trackFrames 3 (WorldMap.fresh runParameters)).getD (WorldMap.fresh runParameters)

/-- A frame that holds one framepoint. -/
def frameWithPoint (point : Identifier) : Frame :=
  { _created_points := [point], _active_points := [point] }

/-- A world map whose window holds the twelve frames 1 to 12, each with a
framepoint. -/
def windowOfTwelve : WorldMap :=
  { WorldMap.fresh runParameters with
    _frames := (List.range 12).map fun k => (k + 1, frameWithPoint (k + 1))
    _frame_queue_for_local_map := (List.range 12).map fun k => k + 1
    frame_instances := 13 }

/-- The motions of a run along a straight line without rotation: one distance
per frame. -/
def straightLine (distances : List real) : List (real × real) :=
  distances.map fun distance => (distance, 0)

/-- The state of a run from a fresh map after `k` frames for none of which a
local map was created, without any rotation. -/
def QuietRun (parameters_ : WorldMapParameters) (k : Nat) (w : WorldMap) : Prop :=
  BookkeepingOk w ∧ w._parameters = parameters_ ∧ w._local_maps = [] ∧
    w._frame_queue_for_local_map = List.range k ∧ w.frame_instances = k ∧
    w._degrees_rotated_window = 0 ∧ w.local_map_instances = 0 ∧
    (0 < k → w._current_frame = some (k - 1))

/-- Parameters of the straight-line scenario: a local map every 0.5 m, windows
of more than 10 frames. -/
def straightLineParameters : WorldMapParameters :=
  { minimum_distance_traveled_for_local_map := 1 / 2
    minimum_degrees_rotated_for_local_map := 0
    minimum_number_of_frames_for_local_map := 10 }

/-- Every landmark of `table` is still in the table of the loop state or has
been recorded as merged. -/
def Covered (table : StdMap Landmark) (s : MergeState) : Prop :=
  ∀ x, (table.find x).isSome = true →
    (s._landmarks.find x).isSome = true ∨ (s.merged_landmark_identifiers.find x).isSome = true

/-! ## Parameters (parameters.cpp)

`parameters.h` is not part of the sources: the parameter structs are reduced to
the fields that `parameters.cpp` reads or writes, and no default value is
assumed (every statement is made for an arbitrary collection on entry).
yaml-cpp and `srrg_core::isAccessible` are outside the repository: a YAML
document is a list of scalars by group and key, the file system is a parameter,
and `as<T>()` on a node that is missing or not convertible throws
`YAML::TypedBadConversion<T>`. -/

/-- `CommandLineParameters::TrackerMode`. -/
inductive TrackerMode where
  | RGB_STEREO
  | RGB_DEPTH
  deriving DecidableEq

/-- The fields of `CommandLineParameters` used in `parameters.cpp`. -/
structure CommandLineParameters where
  configuration_file_name : String
  topic_image_left : String
  topic_image_right : String
  topic_camera_info_left : String
  topic_camera_info_right : String
  dataset_file_name : String
  tracker_mode : TrackerMode
  option_use_gui : Bool
  option_use_odometry : Bool
  option_use_relocalization : Bool
  option_show_top_viewer : Bool
  option_drop_framepoints : Bool
  option_equalize_histogram : Bool
  option_undistort_and_rectify : Bool
  option_recover_landmarks : Bool
  deriving DecidableEq

/-- The `PARAMETER_TYPE` arguments that occur in `parseFromFile`. -/
inductive ParameterType where
  | string
  | bool
  | real
  | Count
  | int32_t
  deriving DecidableEq

/-- A parsed parameter value. -/
inductive ParameterValue where
  | text (value : String)
  | flag (value : Bool)
  | number (value : ℚ)
  | count (value : Nat)
  | integer (value : Int)
  deriving DecidableEq

/-- The values written to the parameter structs other than the command line
parameters, by struct name and parameter name; a parameter without entry has
the value it was constructed with. -/
abbrev ParameterStore := List ((String × String) × ParameterValue)

/-- The value written for a parameter, if any. -/
def ParameterStore.find (store : ParameterStore) (struct_name parameter_name : String) :
    Option ParameterValue :=
  (List.find? (fun e => decide (e.1 = (struct_name, parameter_name))) store).map fun e => e.2

/-- An assignment to a parameter. -/
def ParameterStore.write (store : ParameterStore) (struct_name parameter_name : String)
    (value : ParameterValue) : ParameterStore :=
  ((struct_name, parameter_name), value) ::
    store.filter fun e => decide (e.1 ≠ (struct_name, parameter_name))

/-- The members of `ParameterCollection`. -/
structure ParameterCollection where
  command_line_parameters : CommandLineParameters
  values : ParameterStore
  number_of_parameters_detected : Count
  number_of_parameters_parsed : Count
  deriving DecidableEq

/-- The exceptions that leave `parseFromFile` and `parseFromCommandLine`: the
`std::runtime_error`s thrown there, named by their message, and the
`YAML::TypedBadConversion` of an `as<T>()` outside `PARSE_PARAMETER`. -/
inductive ParseError where
  | invalid_tracker_mode
  | help_requested
  | configuration_file_not_accessible
  | empty_topic_image_left
  | empty_topic_image_right
  | bad_conversion
  deriving DecidableEq

/-- A YAML document: its scalars by group and key. -/
abbrev YamlDocument := List (String × String × String)

/-- The scalar at `[group][key]`, if the node exists. -/
def YamlDocument.lookup (configuration : YamlDocument) (yaml_group key : String) :
    Option String :=
  (List.find? (fun e => decide (e.1 = yaml_group ∧ e.2.1 = key)) configuration).map
    fun e => e.2.2

/-- The conversions of yaml-cpp from a scalar to the non-string parameter types;
`none` is a scalar that cannot be converted. -/
structure YamlConversions where
  asBool : String → Option Bool
  asReal : String → Option ℚ
  asCount : String → Option Nat
  asInt32 : String → Option Int

/-- The conversion `as<PARAMETER_TYPE>()` of a scalar; `none` stands for
`YAML::TypedBadConversion<PARAMETER_TYPE>`. -/
def YamlConversions.convert (conversions : YamlConversions) (parameter_type : ParameterType)
    (scalar : String) : Option ParameterValue :=
  match parameter_type with
  | .string => some (.text scalar)
  | .bool => (conversions.asBool scalar).map .flag
  | .real => (conversions.asReal scalar).map .number
  | .Count => (conversions.asCount scalar).map .count
  | .int32_t => (conversions.asInt32 scalar).map .integer

/-- The arguments of one `PARSE_PARAMETER` invocation. -/
structure SchemaEntry where
  yaml_group : String
  struct_name : String
  parameter_name : String
  parameter_type : ParameterType
  deriving DecidableEq

/-- The `PARSE_PARAMETER` invocations of lines 300-312: the command line parameters. -/
def commandLineSchema : List SchemaEntry :=
  [{ yaml_group := "command_line", struct_name := "command_line_parameters"
     parameter_name := "topic_image_left", parameter_type := .string },
   { yaml_group := "command_line", struct_name := "command_line_parameters"
     parameter_name := "topic_image_right", parameter_type := .string },
   { yaml_group := "command_line", struct_name := "command_line_parameters"
     parameter_name := "topic_camera_info_left", parameter_type := .string },
   { yaml_group := "command_line", struct_name := "command_line_parameters"
     parameter_name := "topic_camera_info_right", parameter_type := .string },
   { yaml_group := "command_line", struct_name := "command_line_parameters"
     parameter_name := "dataset_file_name", parameter_type := .string },
   { yaml_group := "command_line", struct_name := "command_line_parameters"
     parameter_name := "option_use_gui", parameter_type := .bool },
   { yaml_group := "command_line", struct_name := "command_line_parameters"
     parameter_name := "option_use_odometry", parameter_type := .bool },
   { yaml_group := "command_line", struct_name := "command_line_parameters"
     parameter_name := "option_use_relocalization", parameter_type := .bool },
   { yaml_group := "command_line", struct_name := "command_line_parameters"
     parameter_name := "option_show_top_viewer", parameter_type := .bool },
   { yaml_group := "command_line", struct_name := "command_line_parameters"
     parameter_name := "option_drop_framepoints", parameter_type := .bool },
   { yaml_group := "command_line", struct_name := "command_line_parameters"
     parameter_name := "option_equalize_histogram", parameter_type := .bool },
   { yaml_group := "command_line", struct_name := "command_line_parameters"
     parameter_name := "option_undistort_and_rectify", parameter_type := .bool },
   { yaml_group := "command_line", struct_name := "command_line_parameters"
     parameter_name := "option_recover_landmarks", parameter_type := .bool }]

/-- The `PARSE_PARAMETER` invocations of lines 315-320: world map, landmark and local map. -/
def typesSchema : List SchemaEntry :=
  [{ yaml_group := "world_map", struct_name := "world_map_parameters"
     parameter_name := "minimum_distance_traveled_for_local_map", parameter_type := .real },
   { yaml_group := "world_map", struct_name := "world_map_parameters"
     parameter_name := "minimum_degrees_rotated_for_local_map", parameter_type := .real },
   { yaml_group := "world_map", struct_name := "world_map_parameters"
     parameter_name := "minimum_number_of_frames_for_local_map", parameter_type := .Count },
   { yaml_group := "landmark", struct_name := "world_map_parameters->landmark"
     parameter_name := "minimum_number_of_forced_updates", parameter_type := .Count },
   { yaml_group := "landmark", struct_name := "world_map_parameters->landmark"
     parameter_name := "maximum_translation_error_to_depth_ratio", parameter_type := .real },
   { yaml_group := "local_map", struct_name := "world_map_parameters->local_map"
     parameter_name := "minimum_number_of_landmarks", parameter_type := .Count }]

/-- The `PARSE_PARAMETER` invocations of lines 327-358: framepoint generation and motion estimation
in mode RGB_STEREO. -/
def stereoSchema : List SchemaEntry :=
  [{ yaml_group := "base_framepoint_generation", struct_name := "stereo_framepoint_generator_parameters"
     parameter_name := "target_number_of_keypoints_tolerance", parameter_type := .real },
   { yaml_group := "base_framepoint_generation", struct_name := "stereo_framepoint_generator_parameters"
     parameter_name := "detector_threshold", parameter_type := .int32_t },
   { yaml_group := "base_framepoint_generation", struct_name := "stereo_framepoint_generator_parameters"
     parameter_name := "detector_threshold_minimum", parameter_type := .int32_t },
   { yaml_group := "base_framepoint_generation", struct_name := "stereo_framepoint_generator_parameters"
     parameter_name := "detector_threshold_step_size", parameter_type := .real },
   { yaml_group := "base_framepoint_generation", struct_name := "stereo_framepoint_generator_parameters"
     parameter_name := "matching_distance_tracking_threshold", parameter_type := .int32_t },
   { yaml_group := "base_framepoint_generation", struct_name := "stereo_framepoint_generator_parameters"
     parameter_name := "matching_distance_tracking_threshold_maximum", parameter_type := .int32_t },
   { yaml_group := "base_framepoint_generation", struct_name := "stereo_framepoint_generator_parameters"
     parameter_name := "matching_distance_tracking_threshold_minimum", parameter_type := .int32_t },
   { yaml_group := "base_framepoint_generation", struct_name := "stereo_framepoint_generator_parameters"
     parameter_name := "matching_distance_tracking_step_size", parameter_type := .int32_t },
   { yaml_group := "stereo_framepoint_generation", struct_name := "stereo_framepoint_generator_parameters"
     parameter_name := "maximum_matching_distance_triangulation", parameter_type := .int32_t },
   { yaml_group := "stereo_framepoint_generation", struct_name := "stereo_framepoint_generator_parameters"
     parameter_name := "baseline_factor", parameter_type := .real },
   { yaml_group := "stereo_framepoint_generation", struct_name := "stereo_framepoint_generator_parameters"
     parameter_name := "minimum_disparity_pixels", parameter_type := .real },
   { yaml_group := "stereo_framepoint_generation", struct_name := "stereo_framepoint_generator_parameters"
     parameter_name := "epipolar_line_thickness_pixels", parameter_type := .int32_t },
   { yaml_group := "base_tracking", struct_name := "stereo_tracker_parameters"
     parameter_name := "minimum_track_length_for_landmark_creation", parameter_type := .Count },
   { yaml_group := "base_tracking", struct_name := "stereo_tracker_parameters"
     parameter_name := "minimum_number_of_landmarks_to_track", parameter_type := .Count },
   { yaml_group := "base_tracking", struct_name := "stereo_tracker_parameters"
     parameter_name := "maximum_threshold_distance_tracking_pixels", parameter_type := .int32_t },
   { yaml_group := "base_tracking", struct_name := "stereo_tracker_parameters"
     parameter_name := "minimum_threshold_distance_tracking_pixels", parameter_type := .int32_t },
   { yaml_group := "base_tracking", struct_name := "stereo_tracker_parameters"
     parameter_name := "range_point_tracking", parameter_type := .int32_t },
   { yaml_group := "base_tracking", struct_name := "stereo_tracker_parameters"
     parameter_name := "maximum_distance_tracking_pixels", parameter_type := .int32_t },
   { yaml_group := "base_tracking", struct_name := "stereo_tracker_parameters"
     parameter_name := "enable_landmark_recovery", parameter_type := .bool },
   { yaml_group := "base_tracking", struct_name := "stereo_tracker_parameters"
     parameter_name := "maximum_number_of_landmark_recoveries", parameter_type := .Count },
   { yaml_group := "base_tracking", struct_name := "stereo_tracker_parameters"
     parameter_name := "bin_size_pixels", parameter_type := .Count },
   { yaml_group := "base_tracking", struct_name := "stereo_tracker_parameters"
     parameter_name := "ratio_keypoints_to_bins", parameter_type := .real },
   { yaml_group := "base_tracking", struct_name := "stereo_tracker_parameters"
     parameter_name := "minimum_delta_angular_for_movement", parameter_type := .real },
   { yaml_group := "base_tracking", struct_name := "stereo_tracker_parameters"
     parameter_name := "minimum_delta_translational_for_movement", parameter_type := .real },
   { yaml_group := "base_tracking", struct_name := "stereo_tracker_parameters"
     parameter_name := "aligner->error_delta_for_convergence", parameter_type := .real },
   { yaml_group := "base_tracking", struct_name := "stereo_tracker_parameters"
     parameter_name := "aligner->maximum_error_kernel", parameter_type := .real },
   { yaml_group := "base_tracking", struct_name := "stereo_tracker_parameters"
     parameter_name := "aligner->damping", parameter_type := .real },
   { yaml_group := "base_tracking", struct_name := "stereo_tracker_parameters"
     parameter_name := "aligner->maximum_number_of_iterations", parameter_type := .Count },
   { yaml_group := "base_tracking", struct_name := "stereo_tracker_parameters"
     parameter_name := "aligner->minimum_number_of_inliers", parameter_type := .Count },
   { yaml_group := "base_tracking", struct_name := "stereo_tracker_parameters"
     parameter_name := "aligner->minimum_inlier_ratio", parameter_type := .real }]

/-- The `PARSE_PARAMETER` invocations of lines 364-393: framepoint generation and motion estimation
in mode RGB_DEPTH. -/
def depthSchema : List SchemaEntry :=
  [{ yaml_group := "base_framepoint_generation", struct_name := "depth_framepoint_generator_parameters"
     parameter_name := "target_number_of_keypoints_tolerance", parameter_type := .real },
   { yaml_group := "base_framepoint_generation", struct_name := "depth_framepoint_generator_parameters"
     parameter_name := "detector_threshold", parameter_type := .int32_t },
   { yaml_group := "base_framepoint_generation", struct_name := "depth_framepoint_generator_parameters"
     parameter_name := "detector_threshold_minimum", parameter_type := .int32_t },
   { yaml_group := "base_framepoint_generation", struct_name := "depth_framepoint_generator_parameters"
     parameter_name := "detector_threshold_step_size", parameter_type := .real },
   { yaml_group := "base_framepoint_generation", struct_name := "depth_framepoint_generator_parameters"
     parameter_name := "matching_distance_tracking_threshold", parameter_type := .int32_t },
   { yaml_group := "base_framepoint_generation", struct_name := "depth_framepoint_generator_parameters"
     parameter_name := "matching_distance_tracking_threshold_maximum", parameter_type := .int32_t },
   { yaml_group := "base_framepoint_generation", struct_name := "depth_framepoint_generator_parameters"
     parameter_name := "matching_distance_tracking_threshold_minimum", parameter_type := .int32_t },
   { yaml_group := "base_framepoint_generation", struct_name := "depth_framepoint_generator_parameters"
     parameter_name := "matching_distance_tracking_step_size", parameter_type := .int32_t },
   { yaml_group := "depth_framepoint_generation", struct_name := "depth_framepoint_generator_parameters"
     parameter_name := "maximum_depth_near_meters", parameter_type := .real },
   { yaml_group := "depth_framepoint_generation", struct_name := "depth_framepoint_generator_parameters"
     parameter_name := "maximum_depth_far_meters", parameter_type := .real },
   { yaml_group := "base_tracking", struct_name := "depth_tracker_parameters"
     parameter_name := "minimum_track_length_for_landmark_creation", parameter_type := .Count },
   { yaml_group := "base_tracking", struct_name := "depth_tracker_parameters"
     parameter_name := "minimum_number_of_landmarks_to_track", parameter_type := .Count },
   { yaml_group := "base_tracking", struct_name := "depth_tracker_parameters"
     parameter_name := "maximum_threshold_distance_tracking_pixels", parameter_type := .int32_t },
   { yaml_group := "base_tracking", struct_name := "depth_tracker_parameters"
     parameter_name := "minimum_threshold_distance_tracking_pixels", parameter_type := .int32_t },
   { yaml_group := "base_tracking", struct_name := "depth_tracker_parameters"
     parameter_name := "range_point_tracking", parameter_type := .int32_t },
   { yaml_group := "base_tracking", struct_name := "depth_tracker_parameters"
     parameter_name := "maximum_distance_tracking_pixels", parameter_type := .int32_t },
   { yaml_group := "base_tracking", struct_name := "depth_tracker_parameters"
     parameter_name := "enable_landmark_recovery", parameter_type := .bool },
   { yaml_group := "base_tracking", struct_name := "depth_tracker_parameters"
     parameter_name := "maximum_number_of_landmark_recoveries", parameter_type := .Count },
   { yaml_group := "base_tracking", struct_name := "depth_tracker_parameters"
     parameter_name := "bin_size_pixels", parameter_type := .Count },
   { yaml_group := "base_tracking", struct_name := "depth_tracker_parameters"
     parameter_name := "ratio_keypoints_to_bins", parameter_type := .real },
   { yaml_group := "base_tracking", struct_name := "depth_tracker_parameters"
     parameter_name := "minimum_delta_angular_for_movement", parameter_type := .real },
   { yaml_group := "base_tracking", struct_name := "depth_tracker_parameters"
     parameter_name := "minimum_delta_translational_for_movement", parameter_type := .real },
   { yaml_group := "base_tracking", struct_name := "depth_tracker_parameters"
     parameter_name := "aligner->error_delta_for_convergence", parameter_type := .real },
   { yaml_group := "base_tracking", struct_name := "depth_tracker_parameters"
     parameter_name := "aligner->maximum_error_kernel", parameter_type := .real },
   { yaml_group := "base_tracking", struct_name := "depth_tracker_parameters"
     parameter_name := "aligner->damping", parameter_type := .real },
   { yaml_group := "base_tracking", struct_name := "depth_tracker_parameters"
     parameter_name := "aligner->maximum_number_of_iterations", parameter_type := .Count },
   { yaml_group := "base_tracking", struct_name := "depth_tracker_parameters"
     parameter_name := "aligner->minimum_number_of_inliers", parameter_type := .Count },
   { yaml_group := "base_tracking", struct_name := "depth_tracker_parameters"
     parameter_name := "aligner->minimum_inlier_ratio", parameter_type := .real }]

/-- The `PARSE_PARAMETER` invocations of lines 403-412: relocalization. -/
def relocalizationSchema : List SchemaEntry :=
  [{ yaml_group := "relocalization", struct_name := "relocalizer_parameters"
     parameter_name := "preliminary_minimum_interspace_queries", parameter_type := .Count },
   { yaml_group := "relocalization", struct_name := "relocalizer_parameters"
     parameter_name := "preliminary_minimum_matching_ratio", parameter_type := .real },
   { yaml_group := "relocalization", struct_name := "relocalizer_parameters"
     parameter_name := "minimum_number_of_matches_per_landmark", parameter_type := .Count },
   { yaml_group := "relocalization", struct_name := "relocalizer_parameters"
     parameter_name := "minimum_matches_per_correspondence", parameter_type := .Count },
   { yaml_group := "relocalization", struct_name := "relocalizer_parameters"
     parameter_name := "aligner->error_delta_for_convergence", parameter_type := .real },
   { yaml_group := "relocalization", struct_name := "relocalizer_parameters"
     parameter_name := "aligner->maximum_error_kernel", parameter_type := .real },
   { yaml_group := "relocalization", struct_name := "relocalizer_parameters"
     parameter_name := "aligner->damping", parameter_type := .real },
   { yaml_group := "relocalization", struct_name := "relocalizer_parameters"
     parameter_name := "aligner->maximum_number_of_iterations", parameter_type := .Count },
   { yaml_group := "relocalization", struct_name := "relocalizer_parameters"
     parameter_name := "aligner->minimum_number_of_inliers", parameter_type := .Count },
   { yaml_group := "relocalization", struct_name := "relocalizer_parameters"
     parameter_name := "aligner->minimum_inlier_ratio", parameter_type := .real }]

/-- The `PARSE_PARAMETER` invocations of lines 415-418: pose graph optimization. -/
def graphOptimizationSchema : List SchemaEntry :=
  [{ yaml_group := "graph_optimization", struct_name := "graph_optimizer_parameters"
     parameter_name := "identifier_space", parameter_type := .Count },
   { yaml_group := "graph_optimization", struct_name := "graph_optimizer_parameters"
     parameter_name := "number_of_frames_per_bundle_adjustment", parameter_type := .Count },
   { yaml_group := "graph_optimization", struct_name := "graph_optimizer_parameters"
     parameter_name := "base_information_frame", parameter_type := .real },
   { yaml_group := "graph_optimization", struct_name := "graph_optimizer_parameters"
     parameter_name := "enable_robust_kernel_for_landmark_measurements", parameter_type := .bool }]
/-- The command line parameters that `parseFromFile` assigns (lines 300-312). -/
inductive CommandLineField where
  | topic_image_left
  | topic_image_right
  | topic_camera_info_left
  | topic_camera_info_right
  | dataset_file_name
  | option_use_gui
  | option_use_odometry
  | option_use_relocalization
  | option_show_top_viewer
  | option_drop_framepoints
  | option_equalize_histogram
  | option_undistort_and_rectify
  | option_recover_landmarks
  deriving DecidableEq

/-- The fields by the names under which the macro is invoked for them. -/
def commandLineFields : List (String × CommandLineField) :=
  [("topic_image_left", .topic_image_left),
   ("topic_image_right", .topic_image_right),
   ("topic_camera_info_left", .topic_camera_info_left),
   ("topic_camera_info_right", .topic_camera_info_right),
   ("dataset_file_name", .dataset_file_name),
   ("option_use_gui", .option_use_gui),
   ("option_use_odometry", .option_use_odometry),
   ("option_use_relocalization", .option_use_relocalization),
   ("option_show_top_viewer", .option_show_top_viewer),
   ("option_drop_framepoints", .option_drop_framepoints),
   ("option_equalize_histogram", .option_equalize_histogram),
   ("option_undistort_and_rectify", .option_undistort_and_rectify),
   ("option_recover_landmarks", .option_recover_landmarks)]

/-- The field that the macro argument `PARAMETER_NAME` names. -/
def CommandLineField.ofName (parameter_name : String) : Option CommandLineField :=
  (commandLineFields.find? fun e => decide (e.1 = parameter_name)).map fun e => e.2

/-- The assignment to a field of the command line parameters: strings to the
`std::string` fields, booleans to the `bool` fields. -/
def CommandLineParameters.set (c : CommandLineParameters) (field : CommandLineField)
    (value : ParameterValue) : CommandLineParameters :=
  match field, value with
  | .topic_image_left, .text s => { c with topic_image_left := s }
  | .topic_image_right, .text s => { c with topic_image_right := s }
  | .topic_camera_info_left, .text s => { c with topic_camera_info_left := s }
  | .topic_camera_info_right, .text s => { c with topic_camera_info_right := s }
  | .dataset_file_name, .text s => { c with dataset_file_name := s }
  | .option_use_gui, .flag b => { c with option_use_gui := b }
  | .option_use_odometry, .flag b => { c with option_use_odometry := b }
  | .option_use_relocalization, .flag b => { c with option_use_relocalization := b }
  | .option_show_top_viewer, .flag b => { c with option_show_top_viewer := b }
  | .option_drop_framepoints, .flag b => { c with option_drop_framepoints := b }
  | .option_equalize_histogram, .flag b => { c with option_equalize_histogram := b }
  | .option_undistort_and_rectify, .flag b => { c with option_undistort_and_rectify := b }
  | .option_recover_landmarks, .flag b => { c with option_recover_landmarks := b }
  | _, _ => c

/-- The value of a field of the command line parameters. -/
def CommandLineParameters.get (c : CommandLineParameters) (field : CommandLineField) :
    ParameterValue :=
  match field with
  | .topic_image_left => .text c.topic_image_left
  | .topic_image_right => .text c.topic_image_right
  | .topic_camera_info_left => .text c.topic_camera_info_left
  | .topic_camera_info_right => .text c.topic_camera_info_right
  | .dataset_file_name => .text c.dataset_file_name
  | .option_use_gui => .flag c.option_use_gui
  | .option_use_odometry => .flag c.option_use_odometry
  | .option_use_relocalization => .flag c.option_use_relocalization
  | .option_show_top_viewer => .flag c.option_show_top_viewer
  | .option_drop_framepoints => .flag c.option_drop_framepoints
  | .option_equalize_histogram => .flag c.option_equalize_histogram
  | .option_undistort_and_rectify => .flag c.option_undistort_and_rectify
  | .option_recover_landmarks => .flag c.option_recover_landmarks

/-- The assignment `command_line_parameters->PARAMETER_NAME = value`. -/
def CommandLineParameters.assign (c : CommandLineParameters) (parameter_name : String)
    (value : ParameterValue) : CommandLineParameters :=
  match CommandLineField.ofName parameter_name with
  | some field => c.set field value
  | none => c

/-- The value of `command_line_parameters->PARAMETER_NAME`. -/
def CommandLineParameters.value (c : CommandLineParameters) (parameter_name : String) :
    Option ParameterValue :=
  (CommandLineField.ofName parameter_name).map c.get

/-- The assignment `STRUCT_NAME->PARAMETER_NAME = value`. -/
def ParameterCollection.assign (p : ParameterCollection) (struct_name parameter_name : String)
    (value : ParameterValue) : ParameterCollection :=
  if struct_name = "command_line_parameters" then
    { p with command_line_parameters := p.command_line_parameters.assign parameter_name value }
  else { p with values := p.values.write struct_name parameter_name value }

/-- The value of `STRUCT_NAME->PARAMETER_NAME`; for the structs other than the
command line parameters `none` is the value the struct was constructed with. -/
def ParameterCollection.value (p : ParameterCollection) (struct_name parameter_name : String) :
    Option ParameterValue :=
  if struct_name = "command_line_parameters" then
    p.command_line_parameters.value parameter_name
  else p.values.find struct_name parameter_name

/-- The macro `PARSE_PARAMETER` (lines 36-44): the parameter is counted as
detected; when the conversion succeeds it is assigned and counted as parsed;
`YAML::TypedBadConversion<PARAMETER_TYPE>` is caught (a warning is logged). -/
def parseParameter (conversions : YamlConversions) (configuration : YamlDocument)
    (p : ParameterCollection) (entry : SchemaEntry) : ParameterCollection :=
  let detected : ParameterCollection :=
    { p with number_of_parameters_detected := p.number_of_parameters_detected + 1 }
  match (configuration.lookup entry.yaml_group entry.parameter_name).bind
      (conversions.convert entry.parameter_type) with
  | some value =>
    let assigned := detected.assign entry.struct_name entry.parameter_name value
    { assigned with number_of_parameters_parsed := assigned.number_of_parameters_parsed + 1 }
  | none => detected

/-- `ParameterCollection::setMode` (lines 441-462).  The allocation of the mode
specific structs is not modelled; the `default` case is not reachable with the
two enumerators. -/
def setMode (p : ParameterCollection) (mode_ : TrackerMode) : ParameterCollection :=
  match mode_ with
  | .RGB_STEREO =>
    if p.command_line_parameters.option_recover_landmarks = true then
      { p with values :=
          p.values.write "stereo_tracker_parameters" "enable_landmark_recovery" (.flag true) }
    else p
  | .RGB_DEPTH =>
    if p.command_line_parameters.option_recover_landmarks = true then
      { p with values :=
          p.values.write "depth_tracker_parameters" "enable_landmark_recovery" (.flag true) }
    else p

/-- The `PARSE_PARAMETER` invocations of lines 300-418 in the order in which
they are executed for the tracker mode `mode_`. -/
def schema (mode_ : TrackerMode) : List SchemaEntry :=
  commandLineSchema ++ typesSchema ++
    (match mode_ with
      | .RGB_STEREO => stereoSchema
      | .RGB_DEPTH => depthSchema) ++
    relocalizationSchema ++ graphOptimizationSchema

/-- Lines 296-418 of `parseFromFile`, after the tracker mode has been set:
`setMode` and the `PARSE_PARAMETER` invocations. -/
def parseParameters (conversions : YamlConversions) (configuration : YamlDocument)
    (p : ParameterCollection) : ParameterCollection :=
  (schema p.command_line_parameters.tracker_mode).foldl (parseParameter conversions configuration)
    (setMode p p.command_line_parameters.tracker_mode)

/-- `ParameterCollection::parseFromFile` (lines 279-426).  `file` is what
`YAML::LoadFile` returns, `none` when it throws `YAML::BadFile`, which is
caught on line 421.  The tracker mode is read on line 286 outside any
`PARSE_PARAMETER`, so that its `YAML::TypedBadConversion` is not caught.  An
exception leaves the collection as it is at the throw. -/
def parseFromFile (conversions : YamlConversions) (file : Option YamlDocument)
    (p : ParameterCollection) : Except (ParseError × ParameterCollection) ParameterCollection :=
  match file with
  | none => .ok p
  | some configuration =>
    match configuration.lookup "command_line" "tracker_mode" with
    | none => .error (.bad_conversion, p)
    | some tracker_mode =>
      if tracker_mode = "RGB_STEREO" then
        .ok (parseParameters conversions configuration
          { p with command_line_parameters :=
              { p.command_line_parameters with tracker_mode := .RGB_STEREO } })
      else if tracker_mode = "RGB_DEPTH" then
        .ok (parseParameters conversions configuration
          { p with command_line_parameters :=
              { p.command_line_parameters with tracker_mode := .RGB_DEPTH } })
      else .error (.invalid_tracker_mode, p)

/-- `ParameterCollection::validateParameters` (lines 428-439). -/
def validateParameters (p : ParameterCollection) :
    Except (ParseError × ParameterCollection) ParameterCollection :=
  if p.command_line_parameters.topic_image_left.length = 0 then
    .error (.empty_topic_image_left, p)
  else if p.command_line_parameters.topic_image_right.length = 0 then
    .error (.empty_topic_image_right, p)
  else .ok p
/-- What the process finds in the file system: `srrg_core::isAccessible` and the
result of `YAML::LoadFile` (`none`: `YAML::BadFile`). -/
structure FileSystem where
  isAccessible : String → Bool
  loadFile : String → Option YamlDocument

/-- The options of the command line that take a value (lines 223-238). -/
inductive ValueOption where
  | topic_image_left
  | topic_image_right
  | topic_camera_info_left
  | topic_camera_info_right
  deriving DecidableEq

/-- The options of the command line without value (lines 245-262). -/
inductive FlagOption where
  | use_gui
  | open_loop
  | show_top
  | drop_framepoints
  | equalize_histogram
  | undistort_rectify
  | depth_mode
  | use_odometry
  | recover_landmarks
  deriving DecidableEq

/-- The branches of the second loop of `parseFromCommandLine`. -/
inductive ArgumentKind where
  | value (option : ValueOption)
  | help
  | flag (option : FlagOption)
  | configuration
  | positional
  deriving DecidableEq

/-- The chain of `strcmp` tests of lines 223-268, in the order of the source. -/
def classify (argument : String) : ArgumentKind :=
  if argument = "-topic-image-left" ∨ argument = "-il" then .value .topic_image_left
  else if argument = "-topic-image-right" ∨ argument = "-ir" then .value .topic_image_right
  else if argument = "-topic-camera-info-left" ∨ argument = "-cl" then
    .value .topic_camera_info_left
  else if argument = "-topic-camera-info-right" ∨ argument = "-cr" then
    .value .topic_camera_info_right
  else if argument = "-h" ∨ argument = "--h" then .help
  else if argument = "-help" ∨ argument = "--help" then .help
  else if argument = "-use-gui" ∨ argument = "-ug" then .flag .use_gui
  else if argument = "-open-loop" ∨ argument = "-ol" then .flag .open_loop
  else if argument = "-show-top" ∨ argument = "-st" then .flag .show_top
  else if argument = "-drop-framepoints" ∨ argument = "-df" then .flag .drop_framepoints
  else if argument = "-equalize-histogram" ∨ argument = "-eh" then .flag .equalize_histogram
  else if argument = "-undistort-rectify" ∨ argument = "-ur" then .flag .undistort_rectify
  else if argument = "-depth-mode" ∨ argument = "-dm" then .flag .depth_mode
  else if argument = "-use-odometry" ∨ argument = "-uo" then .flag .use_odometry
  else if argument = "-recover-landmarks" ∨ argument = "-rl" then .flag .recover_landmarks
  else if argument = "-configuration" ∨ argument = "-c" then .configuration
  else .positional

/-- The assignments of lines 226, 230, 234 and 238. -/
def CommandLineParameters.setValue (c : CommandLineParameters) (option : ValueOption)
    (value : String) : CommandLineParameters :=
  match option with
  | .topic_image_left => { c with topic_image_left := value }
  | .topic_image_right => { c with topic_image_right := value }
  | .topic_camera_info_left => { c with topic_camera_info_left := value }
  | .topic_camera_info_right => { c with topic_camera_info_right := value }

/-- The assignments of lines 246-262. -/
def CommandLineParameters.setFlag (c : CommandLineParameters) (option : FlagOption) :
    CommandLineParameters :=
  match option with
  | .use_gui => { c with option_use_gui := true }
  | .open_loop => { c with option_use_relocalization := false }
  | .show_top => { c with option_show_top_viewer := true }
  | .drop_framepoints => { c with option_drop_framepoints := true }
  | .equalize_histogram => { c with option_equalize_histogram := true }
  | .undistort_rectify => { c with option_undistort_and_rectify := true }
  | .depth_mode => { c with tracker_mode := .RGB_DEPTH }
  | .use_odometry => { c with option_use_odometry := true }
  | .recover_landmarks => { c with option_recover_landmarks := true }

/-- The first loop of `parseFromCommandLine` (lines 190-200) over `argv[1..]`:
the value of the first `-configuration` or `-c`, if it has one. -/
def skimConfiguration : List String → Option String
  | [] => none
  | argument :: rest =>
    if argument = "-configuration" ∨ argument = "-c" then rest.head?
    else skimConfiguration rest

/-- The second loop of `parseFromCommandLine` (lines 222-270) over `argv[1..]`.
An option that takes a value and is the last argument ends the loop. -/
def scanArguments :
    List String → ParameterCollection →
      Except (ParseError × ParameterCollection) ParameterCollection
  | [], p => .ok p
  | argument :: rest, p =>
    match classify argument with
    | .value option =>
      match rest with
      | [] => .ok p
      | value :: rest' =>
        scanArguments rest'
          { p with command_line_parameters := p.command_line_parameters.setValue option value }
    | .help => .error (.help_requested, p)
    | .flag option =>
      scanArguments rest
        { p with command_line_parameters := p.command_line_parameters.setFlag option }
    | .configuration =>
      match rest with
      | [] => .ok p
      | _ :: rest' => scanArguments rest' p
    | .positional =>
      scanArguments rest
        (if p.command_line_parameters.dataset_file_name.length = 0 then
          { p with command_line_parameters :=
              { p.command_line_parameters with dataset_file_name := argument } }
        else p)

/-- Lines 190-219 of `parseFromCommandLine`: the name of the configuration file
is taken from the command line and the file, if one is named, is parsed. -/
def loadConfiguration (files : FileSystem) (conversions : YamlConversions)
    (arguments : List String) (p : ParameterCollection) :
    Except (ParseError × ParameterCollection) ParameterCollection :=
  let named : ParameterCollection :=
    match skimConfiguration arguments with
    | some name =>
      { p with command_line_parameters :=
          { p.command_line_parameters with configuration_file_name := name } }
    | none => p
  if named.command_line_parameters.configuration_file_name.length = 0 then .ok named
  else if files.isAccessible named.command_line_parameters.configuration_file_name = false then
    .error (.configuration_file_not_accessible, named)
  else
    parseFromFile conversions
      (files.loadFile named.command_line_parameters.configuration_file_name) named

/-- Lines 190-273 of `parseFromCommandLine`: all of it but the final call of
`validateParameters`. -/
def processCommandLine (files : FileSystem) (conversions : YamlConversions)
    (arguments : List String) (p : ParameterCollection) :
    Except (ParseError × ParameterCollection) ParameterCollection :=
  match loadConfiguration files conversions arguments p with
  | .error e => .error e
  | .ok configured =>
    match scanArguments arguments configured with
    | .error e => .error e
    | .ok scanned => .ok (setMode scanned scanned.command_line_parameters.tracker_mode)

/-- `ParameterCollection::parseFromCommandLine` (lines 188-277); `arguments` is
`argv[1..argc-1]`. -/
def parseFromCommandLine (files : FileSystem) (conversions : YamlConversions)
    (arguments : List String) (p : ParameterCollection) :
    Except (ParseError × ParameterCollection) ParameterCollection :=
  match processCommandLine files conversions arguments p with
  | .error e => .error e
  | .ok processed => validateParameters processed

/-- The positional tokens of a command line, as the usage text has them: the
arguments that are neither an option nor the value of an option. -/
def positionalArguments : List String → List String
  | [] => []
  | argument :: rest =>
    match classify argument with
    | .value _ =>
      match rest with
      | [] => []
      | _ :: rest' => positionalArguments rest'
    | .help => positionalArguments rest
    | .flag _ => positionalArguments rest
    | .configuration =>
      match rest with
      | [] => []
      | _ :: rest' => positionalArguments rest'
    | .positional => argument :: positionalArguments rest

/-- Conversions for the examples: the booleans `true` and `false`; the examples
hold no numbers. -/
def exampleConversions : YamlConversions :=
  { asBool := fun scalar =>
      if scalar = "true" then some true else if scalar = "false" then some false else none
    asReal := fun _ => none
    asCount := fun _ => none
    asInt32 := fun _ => none }

/-- A collection in which no name and no topic is set. -/
def unsetParameters : ParameterCollection :=
  { command_line_parameters :=
      { configuration_file_name := ""
        topic_image_left := ""
        topic_image_right := ""
        topic_camera_info_left := ""
        topic_camera_info_right := ""
        dataset_file_name := ""
        tracker_mode := .RGB_STEREO
        option_use_gui := false
        option_use_odometry := false
        option_use_relocalization := true
        option_show_top_viewer := false
        option_drop_framepoints := false
        option_equalize_histogram := false
        option_undistort_and_rectify := false
        option_recover_landmarks := false }
    values := []
    number_of_parameters_detected := 0
    number_of_parameters_parsed := 0 }

/-- A configuration document with both image topics and a dataset, without
tracker mode. -/
def documentWithoutTrackerMode : YamlDocument :=
  [("command_line", "topic_image_left", "/camera/left/image_raw"),
   ("command_line", "topic_image_right", "/camera/right/image_raw"),
   ("command_line", "dataset_file_name", "from_file.txt")]

/-- The same document with the tracker mode `RGB_STEREO`. -/
def documentWithTrackerMode : YamlDocument :=
  ("command_line", "tracker_mode", "RGB_STEREO") :: documentWithoutTrackerMode

/-- A file system without files. -/
def noFiles : FileSystem :=
  { isAccessible := fun _ => false
    loadFile := fun _ => none }

/-- A file system with the one configuration file `configuration.yaml`. -/
def oneFile : FileSystem :=
  { isAccessible := fun name => decide (name = "configuration.yaml")
    loadFile := fun name =>
      if name = "configuration.yaml" then some documentWithTrackerMode else none }
/-- The first token of non-zero length, the empty string if there is none. -/
def firstNonEmpty (tokens : List String) : String :=
  (tokens.find? fun token => decide (token.length ≠ 0)).getD ""

/-! ## Further predicates and runs -/

/-- The batch with every correspondence that is not an inlier taken out of every
closure. -/
def dropOutliers (closures_ : List ClosureConstraint) : List ClosureConstraint :=
  closures_.map fun closure =>
    { closure with
      landmark_correspondences :=
        closure.landmark_correspondences.filter fun c => c.is_inlier }

/-- Every entry of the tracked-landmark cache is in the landmark table. -/
def CacheOk (s : MergeState) : Prop :=
  ∀ x ∈ s._currently_tracked_landmarks, (s._landmarks.find x).isSome = true

/-- The states reached from `w` by `createFrame`, `createLocalMap` and
`breakTrack`, that is without a relocalization (`addLoopClosure`). -/
inductive WithoutRelocalization (add : real → real → real) (w : WorldMap) :
    WorldMap → Prop
  | start : WithoutRelocalization add w w
  | createFrame (v : WorldMap) :
      WithoutRelocalization add w v → WithoutRelocalization add w (createFrame v).2
  | createLocalMap (v v' : WorldMap) (drop_framepoints_ b : Bool)
      (distance_last_to_current degrees_last_to_current : real) :
      WithoutRelocalization add w v →
      createLocalMap add v drop_framepoints_ distance_last_to_current degrees_last_to_current
        = some (b, v') →
      WithoutRelocalization add w v'
  | breakTrack (v v' : WorldMap) (frame_ : Identifier) :
      WithoutRelocalization add w v →
      breakTrack v frame_ = some v' →
      WithoutRelocalization add w v'

/-- The states reached from `w` by `createFrame`, by calls of `createLocalMap`
that return false and by `breakTrack`: no local map is created on the way. -/
inductive WithoutLocalMap (add : real → real → real) (w : WorldMap) : WorldMap → Prop
  | start : WithoutLocalMap add w w
  | createFrame (v : WorldMap) :
      WithoutLocalMap add w v → WithoutLocalMap add w (createFrame v).2
  | createLocalMap (v v' : WorldMap) (drop_framepoints_ : Bool)
      (distance_last_to_current degrees_last_to_current : real) :
      WithoutLocalMap add w v →
      createLocalMap add v drop_framepoints_ distance_last_to_current degrees_last_to_current
        = some (false, v') →
      WithoutLocalMap add w v'
  | breakTrack (v v' : WorldMap) (frame_ : Identifier) :
      WithoutLocalMap add w v →
      breakTrack v frame_ = some v' →
      WithoutLocalMap add w v'

/-- The world map after a second track break: after the break at frame 5,
frames 6 to 8 are tracked, frame 9 is created and the track breaks at it. -/
def worldAfterSecondBreak : WorldMap :=
  ((trackFrames 3 worldAfterBreak).bind fun w => breakTrack (createFrame w).2 9).getD
    (WorldMap.fresh runParameters)

/-- The batch of the merge scenario with two correspondences added that are not
inliers. -/
def outlierBatch : List ClosureConstraint :=
  [{ landmark_correspondences :=
      [{ query := 7, reference := 4, matching_count := 90, is_inlier := false },
        { query := 10, reference := 3, matching_count := 50, is_inlier := true },
        { query := 10, reference := 7, matching_count := 30, is_inlier := true },
        { query := 10, reference := 4, matching_count := 70, is_inlier := false },
        { query := 4, reference := 3, matching_count := 40, is_inlier := true }] }]

/-- A batch without inliers. -/
def onlyOutliersBatch : List ClosureConstraint :=
  [{ landmark_correspondences :=
      [{ query := 10, reference := 3, matching_count := 50, is_inlier := false },
        { query := 4, reference := 3, matching_count := 40, is_inlier := false }] }]

/-- The world map at frame 8 of the run with the track break at frame 5, before
`createLocalMap` is called for it: frames 6 and 7 are tracked and frame 8 has
been created. -/
def worldAtFrameEight : WorldMap :=
  ((trackFrames 2 worldAfterBreak).map fun w => (createFrame w).2).getD
    (WorldMap.fresh runParameters)

/-- The world map after frame 8: local map 1, the first one after the break, is
anchored at frame 8. -/
def worldAfterFrameEight : WorldMap :=
  (trackFrames 3 worldAfterBreak).getD (WorldMap.fresh runParameters)

/-- A run with `drop_framepoints`: frames 0 to 2 are tracked, which closes the
window of local map 0 at frame 2, and frame 3 has been created. -/
def worldAtFrameThree : WorldMap :=
  ((trackAlong exactSum true [(1, 0), (1, 0), (1, 0)] (WorldMap.fresh runParameters)).map
    fun r => (createFrame r.2).2).getD (WorldMap.fresh runParameters)

/-- A run in which the track breaks at frame 1, before any local map exists:
frame 0 is tracked, frame 1 is created and the track breaks at it, frames 2 to
7 are tracked (local map 0 is anchored at frame 4, local map 1 at frame 7). -/
def worldEarlyBreak : WorldMap :=
  (((trackFrames 1 (WorldMap.fresh runParameters)).bind fun w =>
      breakTrack (createFrame w).2 1).bind (trackFrames 6)).getD
    (WorldMap.fresh runParameters)

/-- The correspondences of a batch, in the order of the first loop. -/
def allCorrespondences : List ClosureConstraint → List Correspondence
  | [] => []
  | closure :: rest => closure.landmark_correspondences ++ allCorrespondences rest

/-- The landmark identifiers that a list of correspondences names, with
repetitions. -/
def namedIdentifiers : List Correspondence → List Identifier
  | [] => []
  | c :: rest => c.query :: c.reference :: namedIdentifiers rest

/-- The larger of the two identifiers of a correspondence (`identifier_query`
after lines 308-310). -/
def Correspondence.larger (c : Correspondence) : Identifier :=
  if c.query < c.reference then c.reference else c.query

/-- The smaller of the two identifiers of a correspondence
(`identifier_reference` after lines 308-310). -/
def Correspondence.smaller (c : Correspondence) : Identifier :=
  if c.query < c.reference then c.query else c.reference

/-- What is known of the filter state after the correspondences `done` when no
identifier is named twice: the query map holds one entry per correspondence,
from its larger to its smaller identifier, and the keys of the reference map
are smaller identifiers of these correspondences. -/
def FilteredPairs (f : FilterState) (done : List Correspondence) : Prop :=
  (∀ p, p ∈ f.landmark_queries_to_references_filtered ↔
    ∃ c ∈ done, p = (c.larger, (c.smaller, c.matching_count))) ∧
  (∀ p ∈ f.landmark_references_to_queries_filtered, ∃ c ∈ done, p.1 = c.smaller) ∧
  f.landmark_queries_to_references_filtered.length = done.length

/-- Six landmarks, each in a local map of its own. -/
def disjointWorld : WorldMap :=
  { _landmarks :=
      [(1, { _local_maps := [1], observations := [] }),
       (2, { _local_maps := [2], observations := [] }),
       (3, { _local_maps := [3], observations := [] }),
       (4, { _local_maps := [4], observations := [] }),
       (5, { _local_maps := [5], observations := [] }),
       (6, { _local_maps := [6], observations := [] }),
       (7, { _local_maps := [7], observations := [] })]
    _currently_tracked_landmarks := [1, 2, 3, 4, 5, 6, 7]
    _number_of_merged_landmarks := 0 }

/-- A batch of three inlier correspondences that name six different
landmarks. -/
def disjointBatch : List ClosureConstraint :=
  [{ landmark_correspondences :=
      [{ query := 2, reference := 1, matching_count := 10, is_inlier := true },
       { query := 3, reference := 6, matching_count := 20, is_inlier := true }] },
   { landmark_correspondences :=
      [{ query := 5, reference := 4, matching_count := 30, is_inlier := true }] }]

/-! ## Predicates used in the statements -/

/-- Increasing key order: what iteration over a `std::map` guarantees. -/
def StdMap.Sorted {V : Type} (m : StdMap V) : Prop := m.Pairwise (fun a b => a.1 < b.1)

/-- The filtered query map is in key order and no entry points above its key. -/
def QueryMapOk (m : StdMap (Identifier × Count)) : Prop :=
  StdMap.Sorted m ∧ ∀ p ∈ m, p.2.1 ≤ p.1

/-- Every recorded merge `q -> r` has `q` out of the table, `r` in it and
`r < q`. -/
def MergedOk (s : MergeState) : Prop :=
  ∀ q r, s.merged_landmark_identifiers.find q = some r →
    s._landmarks.find q = none ∧ (s._landmarks.find r).isSome = true ∧ r < q

/-- The number of landmarks of the table `before` that have no entry in the
table `after`. -/
def removedLandmarks (before after : StdMap Landmark) : Nat :=
  (before.filter fun p => (after.find p.1).isNone).length

/-- The table of the loop state is in key order, its keys are a sub-sequence of
the keys of `table`, and together with the recorded merges it is as large as
`table`. -/
def CountOk (table : StdMap Landmark) (s : MergeState) : Prop :=
  StdMap.Sorted s._landmarks ∧
    (s._landmarks.map Prod.fst).Sublist (table.map Prod.fst) ∧
    s._landmarks.length + s.merged_landmark_identifiers.length = table.length

/-! ## Concrete inputs used in evaluations -/

/-- A landmark that appears in the given local maps and has no observation yet. -/
def landmarkIn (local_maps : List Identifier) : Landmark :=
  { _local_maps := local_maps, observations := [] }

/-- An inlier correspondence. -/
def inlier (query reference : Identifier) (matching_count : Count) : Correspondence :=
  { query := query, reference := reference, matching_count := matching_count,
    is_inlier := true }

/-- Landmarks 3, 4, 7 and 10, each in a local map of its own; all four are in the
tracked-landmark cache. -/
def scenarioWorld : WorldMap :=
  { _landmarks := [(3, landmarkIn [1]), (4, landmarkIn [2]), (7, landmarkIn [3]),
      (10, landmarkIn [4])]
    _currently_tracked_landmarks := [10, 4, 3, 7]
    _number_of_merged_landmarks := 0 }

/-- The batch of the merge scenario: (10,3,50), (10,7,30), (4,3,40). -/
def scenarioBatch : List ClosureConstraint :=
  [{ landmark_correspondences := [inlier 10 3 50, inlier 10 7 30, inlier 4 3 40] }]

/-- Landmarks 3, 5 and 10 in three different local maps. -/
def chainWorld : WorldMap :=
  { _landmarks := [(3, landmarkIn [1]), (5, landmarkIn [2]), (10, landmarkIn [3])]
    _currently_tracked_landmarks := [10, 5, 3]
    _number_of_merged_landmarks := 0 }

/-- Two closures whose pairs chain: 5 goes into 3, and 10 names 5 (here with the
older landmark on the query side of the correspondence). -/
def chainBatch : List ClosureConstraint :=
  [{ landmark_correspondences := [inlier 3 5 1] },
   { landmark_correspondences := [inlier 5 10 1] }]

/-- Landmarks 3, 5 and 10 where 10 and 3 appear in the same local map. -/
def chainWorldShared : WorldMap :=
  { _landmarks := [(3, landmarkIn [1]), (5, landmarkIn [2]), (10, landmarkIn [1])]
    _currently_tracked_landmarks := [10, 5, 3]
    _number_of_merged_landmarks := 0 }

/-- The second loop's state for `chainWorld` after landmark 5 went into 3. -/
def chainStateAfterFirst : MergeState :=
  { _landmarks := [(3, Landmark.merge (landmarkIn [1]) (landmarkIn [2])), (10, landmarkIn [3])]
    _currently_tracked_landmarks := [10, 3, 3]
    merged_landmark_identifiers := [(5, 3)] }

/-- The second loop's state for `chainWorld` after both merges. -/
def chainStateAfterSecond : MergeState :=
  { _landmarks :=
      [(3, Landmark.merge (Landmark.merge (landmarkIn [1]) (landmarkIn [2])) (landmarkIn [3]))]
    _currently_tracked_landmarks := [3, 3, 3]
    merged_landmark_identifiers := [(5, 3), (10, 3)] }

/-- The batch with every correspondence whose two identifiers are equal taken
out of every closure. -/
def dropSelfCorrespondences (closures_ : List ClosureConstraint) : List ClosureConstraint :=
  closures_.map fun closure =>
    { landmark_correspondences :=
        closure.landmark_correspondences.filter fun c => decide (c.query ≠ c.reference) }

/-- Landmarks 5, 10 and 12 are in the table; landmark 3 is not (an earlier call
merged it away). -/
def missingReferenceWorld : WorldMap :=
  { _landmarks := [(5, landmarkIn [1]), (10, landmarkIn [2]), (12, landmarkIn [3])]
    _currently_tracked_landmarks := [10, 12]
    _number_of_merged_landmarks := 0 }

/-- The pair (10, 3) names the missing landmark 3 as reference; (12, 5) is an
ordinary pair. -/
def missingReferenceBatch : List ClosureConstraint :=
  [{ landmark_correspondences := [inlier 10 3 1, inlier 12 5 1] }]

/-- Landmarks 3, 5 and 12 are in the table; landmark 10 is not. -/
def missingQueryWorld : WorldMap :=
  { _landmarks := [(3, landmarkIn [1]), (5, landmarkIn [2]), (12, landmarkIn [3])]
    _currently_tracked_landmarks := [3, 12]
    _number_of_merged_landmarks := 0 }

/-- Query 10 meets reference 3 with count 30 and then reference 7 with count 50. -/
def betterReferenceBatch : List ClosureConstraint :=
  [{ landmark_correspondences := [inlier 10 3 30, inlier 10 7 50] }]

/-- Reference 3 meets the queries 5, 6 and 7 with growing counts. -/
def betterQueryBatch : List ClosureConstraint :=
  [{ landmark_correspondences := [inlier 5 3 10, inlier 6 3 20, inlier 7 3 30] }]

/-- A batch whose only correspondence names landmark 3 on both sides. -/
def selfBatch : List ClosureConstraint :=
  [{ landmark_correspondences := [inlier 3 3 9] }]

/-- The second loop's state for `chainWorldShared` after landmark 5 went into 3. -/
def sharedStateAfterFirst : MergeState :=
  { _landmarks := [(3, Landmark.merge (landmarkIn [1]) (landmarkIn [2])), (10, landmarkIn [1])]
    _currently_tracked_landmarks := [10, 3, 3]
    merged_landmark_identifiers := [(5, 3)] }

/-- The pair (10, 5) is an ordinary pair; the pair (12, 3), which the second
loop reaches after it, names the missing landmark 3 as reference. -/
def lateMissingReferenceBatch : List ClosureConstraint :=
  [{ landmark_correspondences := [inlier 10 5 1, inlier 12 3 1] }]

/-! ## Facts about the std::map model -/

-- Every statement below that involves the accumulators of the window is made
-- for an arbitrary addition `add` of `real` values.
variable {add : real → real → real}

namespace StdMap

variable {V : Type}

theorem find_erase (m : StdMap V) (x y : Identifier) :
    find (erase m x) y = if y = x then none else find m y := by
  induction m with
  | nil => simp [erase, find]
  | cons p m ih =>
    obtain ⟨k, v⟩ := p
    simp only [erase] at ih
    by_cases hk : k = x
    · have h1 : erase ((k, v) :: m) x = List.filter (fun p => decide (p.1 ≠ x)) m := by
        simp [erase, List.filter_cons, hk]
      rw [h1, ih]
      by_cases hy : y = x
      · simp [hy]
      · have hyk : ¬ y = k := by rw [hk]; exact hy
        simp [find, hy, hyk]
    · have h1 : erase ((k, v) :: m) x = (k, v) :: List.filter (fun p => decide (p.1 ≠ x)) m := by
        simp [erase, List.filter_cons, hk]
      rw [h1]
      by_cases hyk : y = k
      · have hy : ¬ y = x := by rw [hyk]; exact hk
        simp [find, hyk, hk]
      · simp only [find, hyk, if_false]
        exact ih

theorem find_assign (m : StdMap V) (x y : Identifier) (v : V) :
    find (assign m x v) y = if y = x then (find m x).map (fun _ => v) else find m y := by
  induction m with
  | nil => simp [assign, find]
  | cons p m ih =>
    obtain ⟨k, w⟩ := p
    simp only [assign] at ih
    have h1 : assign ((k, w) :: m) x v
        = (k, if k = x then v else w) :: List.map (fun p => (p.1, if p.1 = x then v else p.2)) m := by
      simp [assign]
    rw [h1]
    by_cases hyk : y = k
    · subst hyk
      by_cases hy : y = x
      · subst hy; simp [find]
      · simp [find, hy]
    · simp only [find, hyk, if_false]
      rw [ih]
      by_cases hy : y = x
      · have hxk : ¬ x = k := by rw [← hy]; exact hyk
        simp [hy, hxk]
      · simp [hy]

theorem find_orderedInsert_ne (m : StdMap V) (x y : Identifier) (v : V) (h : y ≠ x) :
    find (orderedInsert m x v) y = find m y := by
  induction m with
  | nil => simp [orderedInsert, find, h]
  | cons p m ih =>
    obtain ⟨k, w⟩ := p
    unfold orderedInsert
    split
    · simp [find, h]
    · by_cases hyk : y = k
      · simp [find, hyk]
      · simpa [find, hyk] using ih

theorem find_orderedInsert_self (m : StdMap V) (x : Identifier) (v : V)
    (h : find m x = none) : find (orderedInsert m x v) x = some v := by
  induction m with
  | nil => simp [orderedInsert, find]
  | cons p m ih =>
    obtain ⟨k, w⟩ := p
    unfold orderedInsert
    by_cases hxk : x = k
    · simp [find, hxk] at h
    · simp only [find, hxk, if_false] at h
      split
      · simp [find]
      · simpa [find, hxk] using ih h

theorem find_insert (m : StdMap V) (x y : Identifier) (v : V) :
    find (insert m x v) y =
      if y = x then (match find m x with
        | some w => some w
        | none => some v) else find m y := by
  unfold insert
  cases hx : find m x with
  | some w =>
    by_cases hy : y = x
    · simp [hy, hx]
    · simp [hy]
  | none =>
    by_cases hy : y = x
    · subst hy; simpa using find_orderedInsert_self m y v hx
    · simpa [hy] using find_orderedInsert_ne m x y v hy

theorem mem_orderedInsert (m : StdMap V) (x : Identifier) (v : V) (p : Identifier × V) :
    p ∈ orderedInsert m x v ↔ p = (x, v) ∨ p ∈ m := by
  induction m with
  | nil => simp [orderedInsert]
  | cons a m ih =>
    obtain ⟨k, w⟩ := a
    unfold orderedInsert
    split
    · simp
    · simp only [List.mem_cons, ih]
      tauto

theorem mem_of_mem_insert (m : StdMap V) (x : Identifier) (v : V) (p : Identifier × V)
    (h : p ∈ insert m x v) : p = (x, v) ∨ p ∈ m := by
  unfold insert at h
  split at h
  · exact Or.inr h
  · exact (mem_orderedInsert m x v p).1 h

theorem mem_erase (m : StdMap V) (x : Identifier) (p : Identifier × V) :
    p ∈ erase m x ↔ p ∈ m ∧ p.1 ≠ x := by
  simp [erase, List.mem_filter]

theorem mem_assign (m : StdMap V) (x : Identifier) (v : V) (p : Identifier × V)
    (h : p ∈ assign m x v) : p = (x, v) ∨ p ∈ m := by
  unfold assign at h
  obtain ⟨a, ha, rfl⟩ := List.mem_map.1 h
  by_cases hk : a.1 = x
  · left; simp [hk]
  · right; simpa [hk] using ha

theorem find_eq_none_iff (m : StdMap V) (x : Identifier) :
    find m x = none ↔ ∀ p ∈ m, p.1 ≠ x := by
  induction m with
  | nil => simp [find]
  | cons a m ih =>
    obtain ⟨k, w⟩ := a
    by_cases hxk : x = k
    · subst hxk; simp [find]
    · have hkx : ¬ k = x := fun h => hxk h.symm
      simp [find, hxk, hkx, ih]

theorem sorted_erase (m : StdMap V) (x : Identifier) (h : Sorted m) : Sorted (erase m x) :=
  List.Pairwise.filter _ h

theorem sorted_assign (m : StdMap V) (x : Identifier) (v : V) (h : Sorted m) :
    Sorted (assign m x v) := by
  unfold Sorted assign
  rw [List.pairwise_map]
  exact h.imp (fun hab => hab)

theorem sorted_orderedInsert (m : StdMap V) (x : Identifier) (v : V) (h : Sorted m)
    (hx : find m x = none) : Sorted (orderedInsert m x v) := by
  induction m with
  | nil => simp [orderedInsert, Sorted]
  | cons a m ih =>
    obtain ⟨k, w⟩ := a
    have hxk : x ≠ k := by
      intro e; simp [find, e] at hx
    have hx' : find m x = none := by simpa [find, hxk] using hx
    unfold Sorted at h ih ⊢
    rw [List.pairwise_cons] at h
    unfold orderedInsert
    split
    · rename_i hlt
      refine List.Pairwise.cons ?_ (List.Pairwise.cons h.1 h.2)
      intro b hb
      rcases List.mem_cons.1 hb with rfl | hb
      · exact hlt
      · exact lt_trans hlt (h.1 b hb)
    · rename_i hlt
      refine List.Pairwise.cons ?_ (ih h.2 hx')
      intro b hb
      rcases (mem_orderedInsert m x v b).1 hb with rfl | hb
      · have hkx : k ≠ x := fun e => hxk e.symm
        show k < x
        exact lt_of_le_of_ne (Nat.le_of_not_lt hlt) hkx
      · exact h.1 b hb

theorem sorted_insert (m : StdMap V) (x : Identifier) (v : V) (h : Sorted m) :
    Sorted (insert m x v) := by
  unfold insert
  split
  · exact h
  · rename_i hx
    exact sorted_orderedInsert m x v h hx

end StdMap

/-! ## The filtered query map -/

theorem queryMapOk_insert (m : StdMap (Identifier × Count)) (q r : Identifier) (c : Count)
    (h : QueryMapOk m) (hr : r ≤ q) : QueryMapOk (StdMap.insert m q (r, c)) := by
  refine ⟨StdMap.sorted_insert m q (r, c) h.1, ?_⟩
  intro p hp
  rcases StdMap.mem_of_mem_insert m q (r, c) p hp with rfl | hp
  · exact hr
  · exact h.2 p hp

theorem queryMapOk_erase (m : StdMap (Identifier × Count)) (x : Identifier)
    (h : QueryMapOk m) : QueryMapOk (StdMap.erase m x) :=
  ⟨StdMap.sorted_erase m x h.1, fun p hp => h.2 p ((StdMap.mem_erase m x p).1 hp).1⟩

theorem queryMapOk_assign (m : StdMap (Identifier × Count)) (q r : Identifier) (c : Count)
    (h : QueryMapOk m) (hr : r ≤ q) : QueryMapOk (StdMap.assign m q (r, c)) := by
  refine ⟨StdMap.sorted_assign m q (r, c) h.1, ?_⟩
  intro p hp
  rcases StdMap.mem_assign m q (r, c) p hp with rfl | hp
  · exact hr
  · exact h.2 p hp

theorem updateFiltered_queryMapOk (f : FilterState) (q r : Identifier) (n : Count)
    (hr : r ≤ q) (h : QueryMapOk f.landmark_queries_to_references_filtered) :
    QueryMapOk (updateFiltered f q r n).landmark_queries_to_references_filtered := by
  unfold updateFiltered
  simp only
  split
  · exact queryMapOk_insert _ _ _ _ h hr
  · split
    · exact queryMapOk_assign _ _ _ _ h (le_refl _)
    · exact h
  · split
    · exact queryMapOk_insert _ _ _ _ (queryMapOk_erase _ _ h) hr
    · exact h
  · exact h

theorem filterStep_queryMapOk (f : FilterState) (c : Correspondence)
    (h : QueryMapOk f.landmark_queries_to_references_filtered) :
    QueryMapOk (filterStep f c).landmark_queries_to_references_filtered := by
  unfold filterStep
  simp only
  by_cases hlt : c.query < c.reference
  · simp only [hlt, if_true]
    split
    · exact updateFiltered_queryMapOk _ _ _ _ (le_of_lt hlt) h
    · exact h
  · simp only [hlt, if_false]
    split
    · exact updateFiltered_queryMapOk _ _ _ _ (Nat.le_of_not_lt hlt) h
    · exact h

theorem foldl_filterStep_queryMapOk (cs : List Correspondence) (f : FilterState)
    (h : QueryMapOk f.landmark_queries_to_references_filtered) :
    QueryMapOk (cs.foldl filterStep f).landmark_queries_to_references_filtered := by
  induction cs generalizing f with
  | nil => exact h
  | cons c cs ih => exact ih _ (filterStep_queryMapOk f c h)

theorem foldl_closures_queryMapOk (closures_ : List ClosureConstraint) (f : FilterState)
    (h : QueryMapOk f.landmark_queries_to_references_filtered) :
    QueryMapOk (closures_.foldl
      (fun f closure => closure.landmark_correspondences.foldl filterStep f)
      f).landmark_queries_to_references_filtered := by
  induction closures_ generalizing f with
  | nil => exact h
  | cons c cs ih => exact ih _ (foldl_filterStep_queryMapOk _ f h)

theorem filterCorrespondences_queryMapOk (closures_ : List ClosureConstraint) :
    QueryMapOk (filterCorrespondences closures_).landmark_queries_to_references_filtered :=
  foldl_closures_queryMapOk closures_ _ ⟨List.Pairwise.nil, fun _ hp => by simp at hp⟩

/-! ## The merge loop -/

theorem lookupReference_spec (s : MergeState) (r ref : Identifier) (lr : Landmark)
    (h : lookupReference s r = some (ref, lr)) :
    s._landmarks.find ref = some lr ∧
      (ref = r ∨ (s._landmarks.find r = none ∧
        s.merged_landmark_identifiers.find r = some ref)) := by
  unfold lookupReference at h
  split at h
  · rename_i l hl
    simp only [Option.some.injEq, Prod.mk.injEq] at h
    obtain ⟨rfl, rfl⟩ := h
    exact ⟨hl, Or.inl rfl⟩
  · rename_i hr
    split at h
    · simp at h
    · rename_i a ha
      split at h
      · simp at h
      · rename_i l hl
        simp only [Option.some.injEq, Prod.mk.injEq] at h
        obtain ⟨rfl, rfl⟩ := h
        exact ⟨hl, Or.inr ⟨hr, ha⟩⟩

/-- One iteration either leaves the state as it is (skipping the pair or
not completing) or performs the merge of the query into the resolved
reference. -/
theorem mergeStep_cases (merge : Landmark → Landmark → Landmark) (s : MergeState)
    (pair : Identifier × (Identifier × Count)) :
    (mergeStep merge s pair = .ok s ∨ ∃ failure, mergeStep merge s pair = .error (failure, s)) ∨
    ∃ lq ref lr, s._landmarks.find pair.1 = some lq ∧
      lookupReference s pair.2.1 = some (ref, lr) ∧ pair.1 ≠ ref ∧
      sharedLocalMap lq lr = false ∧
      mergeStep merge s pair = .ok (performMerge merge s pair.1 ref lq lr) := by
  unfold mergeStep
  split
  · exact Or.inl (Or.inr ⟨_, rfl⟩)
  · rename_i lq hq
    split
    · exact Or.inl (Or.inr ⟨_, rfl⟩)
    · rename_i ref lr hr
      by_cases hne : pair.1 = ref
      · simp [hne]
      · by_cases hs : sharedLocalMap lq lr = true
        · simp [hne, hs]
        · right
          refine ⟨lq, ref, lr, hq, hr, hne, by simpa using hs, ?_⟩
          simp [hne, hs]

theorem performMerge_mergedOk (merge : Landmark → Landmark → Landmark) (s : MergeState)
    (q r0 ref : Identifier) (lq lr : Landmark)
    (hv : r0 ≤ q) (hI : MergedOk s)
    (hB : ∀ x, (s.merged_landmark_identifiers.find x).isSome = true → x < q)
    (hr : lookupReference s r0 = some (ref, lr)) (hne : q ≠ ref) :
    MergedOk (performMerge merge s q ref lq lr) ∧
      (performMerge merge s q ref lq lr).merged_landmark_identifiers.find q = some ref ∧
      ref < q := by
  obtain ⟨href, hor⟩ := lookupReference_spec s r0 ref lr hr
  have hlt : ref < q := by
    rcases hor with rfl | ⟨_, hm⟩
    · exact lt_of_le_of_ne hv (fun e => hne e.symm)
    · exact lt_of_lt_of_le (hI r0 ref hm).2.2 hv
  have hnew : s.merged_landmark_identifiers.find q = none := by
    cases hq : s.merged_landmark_identifiers.find q with
    | none => rfl
    | some a => exact absurd (hB q (by simp [hq])) (lt_irrefl q)
  refine ⟨?_, ?_, hlt⟩
  · intro q0 r1 h0
    simp only [performMerge, StdMap.find_insert] at h0
    simp only [performMerge, StdMap.find_erase, StdMap.find_assign]
    by_cases hq0 : q0 = q
    · subst hq0
      simp only [if_true, hnew, Option.some.injEq] at h0
      subst h0
      have h1 : ¬ ref = q0 := fun e => hne e.symm
      simp [h1, href, hlt]
    · simp only [hq0, if_false] at h0
      obtain ⟨ha, hb, hc⟩ := hI q0 r1 h0
      have hq0q : q0 < q := hB q0 (by simp [h0])
      have h1 : ¬ r1 = q := Nat.ne_of_lt (lt_trans hc hq0q)
      have h4 : ¬ ref = q := fun e => hne e.symm
      have h2 : ¬ q0 = ref := by
        intro e
        rw [e, href] at ha
        simp at ha
      refine ⟨by simp [hq0, h2, ha], ?_, hc⟩
      by_cases h3 : r1 = ref
      · simp [h3, h4, href]
      · simpa [h1, h3] using hb
  · simp [performMerge, StdMap.find_insert, hnew]

theorem performMerge_merged_bound (merge : Landmark → Landmark → Landmark) (s : MergeState)
    (q ref : Identifier) (lq lr : Landmark)
    (hB : ∀ x, (s.merged_landmark_identifiers.find x).isSome = true → x < q)
    (x : Identifier)
    (hx : ((performMerge merge s q ref lq lr).merged_landmark_identifiers.find x).isSome
      = true) : x ≤ q := by
  simp only [performMerge, StdMap.find_insert] at hx
  by_cases hxq : x = q
  · exact le_of_eq hxq
  · simp only [hxq, if_false] at hx
    exact le_of_lt (hB x hx)

/-- The invariant of the second loop: over an ordered query map whose entries do
not point above their keys, every state reached satisfies `MergedOk`. -/
theorem mergeLoop_mergedOk (merge : Landmark → Landmark → Landmark) :
    ∀ (rest : List (Identifier × (Identifier × Count))) (s : MergeState),
      QueryMapOk rest → MergedOk s →
      (∀ x, (s.merged_landmark_identifiers.find x).isSome = true → ∀ p ∈ rest, x < p.1) →
      MergedOk (lastState (mergeLoop merge rest s)) := by
  intro rest
  induction rest with
  | nil => intro s _ hI _; exact hI
  | cons pair rest ih =>
    intro s hQ hI hB
    have hsorted := List.pairwise_cons.1 hQ.1
    have hQ' : QueryMapOk rest := ⟨hsorted.2, fun p hp => hQ.2 p (List.mem_cons_of_mem _ hp)⟩
    have hBp : ∀ x, (s.merged_landmark_identifiers.find x).isSome = true → x < pair.1 :=
      fun x hx => hB x hx pair (List.mem_cons_self _ _)
    rcases mergeStep_cases merge s pair with (h | ⟨failure, h⟩) | ⟨lq, ref, lr, hq, hr, hne, _, h⟩
    · simp only [mergeLoop, h]
      exact ih s hQ' hI (fun x hx p hp => hB x hx p (List.mem_cons_of_mem _ hp))
    · simp only [mergeLoop, h, lastState]
      exact hI
    · simp only [mergeLoop, h]
      have hP := performMerge_mergedOk merge s pair.1 pair.2.1 ref lq lr
        (hQ.2 pair (List.mem_cons_self _ _)) hI hBp hr hne
      refine ih _ hQ' hP.1 ?_
      intro x hx p hp
      have h1 := performMerge_merged_bound merge s pair.1 ref lq lr hBp x hx
      exact lt_of_le_of_lt h1 (hsorted.1 p hp)

theorem mergeRun_mergedOk (merge : Landmark → Landmark → Landmark) (w : WorldMap)
    (closures_ : List ClosureConstraint) :
    MergedOk (lastState (mergeRun merge w closures_)) := by
  unfold mergeRun
  refine mergeLoop_mergedOk merge _ _ (filterCorrespondences_queryMapOk closures_) ?_ ?_
  · intro q r h
    simp [MergeState.start, StdMap.find] at h
  · intro x hx
    simp [MergeState.start, StdMap.find] at hx

theorem afterCall_landmarks (merge : Landmark → Landmark → Landmark) (w : WorldMap)
    (closures_ : List ClosureConstraint) :
    (afterCall (mergeLandmarks merge w closures_))._landmarks
      = (lastState (mergeRun merge w closures_))._landmarks := by
  unfold mergeLandmarks
  cases mergeRun merge w closures_ <;> rfl

theorem afterCall_tracked (merge : Landmark → Landmark → Landmark) (w : WorldMap)
    (closures_ : List ClosureConstraint) :
    (afterCall (mergeLandmarks merge w closures_))._currently_tracked_landmarks
      = (lastState (mergeRun merge w closures_))._currently_tracked_landmarks := by
  unfold mergeLandmarks
  cases mergeRun merge w closures_ <;> rfl

theorem mergeLoop_append (merge : Landmark → Landmark → Landmark)
    (l1 l2 : List (Identifier × (Identifier × Count))) (s : MergeState) :
    mergeLoop merge (l1 ++ l2) s =
      match mergeLoop merge l1 s with
      | .ok s' => mergeLoop merge l2 s'
      | .error e => .error e := by
  induction l1 generalizing s with
  | nil => simp [mergeLoop]
  | cons p l1 ih =>
    simp only [List.cons_append, mergeLoop]
    cases mergeStep merge s p with
    | ok s' => exact ih s'
    | error e => rfl

theorem performMerge_merged_mono (merge : Landmark → Landmark → Landmark) (s : MergeState)
    (q ref : Identifier) (lq lr : Landmark) (x y : Identifier)
    (h : s.merged_landmark_identifiers.find x = some y) :
    (performMerge merge s q ref lq lr).merged_landmark_identifiers.find x = some y := by
  simp only [performMerge, StdMap.find_insert]
  by_cases hx : x = q
  · subst hx; simp [h]
  · simp [hx, h]

/-- An entry of `merged_landmark_identifiers` is never overwritten or removed. -/
theorem mergeLoop_merged_mono (merge : Landmark → Landmark → Landmark) :
    ∀ (rest : List (Identifier × (Identifier × Count))) (s : MergeState) (x y : Identifier),
      s.merged_landmark_identifiers.find x = some y →
      (lastState (mergeLoop merge rest s)).merged_landmark_identifiers.find x = some y := by
  intro rest
  induction rest with
  | nil => intro s x y h; exact h
  | cons pair rest ih =>
    intro s x y hx
    rcases mergeStep_cases merge s pair with (h | ⟨failure, h⟩) | ⟨lq, ref, lr, _, _, _, _, h⟩
    · simp only [mergeLoop, h]; exact ih s x y hx
    · simp only [mergeLoop, h, lastState]; exact hx
    · simp only [mergeLoop, h]
      exact ih _ x y (performMerge_merged_mono merge s pair.1 ref lq lr x y hx)

/-- Only the keys of the pairs iterated over enter `merged_landmark_identifiers`. -/
theorem mergeLoop_merged_keys (merge : Landmark → Landmark → Landmark) :
    ∀ (rest : List (Identifier × (Identifier × Count))) (s : MergeState) (x : Identifier),
      ((lastState (mergeLoop merge rest s)).merged_landmark_identifiers.find x).isSome = true →
      (s.merged_landmark_identifiers.find x).isSome = true ∨ ∃ p ∈ rest, p.1 = x := by
  intro rest
  induction rest with
  | nil => intro s x h; exact Or.inl h
  | cons pair rest ih =>
    intro s x hx
    rcases mergeStep_cases merge s pair with (h | ⟨failure, h⟩) | ⟨lq, ref, lr, _, _, _, _, h⟩
    · simp only [mergeLoop, h] at hx
      rcases ih s x hx with h1 | ⟨p, hp, hpx⟩
      · exact Or.inl h1
      · exact Or.inr ⟨p, List.mem_cons_of_mem _ hp, hpx⟩
    · simp only [mergeLoop, h, lastState] at hx
      exact Or.inl hx
    · simp only [mergeLoop, h] at hx
      rcases ih _ x hx with h1 | ⟨p, hp, hpx⟩
      · simp only [performMerge, StdMap.find_insert] at h1
        by_cases hxq : x = pair.1
        · exact Or.inr ⟨pair, List.mem_cons_self _ _, hxq.symm⟩
        · simp only [hxq, if_false] at h1
          exact Or.inl h1
      · exact Or.inr ⟨p, List.mem_cons_of_mem _ hp, hpx⟩

/-- Only the keys of the pairs iterated over leave the landmark table. -/
theorem mergeLoop_landmarks_kept (merge : Landmark → Landmark → Landmark) :
    ∀ (rest : List (Identifier × (Identifier × Count))) (s : MergeState) (x : Identifier),
      (s._landmarks.find x).isSome = true → (∀ p ∈ rest, p.1 ≠ x) →
      ((lastState (mergeLoop merge rest s))._landmarks.find x).isSome = true := by
  intro rest
  induction rest with
  | nil => intro s x h _; exact h
  | cons pair rest ih =>
    intro s x hx hk
    have hk' : ∀ p ∈ rest, p.1 ≠ x := fun p hp => hk p (List.mem_cons_of_mem _ hp)
    rcases mergeStep_cases merge s pair with (h | ⟨failure, h⟩) | ⟨lq, ref, lr, _, hr, _, _, h⟩
    · simp only [mergeLoop, h]; exact ih s x hx hk'
    · simp only [mergeLoop, h, lastState]; exact hx
    · simp only [mergeLoop, h]
      refine ih _ x ?_ hk'
      have hxp : ¬ x = pair.1 := fun e => hk pair (List.mem_cons_self _ _) e.symm
      simp only [performMerge, StdMap.find_erase, StdMap.find_assign, hxp, if_false]
      by_cases hxr : x = ref
      · have := (lookupReference_spec s pair.2.1 ref lr hr).1
        simp [hxr, this]
      · simpa [hxr] using hx

/-- The state in which the second loop reaches an entry of the filtered map. -/
theorem mergeLoop_reaches (merge : Landmark → Landmark → Landmark) (w : WorldMap)
    (pre post : List (Identifier × (Identifier × Count)))
    (pair : Identifier × (Identifier × Count)) (s : MergeState)
    (hQ : QueryMapOk (pre ++ pair :: post))
    (hpre : mergeLoop merge pre (MergeState.start w) = .ok s) :
    MergedOk s ∧ (∀ x, (s.merged_landmark_identifiers.find x).isSome = true → x < pair.1) ∧
      QueryMapOk post ∧ (∀ p ∈ post, pair.1 < p.1) ∧ pair.2.1 ≤ pair.1 := by
  have hsorted := List.pairwise_append.1 hQ.1
  have hQpre : QueryMapOk pre :=
    ⟨hsorted.1, fun p hp => hQ.2 p (List.mem_append_left _ hp)⟩
  have htail := List.pairwise_cons.1 hsorted.2.1
  have hstart : MergedOk (MergeState.start w) := by
    intro q r h
    simp [MergeState.start, StdMap.find] at h
  have hI := mergeLoop_mergedOk merge pre (MergeState.start w) hQpre hstart
    (by intro x hx; simp [MergeState.start, StdMap.find] at hx)
  rw [hpre] at hI
  refine ⟨hI, ?_, ⟨htail.2, fun p hp => hQ.2 p
    (List.mem_append_right _ (List.mem_cons_of_mem _ hp))⟩, htail.1,
    hQ.2 pair (List.mem_append_right _ (List.mem_cons_self _ _))⟩
  intro x hx
  have hk := mergeLoop_merged_keys merge pre (MergeState.start w) x (by rw [hpre]; exact hx)
  rcases hk with h0 | ⟨p, hp, hpx⟩
  · simp [MergeState.start, StdMap.find] at h0
  · rw [← hpx]
    exact hsorted.2.2 p hp pair (List.mem_cons_self _ _)

/-! ## Settled properties of `mergeLandmarks` -/

/-- C1: for every merge `q -> r` that `mergeLandmarks` performs (every entry
that the call puts into `merged_landmark_identifiers`), the landmark table the
call leaves behind has no entry for `q` and still has the entry for `r`. -/
theorem mergeLandmarks_absorbed_removed_absorbing_kept
    (merge : Landmark → Landmark → Landmark) (w : WorldMap)
    (closures_ : List ClosureConstraint) (q r : Identifier)
    (h : (mergedRecord merge w closures_).find q = some r) :
    (afterCall (mergeLandmarks merge w closures_))._landmarks.find q = none ∧
      ((afterCall (mergeLandmarks merge w closures_))._landmarks.find r).isSome = true := by
  rw [afterCall_landmarks]
  have hI := mergeRun_mergedOk merge w closures_ q r h
  exact ⟨hI.1, hI.2.1⟩

/-- Witness for C1: in the chained batch landmark 10 is merged into landmark 3. -/
theorem mergeLandmarks_absorbed_removed_absorbing_kept_witness :
    (mergedRecord Landmark.merge chainWorld chainBatch).find 10 = some 3 ∧
    (afterCall (mergeLandmarks Landmark.merge chainWorld chainBatch))._landmarks.find 10
      = none ∧
    ((afterCall (mergeLandmarks Landmark.merge chainWorld chainBatch))._landmarks.find
      3).isSome = true :=
  ⟨by decide,
    mergeLandmarks_absorbed_removed_absorbing_kept Landmark.merge chainWorld chainBatch 10 3
      (by decide)⟩

/-- C4: whenever `mergeLandmarks` absorbs a landmark `a` into a landmark `b`
(the merge `a -> b` is recorded, so `a` is erased and `b` kept), `b < a`: the
newer landmark goes into the older one, whichever side of the correspondence
they were on and also when `b` was reached through the redirection map. -/
theorem mergeLandmarks_merges_newer_into_older
    (merge : Landmark → Landmark → Landmark) (w : WorldMap)
    (closures_ : List ClosureConstraint) (a b : Identifier)
    (h : (mergedRecord merge w closures_).find a = some b) : b < a :=
  (mergeRun_mergedOk merge w closures_ a b h).2.2

/-- Witness for C4: the correspondence (5, 10) has the newer landmark on the
reference side and its partner 5 is already absorbed; 10 ends up in 3. -/
theorem mergeLandmarks_merges_newer_into_older_witness :
    (mergedRecord Landmark.merge chainWorld chainBatch).find 10 = some 3 ∧ 3 < 10 :=
  ⟨by decide,
    mergeLandmarks_merges_newer_into_older Landmark.merge chainWorld chainBatch 10 3
      (by decide)⟩

/-- C5: in a loop iteration that performs a merge `q -> r` (the iteration adds
`q -> r` to `merged_landmark_identifiers`), the tracked-landmark cache keeps its
length, every entry that referred to `q` refers to `r` afterwards and every
other entry is unchanged. -/
theorem mergeStep_redirects_tracked_landmarks
    (merge : Landmark → Landmark → Landmark) (s s' : MergeState)
    (pair : Identifier × (Identifier × Count)) (q r : Identifier)
    (hstep : mergeStep merge s pair = .ok s')
    (hbefore : s.merged_landmark_identifiers.find q = none)
    (hafter : s'.merged_landmark_identifiers.find q = some r) :
    s'._currently_tracked_landmarks.length = s._currently_tracked_landmarks.length ∧
      ∀ (i : Nat) (t : Identifier), s._currently_tracked_landmarks[i]? = some t →
        s'._currently_tracked_landmarks[i]? = some (if t = q then r else t) := by
  rcases mergeStep_cases merge s pair with (h | ⟨failure, h⟩) | ⟨lq, ref, lr, _, _, _, _, h⟩
  · rw [h] at hstep
    cases hstep
    rw [hbefore] at hafter
    cases hafter
  · rw [h] at hstep
    cases hstep
  · rw [h] at hstep
    cases hstep
    simp only [performMerge, StdMap.find_insert] at hafter
    by_cases hq : q = pair.1
    · subst hq
      simp only [if_true, hbefore, Option.some.injEq] at hafter
      subst hafter
      refine ⟨by simp [performMerge, retrack], ?_⟩
      intro i t ht
      simp only [performMerge, retrack, List.getElem?_map, ht, Option.map_some']
      by_cases h1 : t = pair.1
      · simp [h1]
      · by_cases h2 : t = ref
        · simp [h2]
        · simp [h1, h2]
    · simp only [hq, if_false] at hafter
      rw [hbefore] at hafter
      cases hafter

/-- Witness for C5: the second iteration on the chained batch merges 10 into 3. -/
theorem mergeStep_redirects_tracked_landmarks_witness :
    mergeStep Landmark.merge chainStateAfterFirst (10, (5, 1)) = .ok chainStateAfterSecond ∧
    chainStateAfterFirst.merged_landmark_identifiers.find 10 = none ∧
    chainStateAfterSecond.merged_landmark_identifiers.find 10 = some 3 ∧
    chainStateAfterSecond._currently_tracked_landmarks.length
      = chainStateAfterFirst._currently_tracked_landmarks.length ∧
    ∀ (i : Nat) (t : Identifier),
      chainStateAfterFirst._currently_tracked_landmarks[i]? = some t →
      chainStateAfterSecond._currently_tracked_landmarks[i]? = some (if t = 10 then 3 else t) :=
  ⟨rfl, rfl, rfl,
    mergeStep_redirects_tracked_landmarks Landmark.merge chainStateAfterFirst
      chainStateAfterSecond (10, (5, 1)) 10 3 rfl rfl rfl⟩

/-- C6, as stated, fails: the pair (10, 5) survives the filter and landmark 5 is
absorbed into 3 before the pair is reached.  In `chainWorldShared` landmark 10
is then skipped because it shares a local map with 3: the call returns
normally, landmark 10 stays in the table and no redirection is recorded for
it. -/
theorem chained_merge_can_be_skipped :
    (filterCorrespondences chainBatch).landmark_queries_to_references_filtered
      = [(5, (3, 1)), (10, (5, 1))] ∧
    (mergedRecord Landmark.merge chainWorldShared chainBatch).find 5 = some 3 ∧
    (mergedRecord Landmark.merge chainWorldShared chainBatch).find 10 = none ∧
    ((afterCall (mergeLandmarks Landmark.merge chainWorldShared chainBatch))._landmarks.find
      10).isSome = true ∧
    ∃ w', mergeLandmarks Landmark.merge chainWorldShared chainBatch = .ok w' :=
  ⟨by decide, by decide, by decide, by decide, _, rfl⟩

/-- C6, amended: when the reference `r` of a surviving pair `(q, r)` was absorbed
earlier in the same call into `r'`, and `q` is in the table and shares no local
map with `r'` as it then is, `q` is merged into `r'`: after the call `q` is out
of the table, `r'` is in it, and the redirection map records `q -> r'`. -/
theorem chained_merge_follows_redirection
    (merge : Landmark → Landmark → Landmark) (w : WorldMap)
    (closures_ : List ClosureConstraint)
    (pre post : List (Identifier × (Identifier × Count)))
    (q r r' : Identifier) (c : Count) (s : MergeState) (lq lr' : Landmark)
    (hsplit : (filterCorrespondences closures_).landmark_queries_to_references_filtered
      = pre ++ (q, (r, c)) :: post)
    (hpre : mergeLoop merge pre (MergeState.start w) = .ok s)
    (habsorbed : s.merged_landmark_identifiers.find r = some r')
    (hq : s._landmarks.find q = some lq)
    (hr' : s._landmarks.find r' = some lr')
    (hshare : sharedLocalMap lq lr' = false) :
    (afterCall (mergeLandmarks merge w closures_))._landmarks.find q = none ∧
      ((afterCall (mergeLandmarks merge w closures_))._landmarks.find r').isSome = true ∧
      (mergedRecord merge w closures_).find q = some r' := by
  have hQ := filterCorrespondences_queryMapOk closures_
  rw [hsplit] at hQ
  obtain ⟨hI, hB, _, _, hv⟩ := mergeLoop_reaches merge w pre post (q, (r, c)) s hQ hpre
  have hrnone : s._landmarks.find r = none := (hI r r' habsorbed).1
  have hlook : lookupReference s r = some (r', lr') := by
    simp [lookupReference, hrnone, habsorbed, hr']
  have hlt : r' < q := lt_of_lt_of_le (hI r r' habsorbed).2.2 hv
  have hne : q ≠ r' := fun e => absurd hlt (by rw [e]; exact lt_irrefl _)
  have hstep : mergeStep merge s (q, (r, c)) = .ok (performMerge merge s q r' lq lr') := by
    simp [mergeStep, hq, hlook, hne, hshare]
  have hrec := (performMerge_mergedOk merge s q r r' lq lr' hv hI hB hlook hne).2.1
  have hfinal : (mergedRecord merge w closures_).find q = some r' := by
    unfold mergedRecord mergeRun
    rw [hsplit, mergeLoop_append, hpre]
    simp only [mergeLoop, hstep]
    exact mergeLoop_merged_mono merge post _ q r' hrec
  have hI' := mergeRun_mergedOk merge w closures_ q r' hfinal
  rw [afterCall_landmarks]
  exact ⟨hI'.1, hI'.2.1, hfinal⟩

/-- Witness for the amended C6: in `chainWorld` landmark 5 goes into 3 first, and
10, whose filtered reference is 5, is then merged into 3. -/
theorem chained_merge_follows_redirection_witness :
    (afterCall (mergeLandmarks Landmark.merge chainWorld chainBatch))._landmarks.find 10
      = none ∧
    ((afterCall (mergeLandmarks Landmark.merge chainWorld chainBatch))._landmarks.find
      3).isSome = true ∧
    (mergedRecord Landmark.merge chainWorld chainBatch).find 10 = some 3 :=
  chained_merge_follows_redirection Landmark.merge chainWorld chainBatch
    [(5, (3, 1))] [] 10 5 3 1 chainStateAfterFirst (landmarkIn [3])
    (Landmark.merge (landmarkIn [1]) (landmarkIn [2])) (by decide) rfl rfl rfl rfl rfl

/-- C7: when the loop reaches a surviving pair `(q, r)` whose two landmarks (the
query and the resolved reference) share a local map, the iteration leaves the
state as it is (table, tracked-landmark cache and redirection map, hence also
the number of merges counted); after the call both landmarks are still in the
table and no redirection is recorded for `q`. -/
theorem shared_local_map_rejects_merge
    (merge : Landmark → Landmark → Landmark) (w : WorldMap)
    (closures_ : List ClosureConstraint)
    (pre post : List (Identifier × (Identifier × Count)))
    (q r ref : Identifier) (c : Count) (s : MergeState) (lq lr : Landmark)
    (hsplit : (filterCorrespondences closures_).landmark_queries_to_references_filtered
      = pre ++ (q, (r, c)) :: post)
    (hpre : mergeLoop merge pre (MergeState.start w) = .ok s)
    (hq : s._landmarks.find q = some lq)
    (hr : lookupReference s r = some (ref, lr))
    (hshare : sharedLocalMap lq lr = true) :
    mergeStep merge s (q, (r, c)) = .ok s ∧
      ((afterCall (mergeLandmarks merge w closures_))._landmarks.find q).isSome = true ∧
      ((afterCall (mergeLandmarks merge w closures_))._landmarks.find ref).isSome = true ∧
      (mergedRecord merge w closures_).find q = none := by
  have hQ := filterCorrespondences_queryMapOk closures_
  rw [hsplit] at hQ
  obtain ⟨hI, hB, _, hpost, hv⟩ := mergeLoop_reaches merge w pre post (q, (r, c)) s hQ hpre
  obtain ⟨href, hor⟩ := lookupReference_spec s r ref lr hr
  have hle : ref ≤ q := by
    rcases hor with rfl | ⟨_, hm⟩
    · exact hv
    · exact le_of_lt (lt_of_lt_of_le (hI r ref hm).2.2 hv)
  have hstep : mergeStep merge s (q, (r, c)) = .ok s := by
    simp [mergeStep, hq, hr, hshare]
  have hrun : lastState (mergeRun merge w closures_) = lastState (mergeLoop merge post s) := by
    unfold mergeRun
    rw [hsplit, mergeLoop_append, hpre]
    simp only [mergeLoop, hstep]
  refine ⟨hstep, ?_, ?_, ?_⟩
  · rw [afterCall_landmarks, hrun]
    exact mergeLoop_landmarks_kept merge post s q (by simp [hq])
      (fun p hp => Nat.ne_of_gt (hpost p hp))
  · rw [afterCall_landmarks, hrun]
    exact mergeLoop_landmarks_kept merge post s ref (by simp [href])
      (fun p hp => Nat.ne_of_gt (lt_of_le_of_lt hle (hpost p hp)))
  · unfold mergedRecord
    rw [hrun]
    cases hfin : (lastState (mergeLoop merge post s)).merged_landmark_identifiers.find q with
    | none => rfl
    | some a =>
      rcases mergeLoop_merged_keys merge post s q (by simp [hfin]) with h0 | ⟨p, hp, hpq⟩
      · exact absurd (hB q h0) (lt_irrefl q)
      · exact absurd (hpost p hp) (by rw [hpq]; exact lt_irrefl _)

/-- Witness for C7: in `chainWorldShared` the pair (10, 5) is reached after 5 went
into 3; landmarks 10 and 3 share local map 1. -/
theorem shared_local_map_rejects_merge_witness :
    mergeStep Landmark.merge sharedStateAfterFirst (10, (5, 1)) = .ok sharedStateAfterFirst ∧
    ((afterCall (mergeLandmarks Landmark.merge chainWorldShared chainBatch))._landmarks.find
      10).isSome = true ∧
    ((afterCall (mergeLandmarks Landmark.merge chainWorldShared chainBatch))._landmarks.find
      3).isSome = true ∧
    (mergedRecord Landmark.merge chainWorldShared chainBatch).find 10 = none :=
  shared_local_map_rejects_merge Landmark.merge chainWorldShared chainBatch
    [(5, (3, 1))] [] 10 5 3 1 sharedStateAfterFirst
    (landmarkIn [1]) (Landmark.merge (landmarkIn [1]) (landmarkIn [2]))
    (by decide) rfl rfl rfl rfl

/-- C8, evaluated: with reference 3 missing from the table and not absorbed in
this call, `std::out_of_range` leaves `mergeLandmarks`; with query 10 missing
from the table, the handler dereferences the null `landmark_query` before its
`continue`.  In both cases the call does not return, the world map is as
before and the pair (12, 5) of the same batch is not merged. -/
theorem missing_reference_aborts_the_batch :
    mergeLandmarks Landmark.merge missingReferenceWorld missingReferenceBatch
      = .error (.out_of_range, missingReferenceWorld) ∧
    mergeLandmarks Landmark.merge missingQueryWorld missingReferenceBatch
      = .error (.null_dereference, missingQueryWorld) :=
  ⟨rfl, rfl⟩

/-- C2, evaluated: query 10 occurs with reference 3 (count 30) and then with
reference 7 (count 50).  The filtered query map sends 10 to the pair (10, 50),
that is to itself and not to 7; the second loop then skips the entry, so the
call changes nothing. -/
theorem better_reference_maps_query_to_itself :
    (filterCorrespondences betterReferenceBatch).landmark_queries_to_references_filtered
      = [(10, (10, 50))] ∧
    mergeLandmarks Landmark.merge scenarioWorld betterReferenceBatch = .ok scenarioWorld :=
  ⟨rfl, rfl⟩

/-- C3, evaluated: after the batch (10,3,30), (10,7,50) the query map holds
10 -> (10, 50) while the reference map holds 7 -> (10, 50) and nothing for 10;
after the batch (5,3,10), (6,3,20), (7,3,30) the queries 6 and 7 both map to
reference 3 and the reference map sends 3 to itself. -/
theorem filtered_maps_not_mutually_inverse :
    filterCorrespondences betterReferenceBatch
      = { landmark_queries_to_references_filtered := [(10, (10, 50))]
          landmark_references_to_queries_filtered := [(7, (10, 50))] } ∧
    filterCorrespondences betterQueryBatch
      = { landmark_queries_to_references_filtered := [(6, (3, 20)), (7, (3, 30))]
          landmark_references_to_queries_filtered := [(3, (3, 30))] } :=
  ⟨rfl, rfl⟩

/-- C9, as stated, fails: after the scenario batch landmark 4 is still in the
landmark table and the cache entry that pointed to 4 still points to 4. -/
theorem scenario_keeps_landmark_four :
    ((afterCall (mergeLandmarks Landmark.merge scenarioWorld scenarioBatch))._landmarks.find
      4).isSome = true ∧
    (afterCall (mergeLandmarks Landmark.merge scenarioWorld
      scenarioBatch))._currently_tracked_landmarks = [3, 4, 3, 7] := by
  decide

/-- C9, amended: for the batch (10,3,50), (10,7,30), (4,3,40) over live
landmarks 3, 4, 7, 10 where 10 and 3 share no local map, `mergeLandmarks`
returns normally; landmark 10 is gone from the table, landmarks 3 (having
absorbed 10), 4 and 7 remain, the cache entries that pointed to 10 point to 3,
all other cache entries are unchanged, and one merge is counted. -/
theorem scenario_merges_ten_into_three
    (merge : Landmark → Landmark → Landmark) (l3 l4 l7 l10 : Landmark)
    (tracked : List Identifier) (n : Count)
    (hshare : sharedLocalMap l10 l3 = false) :
    mergeLandmarks merge
        { _landmarks := [(3, l3), (4, l4), (7, l7), (10, l10)]
          _currently_tracked_landmarks := tracked
          _number_of_merged_landmarks := n }
        scenarioBatch
      = .ok { _landmarks := [(3, merge l3 l10), (4, l4), (7, l7)]
              _currently_tracked_landmarks := tracked.map fun t => if t = 10 then 3 else t
              _number_of_merged_landmarks := n + 1 } := by
  have hf : (filterCorrespondences scenarioBatch).landmark_queries_to_references_filtered
      = [(10, (3, 50))] := rfl
  have ht : retrack tracked 10 3 = tracked.map fun t => if t = 10 then 3 else t := by
    unfold retrack
    refine List.map_congr_left ?_
    intro t _
    by_cases h1 : t = 10
    · simp [h1]
    · by_cases h2 : t = 3
      · simp [h2]
      · simp [h1, h2]
  unfold mergeLandmarks mergeRun
  rw [hf]
  simp [mergeLoop, mergeStep, MergeState.start, StdMap.find, lookupReference, hshare,
    performMerge, ht, StdMap.assign, StdMap.erase, StdMap.insert, StdMap.orderedInsert,
    StdMap.size]

/-- Witness for the amended C9: the scenario world, whose four landmarks lie in
four different local maps. -/
theorem scenario_merges_ten_into_three_witness :
    mergeLandmarks Landmark.merge scenarioWorld scenarioBatch
      = .ok { _landmarks := [(3, Landmark.merge (landmarkIn [1]) (landmarkIn [4])),
                (4, landmarkIn [2]), (7, landmarkIn [3])]
              _currently_tracked_landmarks := [3, 4, 3, 7]
              _number_of_merged_landmarks := 1 } :=
  scenario_merges_ten_into_three Landmark.merge (landmarkIn [1]) (landmarkIn [2])
    (landmarkIn [3]) (landmarkIn [4]) [10, 4, 3, 7] 0 (by decide)

theorem filterStep_self (f : FilterState) (c : Correspondence) (h : c.query = c.reference) :
    filterStep f c = f := by
  simp [filterStep, h]

theorem foldl_filterStep_dropSelf (cs : List Correspondence) (f : FilterState) :
    (cs.filter fun c => decide (c.query ≠ c.reference)).foldl filterStep f
      = cs.foldl filterStep f := by
  induction cs generalizing f with
  | nil => rfl
  | cons c cs ih =>
    by_cases h : c.query = c.reference
    · simp only [List.filter_cons, h, ne_eq, not_true_eq_false, decide_False, List.foldl_cons,
        filterStep_self f c h]
      exact ih f
    · simp only [List.filter_cons, h, ne_eq, not_false_eq_true, decide_True, List.foldl_cons,
        if_true]
      exact ih _

theorem foldl_closures_dropSelf (closures_ : List ClosureConstraint) (f : FilterState) :
    (dropSelfCorrespondences closures_).foldl
        (fun f closure => closure.landmark_correspondences.foldl filterStep f) f
      = closures_.foldl
        (fun f closure => closure.landmark_correspondences.foldl filterStep f) f := by
  induction closures_ generalizing f with
  | nil => rfl
  | cons cl cls ih =>
    simp only [dropSelfCorrespondences, List.map_cons, List.foldl_cons,
      foldl_filterStep_dropSelf]
    exact ih _

theorem filterCorrespondences_dropSelf (closures_ : List ClosureConstraint) :
    filterCorrespondences (dropSelfCorrespondences closures_)
      = filterCorrespondences closures_ :=
  foldl_closures_dropSelf closures_ _

theorem foldl_filterStep_all_self (cs : List Correspondence) (f : FilterState)
    (h : ∀ c ∈ cs, c.query = c.reference) : cs.foldl filterStep f = f := by
  induction cs with
  | nil => rfl
  | cons c cs ih =>
    simp only [List.foldl_cons, filterStep_self f c (h c (List.mem_cons_self _ _))]
    exact ih (fun c' hc' => h c' (List.mem_cons_of_mem _ hc'))

theorem foldl_closures_all_self (closures_ : List ClosureConstraint) (f : FilterState)
    (h : ∀ closure ∈ closures_, ∀ c ∈ closure.landmark_correspondences,
      c.query = c.reference) :
    closures_.foldl (fun f closure => closure.landmark_correspondences.foldl filterStep f) f
      = f := by
  induction closures_ with
  | nil => rfl
  | cons cl cls ih =>
    simp only [List.foldl_cons,
      foldl_filterStep_all_self _ f (h cl (List.mem_cons_self _ _))]
    exact ih (fun cl' hcl' => h cl' (List.mem_cons_of_mem _ hcl'))

theorem filterCorrespondences_all_self (closures_ : List ClosureConstraint)
    (h : ∀ closure ∈ closures_, ∀ c ∈ closure.landmark_correspondences,
      c.query = c.reference) :
    filterCorrespondences closures_
      = { landmark_queries_to_references_filtered := [],
          landmark_references_to_queries_filtered := [] } :=
  foldl_closures_all_self closures_ _ h

/-- C10: a correspondence whose query and reference identifiers are equal is
skipped: for every batch, taking all such correspondences out does not change
the result of `mergeLandmarks`, and a batch that consists of such
correspondences only makes the call return with the landmark table, the
tracked-landmark cache and the merged-landmark counter unchanged. -/
theorem mergeLandmarks_skips_self_correspondences
    (merge : Landmark → Landmark → Landmark) (w : WorldMap)
    (closures_ : List ClosureConstraint) :
    mergeLandmarks merge w (dropSelfCorrespondences closures_)
        = mergeLandmarks merge w closures_ ∧
      ((∀ closure ∈ closures_, ∀ c ∈ closure.landmark_correspondences,
          c.query = c.reference) →
        mergeLandmarks merge w closures_ = .ok w) := by
  constructor
  · simp only [mergeLandmarks, mergeRun, filterCorrespondences_dropSelf]
  · intro h
    simp [mergeLandmarks, mergeRun, filterCorrespondences_all_self closures_ h, mergeLoop,
      MergeState.start, StdMap.size]

/-- Witness for C10: the batch whose only correspondence is (3, 3). -/
theorem mergeLandmarks_skips_self_correspondences_witness :
    mergeLandmarks Landmark.merge scenarioWorld (dropSelfCorrespondences selfBatch)
        = mergeLandmarks Landmark.merge scenarioWorld selfBatch ∧
      mergeLandmarks Landmark.merge scenarioWorld selfBatch = .ok scenarioWorld :=
  ⟨(mergeLandmarks_skips_self_correspondences Landmark.merge scenarioWorld selfBatch).1,
    (mergeLandmarks_skips_self_correspondences Landmark.merge scenarioWorld selfBatch).2
      (by decide)⟩

/-! ## Counting the merges -/

/-- Induction over the second loop: a property of the loop state that every
performed merge preserves holds in the state the loop ends in. -/
theorem mergeLoop_induction (merge : Landmark → Landmark → Landmark)
    (P : MergeState → Prop)
    (hmerge : ∀ (s : MergeState) (q r0 ref : Identifier) (lq lr : Landmark),
      MergedOk s → (∀ x, (s.merged_landmark_identifiers.find x).isSome = true → x < q) →
      s._landmarks.find q = some lq → lookupReference s r0 = some (ref, lr) → q ≠ ref →
      P s → P (performMerge merge s q ref lq lr)) :
    ∀ (rest : List (Identifier × (Identifier × Count))) (s : MergeState),
      QueryMapOk rest → MergedOk s →
      (∀ x, (s.merged_landmark_identifiers.find x).isSome = true → ∀ p ∈ rest, x < p.1) →
      P s → P (lastState (mergeLoop merge rest s)) := by
  intro rest
  induction rest with
  | nil => intro s _ _ _ hP; exact hP
  | cons pair rest ih =>
    intro s hQ hI hB hP
    have hsorted := List.pairwise_cons.1 hQ.1
    have hQ' : QueryMapOk rest := ⟨hsorted.2, fun p hp => hQ.2 p (List.mem_cons_of_mem _ hp)⟩
    have hBp : ∀ x, (s.merged_landmark_identifiers.find x).isSome = true → x < pair.1 :=
      fun x hx => hB x hx pair (List.mem_cons_self _ _)
    rcases mergeStep_cases merge s pair with (h | ⟨failure, h⟩) | ⟨lq, ref, lr, hq, hr, hne, _, h⟩
    · simp only [mergeLoop, h]
      exact ih s hQ' hI (fun x hx p hp => hB x hx p (List.mem_cons_of_mem _ hp)) hP
    · simp only [mergeLoop, h, lastState]
      exact hP
    · simp only [mergeLoop, h]
      have hM := performMerge_mergedOk merge s pair.1 pair.2.1 ref lq lr
        (hQ.2 pair (List.mem_cons_self _ _)) hI hBp hr hne
      refine ih _ hQ' hM.1 ?_ (hmerge s pair.1 pair.2.1 ref lq lr hI hBp hq hr hne hP)
      intro x hx p hp
      have h1 := performMerge_merged_bound merge s pair.1 ref lq lr hBp x hx
      exact lt_of_le_of_lt h1 (hsorted.1 p hp)

theorem StdMap.length_assign {V : Type} (m : StdMap V) (x : Identifier) (v : V) :
    (StdMap.assign m x v).length = m.length := by
  simp [StdMap.assign]

theorem StdMap.keys_assign {V : Type} (m : StdMap V) (x : Identifier) (v : V) :
    (StdMap.assign m x v).map Prod.fst = m.map Prod.fst := by
  simp [StdMap.assign, List.map_map, Function.comp_def]

theorem StdMap.length_erase {V : Type} (m : StdMap V) (x : Identifier) (v : V)
    (hs : StdMap.Sorted m) (hx : StdMap.find m x = some v) :
    (StdMap.erase m x).length + 1 = m.length := by
  induction m with
  | nil => simp [StdMap.find] at hx
  | cons a m ih =>
    obtain ⟨k, w⟩ := a
    have hs' := List.pairwise_cons.1 hs
    by_cases hk : x = k
    · subst hk
      have hrest : StdMap.erase m x = m := by
        unfold StdMap.erase
        rw [List.filter_eq_self]
        intro p hp
        have := hs'.1 p hp
        simp only [ne_eq, decide_not, Bool.not_eq_true', decide_eq_false_iff_not]
        exact Nat.ne_of_gt this
      have : StdMap.erase ((x, w) :: m) x = StdMap.erase m x := by
        simp [StdMap.erase, List.filter_cons]
      rw [this, hrest]
      simp
    · have hfind : StdMap.find m x = some v := by simpa [StdMap.find, hk] using hx
      have hkx : ¬ k = x := fun e => hk e.symm
      have : StdMap.erase ((k, w) :: m) x = (k, w) :: StdMap.erase m x := by
        simp [StdMap.erase, List.filter_cons, hkx]
      rw [this]
      simp only [List.length_cons]
      rw [ih hs'.2 hfind]

theorem StdMap.length_orderedInsert {V : Type} (m : StdMap V) (x : Identifier) (v : V) :
    (StdMap.orderedInsert m x v).length = m.length + 1 := by
  induction m with
  | nil => simp [StdMap.orderedInsert]
  | cons a m ih =>
    obtain ⟨k, w⟩ := a
    unfold StdMap.orderedInsert
    split
    · simp
    · simp [ih]

theorem StdMap.length_insert_new {V : Type} (m : StdMap V) (x : Identifier) (v : V)
    (hx : StdMap.find m x = none) : (StdMap.insert m x v).length = m.length + 1 := by
  unfold StdMap.insert
  rw [hx]
  exact StdMap.length_orderedInsert m x v

theorem StdMap.keys_erase_sublist {V : Type} (m : StdMap V) (x : Identifier) :
    ((StdMap.erase m x).map Prod.fst).Sublist (m.map Prod.fst) :=
  (List.filter_sublist m).map Prod.fst

/-- Over a key-ordered table, the entries whose key is missing from a table with
a sub-sequence of its keys are as many as the difference of the sizes. -/
theorem StdMap.removed_count {V : Type} (before : StdMap V) :
    ∀ (after : StdMap V), StdMap.Sorted before →
      (after.map Prod.fst).Sublist (before.map Prod.fst) →
      (before.filter fun p => (StdMap.find after p.1).isNone).length + after.length
        = before.length := by
  induction before with
  | nil =>
    intro after _ hsub
    simp only [List.map_nil, List.sublist_nil, List.map_eq_nil_iff] at hsub
    simp [hsub]
  | cons a before ih =>
    obtain ⟨k, v⟩ := a
    intro after hs hsub
    have hs' := List.pairwise_cons.1 hs
    have hnotin : ∀ (m : StdMap V), (m.map Prod.fst).Sublist (before.map Prod.fst) →
        StdMap.find m k = none := by
      intro m hm
      rw [StdMap.find_eq_none_iff]
      intro p hp e
      have hmem : p.1 ∈ before.map Prod.fst := hm.subset (List.mem_map_of_mem _ hp)
      obtain ⟨b, hb, hbk⟩ := List.mem_map.1 hmem
      have := hs'.1 b hb
      rw [hbk, e] at this
      exact lt_irrefl _ this
    cases after with
    | nil => simp [StdMap.find]
    | cons b after =>
      obtain ⟨k', v'⟩ := b
      simp only [List.map_cons] at hsub
      rcases List.sublist_cons_iff.1 hsub with hskip | ⟨r, hr, htake⟩
      · have hk := hnotin ((k', v') :: after) (by simpa using hskip)
        have := ih ((k', v') :: after) hs'.2 (by simpa using hskip)
        have hhead : (StdMap.find ((k', v') :: after) (k, v).1).isNone = true := by
          show (StdMap.find ((k', v') :: after) k).isNone = true
          rw [hk]; rfl
        rw [List.filter_cons, if_pos hhead]
        simp only [List.length_cons] at this ⊢
        omega
      · simp only [List.cons.injEq] at hr
        obtain ⟨rfl, rfl⟩ := hr
        have hcongr : (before.filter fun p => (StdMap.find ((k', v') :: after) p.1).isNone)
            = before.filter fun p => (StdMap.find after p.1).isNone := by
          refine List.filter_congr ?_
          intro p hp
          have hne : ¬ p.1 = k' := Nat.ne_of_gt (hs'.1 p hp)
          simp [StdMap.find, hne]
        have := ih after hs'.2 htake
        have hhead : ¬ (StdMap.find ((k', v') :: after) (k', v).1).isNone = true := by
          simp [StdMap.find]
        rw [List.filter_cons, if_neg hhead, hcongr]
        simp only [List.length_cons]
        omega

theorem performMerge_countOk (merge : Landmark → Landmark → Landmark)
    (table : StdMap Landmark) (s : MergeState) (q ref : Identifier) (lq lr : Landmark)
    (hB : ∀ x, (s.merged_landmark_identifiers.find x).isSome = true → x < q)
    (hq : s._landmarks.find q = some lq) (hne : q ≠ ref) (h : CountOk table s) :
    CountOk table (performMerge merge s q ref lq lr) := by
  obtain ⟨hs, hsub, hlen⟩ := h
  have hnew : s.merged_landmark_identifiers.find q = none := by
    cases hm : s.merged_landmark_identifiers.find q with
    | none => rfl
    | some a => exact absurd (hB q (by simp [hm])) (lt_irrefl q)
  have hs1 : StdMap.Sorted (StdMap.assign s._landmarks ref (merge lr lq)) :=
    StdMap.sorted_assign _ _ _ hs
  have hq1 : StdMap.find (StdMap.assign s._landmarks ref (merge lr lq)) q = some lq := by
    rw [StdMap.find_assign]
    simp [hne, hq]
  have hl := StdMap.length_erase _ q lq hs1 hq1
  rw [StdMap.length_assign] at hl
  refine ⟨StdMap.sorted_erase _ _ hs1, ?_, ?_⟩
  · have h1 := StdMap.keys_erase_sublist (StdMap.assign s._landmarks ref (merge lr lq)) q
    rw [StdMap.keys_assign] at h1
    exact h1.trans hsub
  · have h2 := StdMap.length_insert_new s.merged_landmark_identifiers q ref hnew
    show (StdMap.erase (StdMap.assign s._landmarks ref (merge lr lq)) q).length
      + (StdMap.insert s.merged_landmark_identifiers q ref).length = table.length
    omega

theorem mergeRun_countOk (merge : Landmark → Landmark → Landmark) (w : WorldMap)
    (closures_ : List ClosureConstraint) (hs : StdMap.Sorted w._landmarks) :
    CountOk w._landmarks (lastState (mergeRun merge w closures_)) := by
  unfold mergeRun
  refine mergeLoop_induction merge (CountOk w._landmarks) ?_ _ _
    (filterCorrespondences_queryMapOk closures_) ?_ ?_ ?_
  · intro s q r0 ref lq lr _ hB hq _ hne hP
    exact performMerge_countOk merge w._landmarks s q ref lq lr hB hq hne hP
  · intro q r h
    simp [MergeState.start, StdMap.find] at h
  · intro x hx
    simp [MergeState.start, StdMap.find] at hx
  · exact ⟨hs, List.Sublist.refl _, by simp [MergeState.start]⟩

/-- C11, as stated, fails: the second loop merges landmark 10 into 5 and is then
left by `std::out_of_range` at the pair (12, 3), whose reference is in neither
the table nor the redirection map.  The call has removed one landmark from the
table, whose size went down by one, and line 443 is not reached: the counter
is as before. -/
theorem counter_misses_merges_before_exception :
    mergeLandmarks Landmark.merge missingReferenceWorld lateMissingReferenceBatch
      = .error (.out_of_range,
          { _landmarks := [(5, Landmark.merge (landmarkIn [1]) (landmarkIn [2])),
              (12, landmarkIn [3])]
            _currently_tracked_landmarks := [5, 12]
            _number_of_merged_landmarks := 0 }) ∧
    removedLandmarks missingReferenceWorld._landmarks
      (afterCall (mergeLandmarks Landmark.merge missingReferenceWorld
        lateMissingReferenceBatch))._landmarks = 1 ∧
    (afterCall (mergeLandmarks Landmark.merge missingReferenceWorld
        lateMissingReferenceBatch))._landmarks.size + 1
      = missingReferenceWorld._landmarks.size ∧
    (afterCall (mergeLandmarks Landmark.merge missingReferenceWorld
        lateMissingReferenceBatch))._number_of_merged_landmarks
      = missingReferenceWorld._number_of_merged_landmarks :=
  ⟨rfl, by decide, by decide, by decide⟩

/-- C11, amended: after a `mergeLandmarks` call that returns normally,
`_number_of_merged_landmarks` has grown by exactly the number of landmarks that
the call removed from the landmark table, which is also the amount by which the
size of the table went down. -/
theorem mergeLandmarks_counter_counts_removed_landmarks
    (merge : Landmark → Landmark → Landmark) (w w' : WorldMap)
    (closures_ : List ClosureConstraint)
    (hsorted : StdMap.Sorted w._landmarks)
    (hcall : mergeLandmarks merge w closures_ = .ok w') :
    w'._number_of_merged_landmarks
        = w._number_of_merged_landmarks + removedLandmarks w._landmarks w'._landmarks ∧
      removedLandmarks w._landmarks w'._landmarks + w'._landmarks.size
        = w._landmarks.size := by
  have hC := mergeRun_countOk merge w closures_ hsorted
  unfold mergeLandmarks at hcall
  cases hrun : mergeRun merge w closures_ with
  | error s => rw [hrun] at hcall; cases hcall
  | ok s =>
    rw [hrun] at hcall hC
    simp only [Except.ok.injEq] at hcall
    obtain ⟨_, hsub, hlen⟩ := hC
    have hr := StdMap.removed_count w._landmarks s._landmarks hsorted hsub
    subst hcall
    simp only [removedLandmarks, StdMap.size, lastState] at hlen hr ⊢
    have e := Nat.add_left_cancel ((hlen.trans hr.symm).trans (Nat.add_comm _ _))
    exact ⟨by rw [e], hr⟩

/-- Witness for C11: the scenario batch removes landmark 10 and counts one merge. -/
theorem mergeLandmarks_counter_counts_removed_landmarks_witness :
    (afterCall (mergeLandmarks Landmark.merge scenarioWorld
        scenarioBatch))._number_of_merged_landmarks
      = scenarioWorld._number_of_merged_landmarks
        + removedLandmarks scenarioWorld._landmarks
            (afterCall (mergeLandmarks Landmark.merge scenarioWorld scenarioBatch))._landmarks ∧
    removedLandmarks scenarioWorld._landmarks
        (afterCall (mergeLandmarks Landmark.merge scenarioWorld scenarioBatch))._landmarks
      + (afterCall (mergeLandmarks Landmark.merge scenarioWorld
          scenarioBatch))._landmarks.size
      = scenarioWorld._landmarks.size :=
  mergeLandmarks_counter_counts_removed_landmarks Landmark.merge scenarioWorld
    (afterCall (mergeLandmarks Landmark.merge scenarioWorld scenarioBatch)) scenarioBatch
    (by unfold StdMap.Sorted; decide) rfl

/-! ## Facts about writes through pointers -/

theorem StdMap.find_modify {V : Type} (m : StdMap V) (x y : Identifier) (g : V → V) :
    StdMap.find (StdMap.modify m x g) y
      = if y = x then (StdMap.find m x).map g else StdMap.find m y := by
  induction m with
  | nil => simp [StdMap.modify, StdMap.find]
  | cons p m ih =>
    obtain ⟨k, v⟩ := p
    simp only [StdMap.modify] at ih
    have h1 : StdMap.modify ((k, v) :: m) x g
        = (k, if k = x then g v else v)
          :: List.map (fun p => (p.1, if p.1 = x then g p.2 else p.2)) m := by
      simp [StdMap.modify]
    rw [h1]
    by_cases hyk : y = k
    · subst hyk
      by_cases hy : y = x
      · subst hy; simp [StdMap.find]
      · simp [StdMap.find, hy]
    · simp only [StdMap.find, hyk, if_false]
      rw [ih]
      by_cases hy : y = x
      · have hxk : ¬ x = k := by rw [← hy]; exact hyk
        simp [hy, hxk]
      · simp [hy]

theorem StdMap.find_append_singleton {V : Type} (m : StdMap V) (k y : Identifier) (v : V) :
    StdMap.find (m ++ [(k, v)]) y
      = match StdMap.find m y with
        | some a => some a
        | none => if y = k then some v else none := by
  induction m with
  | nil => simp [StdMap.find]
  | cons p m ih =>
    obtain ⟨k', v'⟩ := p
    by_cases hy : y = k'
    · simp [StdMap.find, hy]
    · simpa [StdMap.find, hy] using ih

/-! ## Settled properties of the track bookkeeping -/

/-- C15: when `setTrack(frame)` is executed with a saved pre-break local map `M`
(and the frame has a local map and a pre-break frame is saved, as the call
needs), it completes, and afterwards `next(M)` is the local map of the frame,
`previous` of that local map is `M`, its root is the root of `M`, the root local
map of the world map is the root of `M`, and both saved pre-break pointers are
null. -/
theorem setTrack_bridges_local_maps (w : WorldMap) (frame_ local_map M L : Identifier)
    (frame last : Frame) (last_map query_map : LocalMap)
    (hframe : w._frames.find frame_ = some frame)
    (hlocal : frame._local_map = some local_map)
    (hM : w._last_local_map_before_track_break = some M)
    (hL : w._last_frame_before_track_break = some L)
    (hlast : w._frames.find L = some last)
    (hlast_map : w._local_maps.find M = some last_map)
    (hquery : w._local_maps.find local_map = some query_map) :
    ∃ w', setTrack w frame_ = some w' ∧
      w'.localMap frame_ = some local_map ∧
      w'.nextLocalMap M = some local_map ∧
      w'.previousLocalMap local_map = some M ∧
      w'.rootLocalMap local_map = w.rootLocalMap M ∧
      w'.rootLocalMap M = w.rootLocalMap M ∧
      w'._root_local_map = w.rootLocalMap M ∧
      w'._last_frame_before_track_break = none ∧
      w'._last_local_map_before_track_break = none := by
  refine ⟨stitch w frame_ local_map L M last._root last_map._root,
    by simp only [setTrack, hframe, hlocal, hM, hL, hlast, hlast_map, hquery], ?_⟩
  refine ⟨?_, ?_, ?_, ?_, ?_, ?_, rfl, rfl⟩
  · simp only [WorldMap.localMap, stitch, StdMap.find_modify, hframe]
    by_cases h1 : frame_ = L <;> simp [h1, hlocal]
  · simp only [WorldMap.nextLocalMap, stitch, StdMap.find_modify, hlast_map, hquery]
    by_cases h1 : M = local_map <;> simp [h1, hquery]
  · simp only [WorldMap.previousLocalMap, stitch, StdMap.find_modify, hlast_map, hquery]
    by_cases h1 : local_map = M <;> simp [h1, hlast_map]
  · simp only [WorldMap.rootLocalMap, stitch, StdMap.find_modify, hlast_map, hquery]
    by_cases h1 : local_map = M <;> simp [h1, hlast_map]
  · simp only [WorldMap.rootLocalMap, stitch, StdMap.find_modify, hlast_map, hquery]
    by_cases h1 : M = local_map
    · subst h1; simp [hlast_map]
    · simp [h1, hlast_map]
  · simp [WorldMap.rootLocalMap, stitch, hlast_map]

/-- Witness for C15: the relocalization at frame 20, whose local map is 5, with
the saved pre-break frame 4 and local map 0. -/
theorem setTrack_bridges_local_maps_witness :
    ∃ w', setTrack worldBeforeRelocalization 20 = some w' ∧
      w'.localMap 20 = some 5 ∧
      w'.nextLocalMap 0 = some 5 ∧
      w'.previousLocalMap 5 = some 0 ∧
      w'.rootLocalMap 5 = worldBeforeRelocalization.rootLocalMap 0 ∧
      w'.rootLocalMap 0 = worldBeforeRelocalization.rootLocalMap 0 ∧
      w'._root_local_map = worldBeforeRelocalization.rootLocalMap 0 ∧
      w'._last_frame_before_track_break = none ∧
      w'._last_local_map_before_track_break = none :=
  setTrack_bridges_local_maps worldBeforeRelocalization 20 5 0 4
    { _previous := some 19, _root := some 5, _local_map := some 5, _is_keyframe := true }
    { _previous := some 3, _next := some 5, _root := some 0 }
    { _root := some 0, _next := some 1, _keyframe := some 2, _frames := [0, 1, 2] }
    { _root := some 1, _previous := some 4, _keyframe := some 20, _frames := [18, 19, 20] }
    (by with_unfolding_all rfl) rfl (by with_unfolding_all rfl) (by with_unfolding_all rfl)
    (by with_unfolding_all rfl) (by with_unfolding_all rfl) (by with_unfolding_all rfl)

/-- C14, evaluated: the track breaks at frame 5 with frame 4 saved, and frame 20
is relocalized.  After `setTrack` the root of frame 20 is the root of frame 4
and `next(4)` is frame 20, but `previous(20)` is frame 20 itself, not frame 4. -/
theorem relocalized_frame_is_its_own_predecessor :
    worldBeforeRelocalization._last_frame_before_track_break = some 4 ∧
    ((setTrack worldBeforeRelocalization 20).bind fun w => w.root 20)
      = worldBeforeRelocalization.root 4 ∧
    ((setTrack worldBeforeRelocalization 20).bind fun w => w.next 4) = some 20 ∧
    ((setTrack worldBeforeRelocalization 20).bind fun w => w.previous 20) = some 20 := by
  with_unfolding_all decide

/-- C12, evaluated: a run of `createFrame` and `createLocalMap` for frames 0 to 20
with `breakTrack` at frame 5 and `addLoopClosure` at frame 20 ends in a state in
which frame 20 has the non-null previous frame 20 whose next pointer is null, so
`next(previous(20))` is not frame 20. -/
theorem stitched_frame_breaks_backward_link :
    (runRelocalized.bind fun w => w.previous 20) = some 20 ∧
    (runRelocalized.bind fun w => w.next 20) = none ∧
    (runRelocalized.bind fun w => (w.previous 20).bind w.next) ≠ some 20 := by
  with_unfolding_all decide

theorem setTrack_clears_saved_pointers (w w' : WorldMap) (frame_ : Identifier)
    (h : setTrack w frame_ = some w') :
    w'._last_frame_before_track_break = none ∧
      w'._last_local_map_before_track_break = none := by
  unfold setTrack at h
  split at h
  · cases h
  · split at h
    · split at h
      · simp only [Option.some.injEq] at h
        subst h
        exact ⟨rfl, rfl⟩
      · cases h
    · cases h

/-- C16, as stated, fails: after the relocalization at frame 20 a second
`setTrack(20)` does not complete. -/
theorem second_setTrack_does_not_complete :
    (setTrack worldBeforeRelocalization 20).isSome = true ∧
    ((setTrack worldBeforeRelocalization 20).bind fun w => setTrack w 20) = none := by
  with_unfolding_all decide

/-- C16, amended: `setTrack(frame)` applied a second time to a frame that was
just stitched does not complete: the first call leaves the saved pre-break
pointers null, and the second call fails its assertion on them. -/
theorem setTrack_twice_fails (w w' : WorldMap) (frame_ : Identifier)
    (h : setTrack w frame_ = some w') : setTrack w' frame_ = none := by
  have hc := setTrack_clears_saved_pointers w w' frame_ h
  unfold setTrack
  cases w'._frames.find frame_ with
  | none => rfl
  | some frame =>
    simp only [hc.1, hc.2]
    cases frame._local_map <;> rfl

/-- Witness for the amended C16: the relocalization at frame 20. -/
theorem setTrack_twice_fails_witness :
    setTrack (stitch worldBeforeRelocalization 20 5 4 0 (some 0) (some 0)) 20 = none :=
  setTrack_twice_fails worldBeforeRelocalization
    (stitch worldBeforeRelocalization 20 5 4 0 (some 0) (some 0)) 20
    (by with_unfolding_all rfl)

/-- C17: `breakTrack(frame)` on a map whose track is not already broken, with
the previous-frame pointer at `P` and the current local map `M`, completes;
afterwards `P` and `M` are the saved pre-break frame and local map, the previous
pointer of the frame and of the map are null, the frame is the root frame and
its own root, the tracked-landmark cache is empty and both window accumulators
are zero. -/
theorem breakTrack_starts_new_track (w : WorldMap) (frame_ : Identifier) (frame : Frame)
    (P M : Option Identifier)
    (hnot : w._last_frame_before_track_break = none)
    (hframe : w._frames.find frame_ = some frame)
    (hP : w._previous_frame = P) (hM : w._current_local_map = M) :
    ∃ w', breakTrack w frame_ = some w' ∧
      w'._last_frame_before_track_break = P ∧
      w'._last_local_map_before_track_break = M ∧
      w'.previous frame_ = none ∧
      w'._previous_frame = none ∧
      w'._root_frame = some frame_ ∧
      w'.root frame_ = some frame_ ∧
      w'._currently_tracked_landmarks = [] ∧
      w'._distance_traveled_window = 0 ∧
      w'._degrees_rotated_window = 0 := by
  subst hP hM
  refine ⟨_, by simp only [breakTrack, hframe, hnot, resetWindowForLocalMapCreation]; rfl, ?_⟩
  simp [WorldMap.previous, WorldMap.root, StdMap.find_modify, hframe, Frame.breakTrack]

/-- Witness for C17: the break at frame 5, with frame 4 and local map 0 before. -/
theorem breakTrack_starts_new_track_witness :
    ∃ w', breakTrack worldBeforeBreak 5 = some w' ∧
      w'._last_frame_before_track_break = some 4 ∧
      w'._last_local_map_before_track_break = some 0 ∧
      w'.previous 5 = none ∧
      w'._previous_frame = none ∧
      w'._root_frame = some 5 ∧
      w'.root 5 = some 5 ∧
      w'._currently_tracked_landmarks = [] ∧
      w'._distance_traveled_window = 0 ∧
      w'._degrees_rotated_window = 0 :=
  breakTrack_starts_new_track worldBeforeBreak 5 { _previous := some 4, _root := some 0 }
    (some 4) (some 0) (by with_unfolding_all rfl) (by with_unfolding_all rfl)
    (by with_unfolding_all rfl) (by with_unfolding_all rfl)

theorem setTrack_eq_stitch (w w' : WorldMap) (frame_ : Identifier)
    (h : setTrack w frame_ = some w') :
    ∃ local_map last_frame last_local_map root_frame root_local_map,
      w' = stitch w frame_ local_map last_frame last_local_map root_frame root_local_map := by
  unfold setTrack at h
  split at h
  · cases h
  · split at h
    · split at h
      · simp only [Option.some.injEq] at h
        exact ⟨_, _, _, _, _, h.symm⟩
      · cases h
    · cases h

/-- A write that leaves a projection of the object alone leaves that projection
of every entry alone. -/
theorem StdMap.map_find_modify {V α : Type} (m : StdMap V) (x y : Identifier) (g : V → V)
    (π : V → α) (hg : ∀ v, π (g v) = π v) :
    (StdMap.find (StdMap.modify m x g) y).map π = (StdMap.find m y).map π := by
  rw [StdMap.find_modify]
  by_cases h : y = x
  · subst h
    cases StdMap.find m y <;> simp [hg]
  · simp [h]

theorem stitch_closures (w : WorldMap) (frame_ local_map last_frame last_local_map : Identifier)
    (root_frame root_local_map : Option Identifier) (m : Identifier) :
    ((stitch w frame_ local_map last_frame last_local_map root_frame
        root_local_map)._local_maps.find m).map (fun x => x._closures)
      = (w._local_maps.find m).map (fun x => x._closures) := by
  simp only [stitch]
  refine (StdMap.map_find_modify _ _ _ _ _ ?_).trans
    ((StdMap.map_find_modify _ _ _ _ _ ?_).trans (StdMap.map_find_modify _ _ _ _ _ ?_)) <;>
    intro _ <;> rfl

theorem recordClosure_spec (w w' : WorldMap) (query_ reference_ : Identifier)
    (query_to_reference_ : TransformMatrix3D)
    (landmark_correspondences_ : List Correspondence) (information_ : real)
    (h : recordClosure w query_ reference_ query_to_reference_ landmark_correspondences_
      information_ = some w') :
    w'._number_of_closures = w._number_of_closures + 1 ∧ w'._relocalized = true ∧
      (∃ before, w._local_maps.find query_ = some before ∧
        (w'._local_maps.find query_).map (fun x => x._closures)
          = some (before._closures ++
              [{ landmark_correspondences := landmark_correspondences_
                 local_map := reference_
                 relation := query_to_reference_
                 omega := information_ }])) ∧
      (∀ m, m ≠ query_ →
        w'._local_maps.find m = w._local_maps.find m) ∧
      (∀ m, (w'._local_maps.find m).map (fun x => (x._root, x._previous, x._next))
        = (w._local_maps.find m).map (fun x => (x._root, x._previous, x._next))) ∧
      w'._frames = w._frames ∧ w'._root_frame = w._root_frame ∧
      w'._root_local_map = w._root_local_map ∧
      w'._last_frame_before_track_break = w._last_frame_before_track_break ∧
      w'._last_local_map_before_track_break = w._last_local_map_before_track_break := by
  unfold recordClosure at h
  cases hq : w._local_maps.find query_ with
  | none => rw [hq] at h; cases h
  | some before =>
    rw [hq] at h
    simp only [Option.some.injEq] at h
    subst h
    refine ⟨rfl, rfl, ⟨before, rfl, ?_⟩, ?_, ?_, rfl, rfl, rfl, rfl, rfl⟩
    · simp [StdMap.find_modify, hq, LocalMap.addCorrespondence]
    · intro m hm
      simp [StdMap.find_modify, hm]
    · intro m
      simp only [StdMap.find_modify]
      by_cases hm : m = query_
      · simp [hm, hq, LocalMap.addCorrespondence]
      · simp [hm]

/-- C18: every completed call of `addLoopClosure` increments the closure counter
by exactly 1, sets the relocalized flag, and appends exactly one closure
constraint, made of the reference, the transform, the correspondences and the
information value, to the closures of the query local map; the closures of all
other local maps stay as they are. -/
theorem addLoopClosure_counts_and_records (w w' : WorldMap) (query_ reference_ : Identifier)
    (query_to_reference_ : TransformMatrix3D)
    (landmark_correspondences_ : List Correspondence) (information_ : real)
    (h : addLoopClosure w query_ reference_ query_to_reference_ landmark_correspondences_
      information_ = some w') :
    w'._number_of_closures = w._number_of_closures + 1 ∧ w'._relocalized = true ∧
      (∃ before, w._local_maps.find query_ = some before ∧
        (w'._local_maps.find query_).map (fun x => x._closures)
          = some (before._closures ++
              [{ landmark_correspondences := landmark_correspondences_
                 local_map := reference_
                 relation := query_to_reference_
                 omega := information_ }])) ∧
      (∀ m, m ≠ query_ →
        (w'._local_maps.find m).map (fun x => x._closures)
          = (w._local_maps.find m).map (fun x => x._closures)) := by
  unfold addLoopClosure at h
  split at h
  · split at h
    · cases h
    · split at h
      · split at h
        · split at h
          · cases h
          · rename_i stitched hs
            obtain ⟨a, b, c, d, e, rfl⟩ := setTrack_eq_stitch w stitched _ hs
            obtain ⟨h1, h2, ⟨before, hb, h3⟩, h4, _⟩ := recordClosure_spec _ _ _ _ _ _ _ h
            have hc := congrArg (Option.map fun x => x._closures) hb
            rw [stitch_closures] at hc
            cases hq : w._local_maps.find query_ with
            | none => rw [hq] at hc; simp at hc
            | some before0 =>
              rw [hq] at hc
              simp only [Option.map_some', Option.some.injEq] at hc
              refine ⟨h1, h2, ⟨before0, rfl, by rw [h3, hc]⟩, ?_⟩
              intro m hm
              rw [h4 m hm]
              exact stitch_closures w _ a b c d e m
        · cases h
      · obtain ⟨h1, h2, h3, h4, _⟩ := recordClosure_spec _ _ _ _ _ _ _ h
        exact ⟨h1, h2, h3, fun m hm => by rw [h4 m hm]⟩
  · cases h

/-- Witness for C18: the closure added at the relocalization at frame 20. -/
theorem addLoopClosure_counts_and_records_witness :
    (runRelocalized.getD worldBeforeRelocalization)._number_of_closures
      = worldBeforeRelocalization._number_of_closures + 1 ∧
    (runRelocalized.getD worldBeforeRelocalization)._relocalized = true ∧
    (∃ before, worldBeforeRelocalization._local_maps.find 5 = some before ∧
      ((runRelocalized.getD worldBeforeRelocalization)._local_maps.find 5).map
          (fun x => x._closures)
        = some (before._closures ++
            [{ landmark_correspondences := [], local_map := 1, relation := [],
               omega := 1 }])) ∧
    (∀ m, m ≠ 5 →
      ((runRelocalized.getD worldBeforeRelocalization)._local_maps.find m).map
          (fun x => x._closures)
        = (worldBeforeRelocalization._local_maps.find m).map (fun x => x._closures)) :=
  addLoopClosure_counts_and_records worldBeforeRelocalization
    (runRelocalized.getD worldBeforeRelocalization) 5 1 [] [] 1
    (by with_unfolding_all rfl)

/-- The two ways in which `addLoopClosure` completes: the roots of frame 0 and of
the current frame differ and the tracks are stitched before the closure is
recorded, or the roots are equal and only the closure is recorded. -/
theorem addLoopClosure_cases (w w' : WorldMap) (query_ reference_ : Identifier)
    (query_to_reference_ : TransformMatrix3D)
    (landmark_correspondences_ : List Correspondence) (information_ : real)
    (h : addLoopClosure w query_ reference_ query_to_reference_ landmark_correspondences_
      information_ = some w') :
    ∃ current_frame, w._current_frame = some current_frame ∧
      ((w.root 0 ≠ w.root current_frame ∧
          ∃ stitched, setTrack w current_frame = some stitched ∧
            recordClosure stitched query_ reference_ query_to_reference_
              landmark_correspondences_ information_ = some w') ∨
        (w.root 0 = w.root current_frame ∧
          recordClosure w query_ reference_ query_to_reference_ landmark_correspondences_
            information_ = some w')) := by
  unfold addLoopClosure at h
  cases hfirst : w._frames.find 0 with
  | none => simp [hfirst] at h
  | some first =>
    cases hc : w._current_frame with
    | none => simp [hfirst, hc] at h
    | some current_frame =>
      refine ⟨current_frame, rfl, ?_⟩
      cases hcur : w._frames.find current_frame with
      | none => simp [hfirst, hc, hcur] at h
      | some current =>
        simp only [hfirst, hc, hcur] at h
        have hroots : (w.root 0 = w.root current_frame) ↔ first._root = current._root := by
          simp [WorldMap.root, hfirst, hcur]
        by_cases hr : first._root = current._root
        · simp only [hr, ne_eq, not_true_eq_false, if_false] at h
          exact Or.inr ⟨hroots.2 hr, h⟩
        · simp only [ne_eq, hr, not_false_eq_true, if_true] at h
          refine Or.inl ⟨fun he => hr (hroots.1 he), ?_⟩
          split at h
          · cases hs : setTrack w current_frame with
            | none => rw [hs] at h; cases h
            | some stitched =>
              rw [hs] at h
              exact ⟨stitched, rfl, h⟩
          · cases h

/-- C19: a completed `addLoopClosure` has stitched the tracks, that is executed
`setTrack` on the current frame before recording the closure, if and only if the
root of the current frame differs from the root of frame 0; when the two roots
are equal, the frames (with their previous, next and root pointers), the root,
previous and next pointers of all local maps, the root frame and root local map
of the world map and the saved pre-break pointers are as before the call. -/
theorem addLoopClosure_stitches_iff_roots_differ (w w' : WorldMap)
    (query_ reference_ current_frame : Identifier)
    (query_to_reference_ : TransformMatrix3D)
    (landmark_correspondences_ : List Correspondence) (information_ : real)
    (hcurrent : w._current_frame = some current_frame)
    (h : addLoopClosure w query_ reference_ query_to_reference_ landmark_correspondences_
      information_ = some w') :
    (w.root 0 ≠ w.root current_frame →
      ∃ stitched, setTrack w current_frame = some stitched ∧
        recordClosure stitched query_ reference_ query_to_reference_
          landmark_correspondences_ information_ = some w') ∧
    (w.root 0 = w.root current_frame →
      recordClosure w query_ reference_ query_to_reference_ landmark_correspondences_
          information_ = some w' ∧
        w'._frames = w._frames ∧
        (∀ m, w'.rootLocalMap m = w.rootLocalMap m ∧
          w'.previousLocalMap m = w.previousLocalMap m ∧
          w'.nextLocalMap m = w.nextLocalMap m) ∧
        w'._root_frame = w._root_frame ∧ w'._root_local_map = w._root_local_map ∧
        w'._last_frame_before_track_break = w._last_frame_before_track_break ∧
        w'._last_local_map_before_track_break = w._last_local_map_before_track_break) := by
  unfold addLoopClosure at h
  rw [hcurrent] at h
  cases hfirst : w._frames.find 0 with
  | none => simp [hfirst] at h
  | some first =>
    cases hcur : w._frames.find current_frame with
    | none => simp [hfirst, hcur] at h
    | some current =>
      simp only [hfirst, hcur] at h
      have hroots : (w.root 0 = w.root current_frame) ↔ first._root = current._root := by
        simp [WorldMap.root, hfirst, hcur]
      by_cases hr : first._root = current._root
      · simp only [hr, ne_eq, not_true_eq_false, if_false] at h
        refine ⟨fun hne => absurd (hroots.2 hr) hne, fun _ => ?_⟩
        obtain ⟨_, _, _, _, hlinks, hf, h1, h2, h3, h4⟩ := recordClosure_spec _ _ _ _ _ _ _ h
        refine ⟨h, hf, ?_, h1, h2, h3, h4⟩
        intro m
        have hm := hlinks m
        simp only [WorldMap.rootLocalMap, WorldMap.previousLocalMap, WorldMap.nextLocalMap]
        cases h5 : w'._local_maps.find m <;> cases h6 : w._local_maps.find m <;>
          simp [h5, h6] at hm ⊢
        exact ⟨hm.1, hm.2.1, hm.2.2⟩
      · simp only [ne_eq, hr, not_false_eq_true, if_true] at h
        refine ⟨fun _ => ?_, fun he => absurd (hroots.1 he) hr⟩
        split at h
        · cases hs : setTrack w current_frame with
          | none => rw [hs] at h; cases h
          | some stitched =>
            rw [hs] at h
            exact ⟨stitched, rfl, h⟩
        · cases h

/-- Witness for C19: at the relocalization at frame 20 the roots differ (5 and 0)
and the call stitches; a further closure at frame 20 finds the roots equal. -/
theorem addLoopClosure_stitches_iff_roots_differ_witness :
    ((worldBeforeRelocalization.root 0 ≠ worldBeforeRelocalization.root 20 →
      ∃ stitched, setTrack worldBeforeRelocalization 20 = some stitched ∧
        recordClosure stitched 5 1 [] [] 1 = some worldAfterRelocalization) ∧
    (worldBeforeRelocalization.root 0 = worldBeforeRelocalization.root 20 →
      recordClosure worldBeforeRelocalization 5 1 [] [] 1 = some worldAfterRelocalization ∧
        worldAfterRelocalization._frames = worldBeforeRelocalization._frames ∧
        (∀ m, worldAfterRelocalization.rootLocalMap m = worldBeforeRelocalization.rootLocalMap m ∧
          worldAfterRelocalization.previousLocalMap m
            = worldBeforeRelocalization.previousLocalMap m ∧
          worldAfterRelocalization.nextLocalMap m = worldBeforeRelocalization.nextLocalMap m) ∧
        worldAfterRelocalization._root_frame = worldBeforeRelocalization._root_frame ∧
        worldAfterRelocalization._root_local_map = worldBeforeRelocalization._root_local_map ∧
        worldAfterRelocalization._last_frame_before_track_break
          = worldBeforeRelocalization._last_frame_before_track_break ∧
        worldAfterRelocalization._last_local_map_before_track_break
          = worldBeforeRelocalization._last_local_map_before_track_break)) ∧
    worldBeforeRelocalization.root 0 ≠ worldBeforeRelocalization.root 20 :=
  ⟨addLoopClosure_stitches_iff_roots_differ worldBeforeRelocalization worldAfterRelocalization
      5 1 20 [] [] 1 (by with_unfolding_all rfl) (by with_unfolding_all rfl),
    by with_unfolding_all decide⟩

theorem StdMap.length_modify {V : Type} (m : StdMap V) (x : Identifier) (g : V → V) :
    (StdMap.modify m x g).length = m.length := by
  simp [StdMap.modify]

/-- The same idempotent write through each pointer of a list. -/
theorem StdMap.find_foldl_modify {V : Type} (g : V → V) (hg : ∀ v, g (g v) = g v)
    (l : List Identifier) :
    ∀ (m : StdMap V) (y : Identifier),
      StdMap.find (l.foldl (fun frames frame => StdMap.modify frames frame g) m) y
        = if y ∈ l then (StdMap.find m y).map g else StdMap.find m y := by
  induction l with
  | nil => intro m y; simp
  | cons x l ih =>
    intro m y
    simp only [List.foldl_cons, ih, StdMap.find_modify, List.mem_cons]
    by_cases hyx : y = x
    · subst hyx
      by_cases hyl : y ∈ l
      · cases StdMap.find m y <;> simp [hyl, hg]
      · simp [hyl]
    · by_cases hyl : y ∈ l <;> simp [hyx, hyl]

theorem resetWindow_local_maps (w w' : WorldMap) (drop_framepoints_ : Bool)
    (h : resetWindowForLocalMapCreation w drop_framepoints_ = some w') :
    w'._local_maps = w._local_maps := by
  unfold resetWindowForLocalMapCreation at h
  split at h
  · split at h
    · simp only [Option.some.injEq] at h; subst h; rfl
    · cases h
  · simp only [Option.some.injEq] at h; subst h; rfl

theorem construct_local_maps_size (w created : WorldMap)
    (h : LocalMap.construct w = some created) :
    created._local_maps.size = w._local_maps.size + 1 ∧
      created._frame_queue_for_local_map = w._frame_queue_for_local_map := by
  unfold LocalMap.construct at h
  split at h
  · cases h
  · simp only [Option.some.injEq] at h
    subst h
    refine ⟨?_, rfl⟩
    simp only [StdMap.size, List.length_append, List.length_singleton]
    cases w._current_local_map <;> simp [StdMap.length_modify]

theorem createLocalMap_completes (w : WorldMap) (drop_framepoints_ : Bool)
    (distance_last_to_current degrees_last_to_current : real)
    (current : Identifier) (frame : Frame)
    (hc : w._current_frame = some current)
    (hframe : w._frames.find current = some frame)
    (hlast : w._frame_queue_for_local_map.getLast? = some current)
    (hdrop : drop_framepoints_ = true → 2 ≤ w._frame_queue_for_local_map.length) :
    (createLocalMap add w drop_framepoints_ distance_last_to_current
      degrees_last_to_current).isSome = true := by
  unfold createLocalMap
  cases hp : w._previous_frame with
  | none => rfl
  | some p =>
    simp only [hc]
    split
    · have hmem : current ∈ w._frame_queue_for_local_map := List.mem_of_getLast?_eq_some hlast
      have hfold := StdMap.find_foldl_modify
        (fun f : Frame => { f with _local_map := some w.local_map_instances })
        (fun _ => rfl) w._frame_queue_for_local_map w._frames current
      rw [if_pos hmem, hframe] at hfold
      simp only [LocalMap.construct, hlast, StdMap.find_modify, if_true, hfold,
        Option.map_some', Option.bind_some, and_self]
      simp only [resetWindowForLocalMapCreation]
      cases hd : drop_framepoints_ with
      | false =>
        cases w._root_local_map <;> simp
      | true =>
        have h2 := hdrop hd
        cases w._root_local_map <;> simp [h2]
    · rfl

/-- C20: a completed `createLocalMap` returns true if and only if there is a
previous frame and, with the accumulators updated by the latest motion (the
values that the floating-point `+=` of lines 91-92 stores, `add` of the old
value and the motion, whatever the rounding of `add`), the rotation exceeds its
threshold, or the translation exceeds its threshold and the window holds more
frames than the minimum, or the window holds more frames than the minimum and
there are fewer than 5 local maps.  When it returns true the vector of local
maps has grown by one, when it returns false the local maps are as before.  The
call completes whenever the window ends with the current frame (and holds two
frames if framepoints are dropped). -/
theorem createLocalMap_creates_iff_due (w : WorldMap) (drop_framepoints_ : Bool)
    (distance_last_to_current degrees_last_to_current : real) :
    (∀ b w', createLocalMap add w drop_framepoints_ distance_last_to_current
        degrees_last_to_current = some (b, w') →
      (b = true ↔
        w._previous_frame ≠ none ∧
        (add w._degrees_rotated_window degrees_last_to_current
            > w._parameters.minimum_degrees_rotated_for_local_map ∨
          (add w._distance_traveled_window distance_last_to_current
              > w._parameters.minimum_distance_traveled_for_local_map ∧
            w._frame_queue_for_local_map.length
              > w._parameters.minimum_number_of_frames_for_local_map) ∨
          (w._frame_queue_for_local_map.length
              > w._parameters.minimum_number_of_frames_for_local_map ∧
            w._local_maps.size < 5))) ∧
      (b = true → w'._local_maps.size = w._local_maps.size + 1) ∧
      (b = false → w'._local_maps = w._local_maps)) ∧
    (∀ current frame, w._current_frame = some current →
      w._frames.find current = some frame →
      w._frame_queue_for_local_map.getLast? = some current →
      (drop_framepoints_ = true → 2 ≤ w._frame_queue_for_local_map.length) →
      ∃ b w', createLocalMap add w drop_framepoints_ distance_last_to_current
        degrees_last_to_current = some (b, w')) := by
  constructor
  · intro b w' h
    unfold createLocalMap at h
    cases hp : w._previous_frame with
    | none =>
      simp only [hp, Option.some.injEq, Prod.mk.injEq] at h
      obtain ⟨rfl, rfl⟩ := h
      simp
    | some p =>
      simp only [hp] at h
      cases hc : w._current_frame with
      | none => simp [hc] at h
      | some current =>
        simp only [hc] at h
        split at h
        · rename_i hdue
          have hdue' := hdue
          simp only [localMapDue] at hdue'
          split at h
          · cases h
          · rename_i created hcreated
            split at h
            · simp only [Option.map_eq_some', Prod.mk.injEq] at h
              obtain ⟨w'', hreset, rfl, rfl⟩ := h
              have hsize := (construct_local_maps_size _ _ hcreated).1
              have hl := resetWindow_local_maps _ _ _ hreset
              refine ⟨?_, ?_, ?_⟩
              · constructor
                · intro _
                  exact ⟨by simp, hdue'⟩
                · intro _
                  rfl
              · intro _
                rw [hl]
                split
                · simpa [StdMap.size, StdMap.length_modify] using hsize
                · exact hsize
              · intro hb
                exact absurd hb (by decide)
            · cases h
        · rename_i hdue
          have hdue' := hdue
          simp only [localMapDue] at hdue'
          simp only [Option.some.injEq, Prod.mk.injEq] at h
          obtain ⟨rfl, rfl⟩ := h
          refine ⟨?_, ?_, ?_⟩
          · constructor
            · intro hb
              exact absurd hb (by decide)
            · intro hd
              exact absurd hd.2 hdue'
          · intro hb
            exact absurd hb (by decide)
          · intro _
            rfl
  · intro current frame hc hframe hlast hdrop
    have h := @createLocalMap_completes add w drop_framepoints_ distance_last_to_current
      degrees_last_to_current current frame hc hframe hlast hdrop
    obtain ⟨⟨b, w'⟩, hr⟩ := Option.isSome_iff_exists.1 h
    exact ⟨b, w', hr⟩

/-- Witness for C20: at frame 2 the window holds frames 0, 1 and 2, more than the
minimum of 2, and there is no local map yet. -/
theorem createLocalMap_creates_iff_due_witness :
    ∃ b w', createLocalMap exactSum worldAtFrameTwo false 1 0 = some (b, w') ∧ b = true ∧
      w'._local_maps.size = worldAtFrameTwo._local_maps.size + 1 := by
  obtain ⟨hA, hB⟩ := @createLocalMap_creates_iff_due exactSum worldAtFrameTwo false 1 0
  obtain ⟨b, w', h⟩ := hB 2 { _previous := some 1, _root := some 0 }
    (by with_unfolding_all rfl) (by with_unfolding_all rfl) (by with_unfolding_all rfl)
    (by decide)
  have hb : b = true := (hA b w' h).1.2 (by with_unfolding_all decide)
  exact ⟨b, w', h, hb, (hA b w' h).2.1 hb⟩

/-- C13, as stated, fails: right after the track break at frame 5, `next(4)` is
frame 5 while `previous(5)` is null. -/
theorem broken_track_keeps_forward_link :
    (runToBreak.bind fun w => w.next 4) = some 5 ∧
    (runToBreak.bind fun w => w.previous 5) = none ∧
    (runToBreak.bind fun w => w._frames.find 5).isSome = true := by
  with_unfolding_all decide

/-! ## The linkage of the frames in reachable states -/

theorem StdMap.map_find_foldl_modify {V α : Type} (g : V → V) (π : V → α)
    (hg : ∀ v, π (g v) = π v) (l : List Identifier) :
    ∀ (m : StdMap V) (y : Identifier),
      (StdMap.find (l.foldl (fun frames frame => StdMap.modify frames frame g) m) y).map π
        = (StdMap.find m y).map π := by
  induction l with
  | nil => intro m y; rfl
  | cons x l ih =>
    intro m y
    simp only [List.foldl_cons]
    rw [ih, StdMap.map_find_modify _ _ _ _ _ hg]

theorem linksOk_fresh (parameters_ : WorldMapParameters) :
    LinksOk (WorldMap.fresh parameters_) := by
  refine ⟨?_, ?_, ?_⟩
  · intro a fa h; simp [WorldMap.fresh, StdMap.find] at h
  · intro a fa b h; simp [WorldMap.fresh, StdMap.find] at h
  · intro c h; simp [WorldMap.fresh] at h

theorem same_links_find (frames frames' : StdMap Frame)
    (h : ∀ a, (frames'.find a).map Frame.links = (frames.find a).map Frame.links)
    (a : Identifier) (fa' : Frame) (ha : frames'.find a = some fa') :
    ∃ fa, frames.find a = some fa ∧ fa.links = fa'.links := by
  have := h a
  rw [ha] at this
  cases hf : frames.find a with
  | none => rw [hf] at this; simp at this
  | some fa =>
    rw [hf] at this
    simp only [Option.map_some', Option.some.injEq] at this
    exact ⟨fa, rfl, this.symm⟩

theorem same_links_find_back (frames frames' : StdMap Frame)
    (h : ∀ a, (frames'.find a).map Frame.links = (frames.find a).map Frame.links)
    (a : Identifier) (fa : Frame) (ha : frames.find a = some fa) :
    ∃ fa', frames'.find a = some fa' ∧ fa'.links = fa.links := by
  have := h a
  rw [ha] at this
  cases hf : frames'.find a with
  | none => rw [hf] at this; simp at this
  | some fa' =>
    rw [hf] at this
    simp only [Option.map_some', Option.some.injEq] at this
    exact ⟨fa', rfl, this⟩

/-- Writes that leave the previous, next and root pointers of all frames alone
keep the linkage. -/
theorem linksOk_of_same_links (w w' : WorldMap) (hI : LinksOk w)
    (h : ∀ a, (w'._frames.find a).map Frame.links = (w._frames.find a).map Frame.links)
    (hcount : w'.frame_instances = w.frame_instances)
    (hcurrent : w'._current_frame = w._current_frame) : LinksOk w' := by
  obtain ⟨h1, h2, h3⟩ := hI
  refine ⟨?_, ?_, ?_⟩
  · intro a fa' ha
    obtain ⟨fa, hfa, _⟩ := same_links_find _ _ h a fa' ha
    rw [hcount]
    exact h1 a fa hfa
  · intro a fa' b ha hnext
    obtain ⟨fa, hfa, hl⟩ := same_links_find _ _ h a fa' ha
    simp only [Frame.links, Prod.mk.injEq] at hl
    obtain ⟨fb, hfb, hor⟩ := h2 a fa b hfa (by rw [hl.2.1]; exact hnext)
    obtain ⟨fb', hfb', hl'⟩ := same_links_find_back _ _ h b fb hfb
    simp only [Frame.links, Prod.mk.injEq] at hl'
    refine ⟨fb', hfb', ?_⟩
    rw [hl'.1, hl'.2.2]
    exact hor
  · intro c hc
    rw [hcurrent] at hc
    obtain ⟨fc, hfc, hn⟩ := h3 c hc
    obtain ⟨fc', hfc', hl'⟩ := same_links_find_back _ _ h c fc hfc
    simp only [Frame.links, Prod.mk.injEq] at hl'
    exact ⟨fc', hfc', by rw [hl'.2.1]; exact hn⟩

theorem resetWindow_same_links (w w' : WorldMap) (drop_framepoints_ : Bool)
    (h : resetWindowForLocalMapCreation w drop_framepoints_ = some w') :
    (∀ a, (w'._frames.find a).map Frame.links = (w._frames.find a).map Frame.links) ∧
      w'.frame_instances = w.frame_instances ∧ w'._current_frame = w._current_frame := by
  unfold resetWindowForLocalMapCreation at h
  split at h
  · split at h
    · simp only [Option.some.injEq] at h
      subst h
      refine ⟨fun a => ?_, rfl, rfl⟩
      exact StdMap.map_find_foldl_modify Frame.clear Frame.links (fun _ => rfl) _ _ a
    · cases h
  · simp only [Option.some.injEq] at h
    subst h
    exact ⟨fun _ => rfl, rfl, rfl⟩

theorem construct_same_links (w w' : WorldMap) (h : LocalMap.construct w = some w') :
    (∀ a, (w'._frames.find a).map Frame.links = (w._frames.find a).map Frame.links) ∧
      w'.frame_instances = w.frame_instances ∧ w'._current_frame = w._current_frame := by
  unfold LocalMap.construct at h
  split at h
  · cases h
  · simp only [Option.some.injEq] at h
    subst h
    refine ⟨fun a => ?_, rfl, rfl⟩
    dsimp only
    refine (StdMap.map_find_modify _ _ _ _ Frame.links ?_).trans ?_
    · intro _; rfl
    · refine StdMap.map_find_foldl_modify _ Frame.links ?_ _ _ a
      intro _; rfl

theorem createLocalMap_same_links (w w' : WorldMap) (drop_framepoints_ b : Bool)
    (distance_last_to_current degrees_last_to_current : real)
    (h : createLocalMap add w drop_framepoints_ distance_last_to_current
      degrees_last_to_current = some (b, w')) :
    (∀ a, (w'._frames.find a).map Frame.links = (w._frames.find a).map Frame.links) ∧
      w'.frame_instances = w.frame_instances ∧ w'._current_frame = w._current_frame := by
  unfold createLocalMap at h
  cases hp : w._previous_frame with
  | none =>
    simp only [hp, Option.some.injEq, Prod.mk.injEq] at h
    obtain ⟨_, rfl⟩ := h
    exact ⟨fun _ => rfl, rfl, rfl⟩
  | some p =>
    simp only [hp] at h
    cases hc : w._current_frame with
    | none => simp [hc] at h
    | some current =>
      simp only [hc] at h
      split at h
      · split at h
        · cases h
        · rename_i created hcreated
          split at h
          · simp only [Option.map_eq_some', Prod.mk.injEq] at h
            obtain ⟨w'', hreset, _, rfl⟩ := h
            obtain ⟨c1, c2, c3⟩ := construct_same_links _ _ hcreated
            obtain ⟨r1, r2, r3⟩ := resetWindow_same_links _ _ _ hreset
            have hrooted : ∀ (x : WorldMap), (match created._root_local_map,
                created._current_local_map with
              | none, some identifier =>
                { created with
                  _root_local_map := some identifier
                  _local_maps := created._local_maps.modify identifier
                    fun m => { m with _root := some identifier } }
              | _, _ => created) = x →
                x._frames = created._frames ∧ x.frame_instances = created.frame_instances ∧
                  x._current_frame = created._current_frame := by
              intro x hx
              split at hx <;> subst hx <;> exact ⟨rfl, rfl, rfl⟩
            obtain ⟨q1, q2, q3⟩ := hrooted _ rfl
            refine ⟨fun a => ?_, ?_, ?_⟩
            · rw [r1 a, q1, c1 a]
            · rw [r2, q2, c2]
            · rw [r3, q3, c3]
          · cases h
      · simp only [Option.some.injEq, Prod.mk.injEq] at h
        obtain ⟨_, rfl⟩ := h
        exact ⟨fun _ => rfl, rfl, rfl⟩

theorem linksOk_createFrame (w : WorldMap) (hI : LinksOk w) : LinksOk (createFrame w).2 := by
  obtain ⟨h1, h2, h3⟩ := hI
  have hfresh : w._frames.find w.frame_instances = none := by
    cases hf : w._frames.find w.frame_instances with
    | none => rfl
    | some f => exact absurd (h1 _ f hf) (lt_irrefl _)
  unfold createFrame
  cases hc : w._current_frame with
  | none =>
    simp only
    have hfind : ∀ x, StdMap.find (StdMap.insert w._frames w.frame_instances
        { Frame.construct w._frames none none with _root := some w.frame_instances }) x
        = if x = w.frame_instances then
            some { Frame.construct w._frames none none with _root := some w.frame_instances }
          else w._frames.find x := by
      intro x
      rw [StdMap.find_insert, hfresh]
    refine ⟨?_, ?_, ?_⟩
    · intro a fa ha
      rw [hfind] at ha
      by_cases hx : a = w.frame_instances
      · rw [hx]; exact Nat.lt_succ_self _
      · simp only [hx, if_false] at ha
        exact Nat.lt_succ_of_lt (h1 a fa ha)
    · intro a fa b ha hnext
      rw [hfind] at ha
      by_cases hx : a = w.frame_instances
      · simp only [hx, if_true, Option.some.injEq] at ha
        subst ha
        simp [Frame.construct] at hnext
      · simp only [hx, if_false] at ha
        obtain ⟨fb, hfb, hor⟩ := h2 a fa b ha hnext
        have hb : ¬ b = w.frame_instances := Nat.ne_of_lt (h1 b fb hfb)
        exact ⟨fb, by rw [hfind]; simp [hb, hfb], hor⟩
    · intro c hcc
      simp only [Option.some.injEq] at hcc
      subst hcc
      exact ⟨_, (hfind _).trans (if_pos rfl), rfl⟩
  | some C =>
    simp only
    obtain ⟨fC, hfC, hnC⟩ := h3 C hc
    have hCn : C < w.frame_instances := h1 C fC hfC
    have hne : ¬ w.frame_instances = C := Nat.ne_of_gt hCn
    have hne' : ¬ C = w.frame_instances := Nat.ne_of_lt hCn
    have hfind : ∀ x, StdMap.find (StdMap.insert
        (StdMap.modify w._frames C fun f => { f with _next := some w.frame_instances })
        w.frame_instances (Frame.construct w._frames (some C) none)) x
        = if x = w.frame_instances then some (Frame.construct w._frames (some C) none)
          else if x = C then some { fC with _next := some w.frame_instances }
          else w._frames.find x := by
      intro x
      rw [StdMap.find_insert, StdMap.find_modify, StdMap.find_modify]
      by_cases hx : x = w.frame_instances
      · simp [hx, hne, hfresh]
      · by_cases hxC : x = C
        · simp [hxC, hne', hfC]
        · simp [hx, hxC]
    refine ⟨?_, ?_, ?_⟩
    · intro a fa ha
      rw [hfind] at ha
      by_cases hx : a = w.frame_instances
      · rw [hx]; exact Nat.lt_succ_self _
      · by_cases hxC : a = C
        · rw [hxC]; exact Nat.lt_succ_of_lt hCn
        · simp only [hx, hxC, if_false] at ha
          exact Nat.lt_succ_of_lt (h1 a fa ha)
    · intro a fa b ha hnext
      rw [hfind] at ha
      by_cases hx : a = w.frame_instances
      · simp only [hx, if_true, Option.some.injEq] at ha
        subst ha
        simp [Frame.construct] at hnext
      · by_cases hxC : a = C
        · rw [hxC] at ha
          simp only [hne', if_true, if_false, Option.some.injEq] at ha
          subst ha
          simp only [Option.some.injEq] at hnext
          subst hnext
          refine ⟨Frame.construct w._frames (some C) none, (hfind _).trans (if_pos rfl),
            Or.inl ?_⟩
          simp [Frame.construct, hxC]
        · simp only [hx, hxC, if_false] at ha
          obtain ⟨fb, hfb, hor⟩ := h2 a fa b ha hnext
          have hb : ¬ b = w.frame_instances := Nat.ne_of_lt (h1 b fb hfb)
          by_cases hbC : b = C
          · have hfb' : fb = fC := by
              rw [hbC, hfC] at hfb
              exact (Option.some.inj hfb).symm
            refine ⟨{ fC with _next := some w.frame_instances },
              by rw [hfind]; simp [hbC, hne'], ?_⟩
            rw [hfb'] at hor
            exact hor
          · exact ⟨fb, by rw [hfind]; simp [hb, hbC, hfb], hor⟩
    · intro c hcc
      simp only [Option.some.injEq] at hcc
      subst hcc
      exact ⟨_, (hfind _).trans (if_pos rfl), rfl⟩

theorem linksOk_breakTrack (w w' : WorldMap) (frame_ : Identifier) (hI : LinksOk w)
    (h : breakTrack w frame_ = some w') : LinksOk w' := by
  obtain ⟨h1, h2, h3⟩ := hI
  unfold breakTrack at h
  cases hf : w._frames.find frame_ with
  | none => simp [hf] at h
  | some frame =>
    simp only [hf, resetWindowForLocalMapCreation, Bool.false_eq_true, if_false,
      Option.some.injEq] at h
    subst h
    have hfind : ∀ x, StdMap.find (StdMap.modify w._frames frame_ (Frame.breakTrack frame_)) x
        = if x = frame_ then some (Frame.breakTrack frame_ frame) else w._frames.find x := by
      intro x
      rw [StdMap.find_modify, hf]
      rfl
    refine ⟨?_, ?_, ?_⟩
    · intro a fa ha
      simp only [hfind] at ha
      by_cases hx : a = frame_
      · rw [hx]; exact h1 frame_ frame hf
      · simp only [hx, if_false] at ha
        exact h1 a fa ha
    · intro a fa b ha hnext
      simp only [hfind] at ha ⊢
      have hold : ∃ fa0, w._frames.find a = some fa0 ∧ fa0._next = some b := by
        by_cases hx : a = frame_
        · simp only [hx, if_true, Option.some.injEq] at ha
          subst ha
          exact ⟨frame, by rw [hx]; exact hf, hnext⟩
        · simp only [hx, if_false] at ha
          exact ⟨fa, ha, hnext⟩
      obtain ⟨fa0, hfa0, hn0⟩ := hold
      obtain ⟨fb, hfb, hor⟩ := h2 a fa0 b hfa0 hn0
      by_cases hb : b = frame_
      · refine ⟨Frame.breakTrack frame_ frame, by simp [hb], Or.inr ?_⟩
        simp [Frame.breakTrack, hb]
      · exact ⟨fb, by simp [hb, hfb], hor⟩
    · intro c hcc
      obtain ⟨fc, hfc, hn⟩ := h3 c hcc
      simp only [hfind]
      by_cases hx : c = frame_
      · have hfc' : fc = frame := by
          rw [hx, hf] at hfc
          exact (Option.some.inj hfc).symm
        refine ⟨Frame.breakTrack frame_ frame, by simp [hx], ?_⟩
        rw [hfc'] at hn
        exact hn
      · exact ⟨fc, by simp [hx, hfc], hn⟩

/-- The linkage holds in every state reached without stitching. -/
theorem reachableWithoutStitch_linksOk (parameters_ : WorldMapParameters) (w : WorldMap)
    (hr : ReachableWithoutStitch add parameters_ w) : LinksOk w := by
  induction hr with
  | fresh => exact linksOk_fresh parameters_
  | createFrame w _ ih => exact linksOk_createFrame w ih
  | createLocalMap w w' drop_framepoints_ b d r _ h ih =>
    obtain ⟨c1, c2, c3⟩ := createLocalMap_same_links w w' drop_framepoints_ b d r h
    exact linksOk_of_same_links w w' ih c1 c2 c3
  | breakTrack w w' frame_ _ _ h ih => exact linksOk_breakTrack w w' frame_ ih h
  | addLoopClosure w w' query_ reference_ current_frame T cs info _ hcur hroots h ih =>
    have hs : recordClosure w query_ reference_ T cs info = some w' ∧
        w'._frames = w._frames := by
      obtain ⟨c, hc, hcase⟩ := addLoopClosure_cases w w' query_ reference_ T cs info h
      rw [hcur] at hc
      cases hc
      rcases hcase with ⟨hne, _⟩ | ⟨_, hrec⟩
      · exact absurd hroots hne
      · exact ⟨hrec, (recordClosure_spec _ _ _ _ _ _ _ hrec).2.2.2.2.2.1⟩
    refine linksOk_of_same_links w w' ih (fun a => by rw [hs.2]) ?_ ?_
    · have := hs.1
      unfold recordClosure at this
      split at this
      · cases this
      · simp only [Option.some.injEq] at this
        subst this
        rfl
    · have := hs.1
      unfold recordClosure at this
      split at this
      · cases this
      · simp only [Option.some.injEq] at this
        subst this
        rfl

theorem reachableWithoutStitch_trackFrame (parameters_ : WorldMapParameters) (w w' : WorldMap)
    (hr : ReachableWithoutStitch exactSum parameters_ w) (h : trackFrame w = some w') :
    ReachableWithoutStitch exactSum parameters_ w' := by
  unfold trackFrame at h
  obtain ⟨⟨b, w''⟩, hc, rfl⟩ := Option.map_eq_some'.1 h
  exact ReachableWithoutStitch.createLocalMap _ _ false b 1 0
    (ReachableWithoutStitch.createFrame w hr) hc

theorem reachableWithoutStitch_trackFrames (parameters_ : WorldMapParameters) (n : Nat) :
    ∀ (w w' : WorldMap), ReachableWithoutStitch exactSum parameters_ w → trackFrames n w = some w' →
      ReachableWithoutStitch exactSum parameters_ w' := by
  induction n with
  | zero =>
    intro w w' hr h
    simp only [trackFrames, Option.some.injEq] at h
    rw [← h]
    exact hr
  | succ n ih =>
    intro w w' hr h
    simp only [trackFrames] at h
    obtain ⟨w1, h1, h2⟩ := Option.bind_eq_some.1 h
    exact ih w1 w' (reachableWithoutStitch_trackFrame parameters_ w w1 hr h1) h2

theorem worldAfterBreak_reachable : ReachableWithoutStitch exactSum runParameters worldAfterBreak :=
  ReachableWithoutStitch.breakTrack (createFrame worldAtFrameFour).2 worldAfterBreak 5
    (ReachableWithoutStitch.createFrame worldAtFrameFour
      (reachableWithoutStitch_trackFrames runParameters 5 (WorldMap.fresh runParameters)
        worldAtFrameFour ReachableWithoutStitch.fresh (by with_unfolding_all rfl)))
    (by with_unfolding_all rfl) (by with_unfolding_all rfl)

/-- C13, amended: in every state that a freshly constructed map reaches by
`createFrame`, `createLocalMap`, `breakTrack` on the current frame and
`addLoopClosure` calls that do not stitch, `next(A) = B` implies that frame `B`
exists and that `previous(B) = A`, or that `previous(B)` is null and `B` is its
own root, as after a track break at `B`. -/
theorem next_mirrored_unless_track_broken (parameters_ : WorldMapParameters) (w : WorldMap)
    (hr : ReachableWithoutStitch add parameters_ w) (A B : Identifier)
    (h : w.next A = some B) :
    (w._frames.find B).isSome = true ∧
      (w.previous B = some A ∨ (w.previous B = none ∧ w.root B = some B)) := by
  obtain ⟨_, h2, _⟩ := reachableWithoutStitch_linksOk parameters_ w hr
  unfold WorldMap.next at h
  obtain ⟨fa, hfa, hn⟩ := Option.bind_eq_some.1 h
  obtain ⟨fb, hfb, hor⟩ := h2 A fa B hfa hn
  simp only [WorldMap.previous, WorldMap.root, hfb, Option.isSome_some, Option.bind_some,
    true_and]
  exact hor

/-- Witness for the amended C13: after the break at frame 5, `next(4)` is frame 5,
whose previous pointer is null and which is its own root; `next(3)` is frame 4
and `previous(4)` is frame 3. -/
theorem next_mirrored_unless_track_broken_witness :
    worldAfterBreak.next 4 = some 5 ∧
    ((worldAfterBreak._frames.find 5).isSome = true ∧
      (worldAfterBreak.previous 5 = some 4 ∨
        (worldAfterBreak.previous 5 = none ∧ worldAfterBreak.root 5 = some 5))) ∧
    worldAfterBreak.previous 5 = none :=
  ⟨by with_unfolding_all rfl,
    next_mirrored_unless_track_broken runParameters worldAfterBreak worldAfterBreak_reachable
      4 5 (by with_unfolding_all rfl),
    by with_unfolding_all rfl⟩

/-- Whenever `setTrack` completes, the previous pointer of the frame is the frame
itself (line 282). -/
theorem setTrack_previous_is_the_frame (w w' : WorldMap) (frame_ : Identifier)
    (h : setTrack w frame_ = some w') : w'.previous frame_ = some frame_ := by
  cases hf : w._frames.find frame_ with
  | none => simp [setTrack, hf] at h
  | some frame =>
    obtain ⟨local_map, last_frame, last_local_map, root_frame, root_local_map, rfl⟩ :=
      setTrack_eq_stitch w w' frame_ h
    simp only [WorldMap.previous, stitch, StdMap.find_modify, hf, if_true]
    by_cases h1 : frame_ = last_frame
    · subst h1; simp
    · simp [h1]

/-! ## The cases of `createLocalMap` -/

/-- The definition of `createLocalMap` with its two intermediate maps named. -/
theorem createLocalMap_eq (w : WorldMap) (drop_framepoints_ : Bool)
    (distance_last_to_current degrees_last_to_current : real) :
    createLocalMap add w drop_framepoints_ distance_last_to_current degrees_last_to_current
      = match w._previous_frame with
        | none => some (false, w)
        | some _ =>
          match w._current_frame with
          | none => none
          | some current =>
            if localMapDue (w.moved add distance_last_to_current degrees_last_to_current) then
              match LocalMap.construct
                  (w.moved add distance_last_to_current degrees_last_to_current) with
              | none => none
              | some created =>
                if (created._frames.find current).map (fun f => f._is_keyframe) = some true ∧
                    (created._frames.find current).bind (fun f => f._local_map)
                      = created._current_local_map then
                  (resetWindowForLocalMapCreation created.rooted drop_framepoints_).map
                    fun w' => (true, w')
                else none
            else some (false, w.moved add distance_last_to_current degrees_last_to_current) :=
  rfl

/-- The three ways in which `createLocalMap` completes: without a previous
frame; with the accumulators updated and no local map due; with a local map
due, constructed, rooted and the window reset. -/
theorem createLocalMap_cases (w w' : WorldMap) (drop_framepoints_ b : Bool)
    (distance_last_to_current degrees_last_to_current : real)
    (h : createLocalMap add w drop_framepoints_ distance_last_to_current
      degrees_last_to_current = some (b, w')) :
    (w._previous_frame = none ∧ b = false ∧ w' = w) ∨
    (∃ current, w._current_frame = some current ∧ w._previous_frame ≠ none ∧
      ((¬ localMapDue (w.moved add distance_last_to_current degrees_last_to_current) ∧
          b = false ∧ w' = w.moved add distance_last_to_current degrees_last_to_current) ∨
        (localMapDue (w.moved add distance_last_to_current degrees_last_to_current) ∧ b = true ∧
          ∃ created,
            LocalMap.construct (w.moved add distance_last_to_current degrees_last_to_current)
              = some created ∧
            (created._frames.find current).map (fun f => f._is_keyframe) = some true ∧
            (created._frames.find current).bind (fun f => f._local_map)
              = created._current_local_map ∧
            resetWindowForLocalMapCreation created.rooted drop_framepoints_ = some w'))) := by
  rw [createLocalMap_eq] at h
  cases hp : w._previous_frame with
  | none =>
    rw [hp] at h
    simp only [Option.some.injEq, Prod.mk.injEq] at h
    obtain ⟨rfl, rfl⟩ := h
    exact Or.inl ⟨rfl, rfl, rfl⟩
  | some p =>
    rw [hp] at h
    cases hc : w._current_frame with
    | none => rw [hc] at h; cases h
    | some current =>
      rw [hc] at h
      refine Or.inr ⟨current, rfl, by simp, ?_⟩
      dsimp only at h
      split at h
      · rename_i hdue
        split at h
        · cases h
        · rename_i created hcreated
          split at h
          · rename_i hassert
            simp only [Option.map_eq_some', Prod.mk.injEq] at h
            obtain ⟨w'', hreset, rfl, rfl⟩ := h
            exact Or.inr ⟨hdue, rfl, created, hcreated, hassert.1, hassert.2, hreset⟩
          · cases h
      · rename_i hdue
        simp only [Option.some.injEq, Prod.mk.injEq] at h
        obtain ⟨rfl, rfl⟩ := h
        exact Or.inl ⟨hdue, rfl, rfl⟩

/-- C21: when the window holds exactly `minimum_number_of_frames_for_local_map`
frames, the rotation accumulated with the latest motion is zero and the rotation
threshold is not negative, a completed `createLocalMap` returns false and leaves
the local maps as they are: none of the three clauses holds, so no local map is
created (whatever the accumulated translation and the number of local maps);
and the call completes whenever there is a current frame. -/
theorem createLocalMap_exact_window_creates_nothing (w : WorldMap) (drop_framepoints_ : Bool)
    (distance_last_to_current degrees_last_to_current : real)
    (hwindow : w._frame_queue_for_local_map.length
      = w._parameters.minimum_number_of_frames_for_local_map)
    (hrotation : add w._degrees_rotated_window degrees_last_to_current = 0)
    (hthreshold : 0 ≤ w._parameters.minimum_degrees_rotated_for_local_map) :
    (∀ b w', createLocalMap add w drop_framepoints_ distance_last_to_current
        degrees_last_to_current = some (b, w') →
      b = false ∧ w'._local_maps = w._local_maps) ∧
    (∀ current, w._current_frame = some current →
      ∃ w', createLocalMap add w drop_framepoints_ distance_last_to_current
        degrees_last_to_current = some (false, w')) := by
  have hnot : ¬ localMapDue (w.moved add distance_last_to_current degrees_last_to_current) := by
    simp only [localMapDue, WorldMap.moved]
    rw [hrotation, hwindow]
    intro hdue
    rcases hdue with hd | hd | hd
    · exact absurd hd (not_lt.2 hthreshold)
    · exact absurd hd.2 (lt_irrefl _)
    · exact absurd hd.1 (lt_irrefl _)
  constructor
  · intro b w' h
    rcases createLocalMap_cases _ _ _ _ _ _ h with ⟨_, rfl, rfl⟩ | ⟨current, _, _, hcase⟩
    · exact ⟨rfl, rfl⟩
    · rcases hcase with ⟨_, rfl, rfl⟩ | ⟨hdue, _⟩
      · exact ⟨rfl, rfl⟩
      · exact absurd hdue hnot
  · intro current hc
    rw [createLocalMap_eq]
    cases hp : w._previous_frame with
    | none => exact ⟨w, rfl⟩
    | some p =>
      rw [hc]
      dsimp only
      rw [if_neg hnot]
      exact ⟨_, rfl⟩

/-! ## The fields written by the steps of `createLocalMap` -/

theorem StdMap.isSome_find_modify {V : Type} (m : StdMap V) (x y : Identifier) (g : V → V) :
    (StdMap.find (StdMap.modify m x g) y).isSome = (StdMap.find m y).isSome := by
  rw [StdMap.find_modify]
  by_cases h : y = x
  · subst h
    cases StdMap.find m y <;> simp
  · simp [h]

theorem StdMap.keys_modify {V : Type} (m : StdMap V) (x : Identifier) (g : V → V) :
    (StdMap.modify m x g).map Prod.fst = m.map Prod.fst := by
  simp [StdMap.modify, List.map_map, Function.comp_def]

theorem StdMap.modify_append {V : Type} (m n : StdMap V) (x : Identifier) (g : V → V) :
    StdMap.modify (m ++ n) x g = StdMap.modify m x g ++ StdMap.modify n x g := by
  simp [StdMap.modify]

theorem StdMap.keys_bound {V : Type} (m n : StdMap V) (bound : Nat)
    (hkeys : n.map Prod.fst = m.map Prod.fst) (h : ∀ p ∈ m, p.1 < bound) :
    ∀ p ∈ n, p.1 < bound := by
  intro p hp
  have hmem : p.1 ∈ n.map Prod.fst := List.mem_map_of_mem _ hp
  rw [hkeys] at hmem
  obtain ⟨q, hq, hqp⟩ := List.mem_map.1 hmem
  rw [← hqp]
  exact h q hq

/-- The fields of the map after `resetWindowForLocalMapCreation`. -/
theorem resetWindow_fields (w w' : WorldMap) (drop_framepoints_ : Bool)
    (h : resetWindowForLocalMapCreation w drop_framepoints_ = some w') :
    w'._frame_queue_for_local_map = [] ∧ w'._distance_traveled_window = 0 ∧
      w'._degrees_rotated_window = 0 ∧ w'._local_maps = w._local_maps ∧
      w'._current_local_map = w._current_local_map ∧
      w'._root_local_map = w._root_local_map ∧
      w'.local_map_instances = w.local_map_instances ∧
      w'._current_frame = w._current_frame ∧ w'.frame_instances = w.frame_instances ∧
      (drop_framepoints_ = false → w'._frames = w._frames) ∧
      (drop_framepoints_ = true → 2 ≤ w._frame_queue_for_local_map.length ∧
        w'._frames = w._frame_queue_for_local_map.dropLast.dropLast.foldl
          (fun frames frame => frames.modify frame Frame.clear) w._frames) := by
  unfold resetWindowForLocalMapCreation at h
  split at h
  · rename_i hd
    split at h
    · rename_i hlen
      simp only [Option.some.injEq] at h
      subst h
      exact ⟨rfl, rfl, rfl, rfl, rfl, rfl, rfl, rfl, rfl,
        fun hf => absurd (hd.symm.trans hf) (by decide), fun _ => ⟨hlen, rfl⟩⟩
    · cases h
  · rename_i hd
    simp only [Option.some.injEq] at h
    subst h
    exact ⟨rfl, rfl, rfl, rfl, rfl, rfl, rfl, rfl, rfl, fun _ => rfl,
      fun ht => absurd ht hd⟩

/-- The map after `LocalMap.construct`, field by field. -/
theorem construct_fields (w created : WorldMap) (h : LocalMap.construct w = some created) :
    ∃ anchor linked,
      w._frame_queue_for_local_map.getLast? = some anchor ∧
      linked.map Prod.fst = w._local_maps.map Prod.fst ∧
      created._local_maps = linked ++ [(w.local_map_instances,
        { _root := w._root_local_map
          _previous := w._current_local_map
          _next := none
          _keyframe := some anchor
          _frames := w._frame_queue_for_local_map })] ∧
      created._current_local_map = some w.local_map_instances ∧
      created._root_local_map = w._root_local_map ∧
      created.local_map_instances = w.local_map_instances + 1 ∧
      created._frame_queue_for_local_map = w._frame_queue_for_local_map ∧
      created._current_frame = w._current_frame := by
  unfold LocalMap.construct at h
  split at h
  · cases h
  · rename_i anchor hanchor
    simp only [Option.some.injEq] at h
    subst h
    refine ⟨anchor, _, hanchor, ?_, rfl, rfl, rfl, rfl, rfl, rfl⟩
    split
    · exact StdMap.keys_modify _ _ _
    · rfl

/-- The map after the root local map has been set, field by field. -/
theorem rooted_fields (created : WorldMap) :
    created.rooted._frames = created._frames ∧
      created.rooted._frame_queue_for_local_map = created._frame_queue_for_local_map ∧
      created.rooted._current_local_map = created._current_local_map ∧
      created.rooted.local_map_instances = created.local_map_instances ∧
      created.rooted._current_frame = created._current_frame ∧
      (∀ root, created._root_local_map = some root →
        created.rooted._root_local_map = some root ∧
        created.rooted._local_maps = created._local_maps) ∧
      (∀ identifier, created._root_local_map = none →
        created._current_local_map = some identifier →
        created.rooted._root_local_map = some identifier ∧
        created.rooted._local_maps = created._local_maps.modify identifier
          fun m => { m with _root := some identifier }) := by
  unfold WorldMap.rooted
  split
  · rename_i identifier hroot hcurrent
    refine ⟨rfl, rfl, rfl, rfl, rfl, ?_, ?_⟩
    · intro root hr
      rw [hroot] at hr
      cases hr
    · intro identifier' _ hc
      rw [hcurrent] at hc
      cases hc
      exact ⟨rfl, rfl⟩
  · rename_i hcase
    refine ⟨rfl, rfl, rfl, rfl, rfl, ?_, ?_⟩
    · intro root hr
      exact ⟨hr, rfl⟩
    · intro identifier hr hc
      exact absurd hc (fun hc => hcase identifier hr hc)

/-- What a call of `createLocalMap` that returns true has done. -/
theorem createLocalMap_created (w w' : WorldMap) (drop_framepoints_ : Bool)
    (distance_last_to_current degrees_last_to_current : real)
    (h : createLocalMap add w drop_framepoints_ distance_last_to_current
      degrees_last_to_current = some (true, w')) :
    ∃ (current anchor : Identifier) (local_map : LocalMap) (earlier : StdMap LocalMap),
      w._current_frame = some current ∧
      w._frame_queue_for_local_map.getLast? = some anchor ∧
      w'._local_maps = earlier ++ [(w.local_map_instances, local_map)] ∧
      earlier.map Prod.fst = w._local_maps.map Prod.fst ∧
      w'._current_local_map = some w.local_map_instances ∧
      w'.local_map_instances = w.local_map_instances + 1 ∧
      local_map._keyframe = some anchor ∧
      local_map._frames = w._frame_queue_for_local_map ∧
      (w'._frames.find current).map (fun f => f._is_keyframe) = some true ∧
      (w'._frames.find current).bind (fun f => f._local_map) = some w.local_map_instances ∧
      w'._distance_traveled_window = 0 ∧ w'._degrees_rotated_window = 0 ∧
      w'._frame_queue_for_local_map = [] ∧
      (w._root_local_map = none →
        w'._root_local_map = some w.local_map_instances ∧
        local_map._root = some w.local_map_instances) ∧
      (∀ root, w._root_local_map = some root →
        w'._root_local_map = some root ∧ local_map._root = some root) := by
  rcases createLocalMap_cases _ _ _ _ _ _ h with ⟨_, hb, _⟩ | ⟨current, hc, _, hcase⟩
  · cases hb
  rcases hcase with ⟨_, hb, _⟩ | ⟨_, _, created, hcreated, hkey, hmap, hreset⟩
  · cases hb
  obtain ⟨anchor, linked, hanchor, hkeys, hlm, hcur, hroot, hinst, hqueue, _⟩ :=
    construct_fields _ _ hcreated
  obtain ⟨q1, q2, q3, q4, q5, q6, q7, q8, _, q10, q11⟩ := resetWindow_fields _ _ _ hreset
  obtain ⟨r1, r2, r3, r4, _, r6, r7⟩ := rooted_fields created
  have hframes : ∀ {α : Type} (π : Frame → α), (∀ f, π (Frame.clear f) = π f) →
      (w'._frames.find current).map π = (created._frames.find current).map π := by
    intro α π hπ
    cases hd : drop_framepoints_ with
    | false => rw [q10 hd, r1]
    | true =>
      rw [(q11 hd).2, StdMap.map_find_foldl_modify Frame.clear π hπ, r1]
  have hkey' : (w'._frames.find current).map (fun f => f._is_keyframe) = some true := by
    rw [hframes (fun f => f._is_keyframe) (fun _ => rfl)]
    exact hkey
  have hmap' : (w'._frames.find current).bind (fun f => f._local_map)
      = some w.local_map_instances := by
    have h1 := hframes (fun f => f._local_map) (fun _ => rfl)
    have h2 : ∀ o : Option Frame, o.bind (fun f => f._local_map)
        = (o.map (fun f => f._local_map)).join := by
      intro o; cases o <;> rfl
    rw [h2, h1, ← h2, hmap, hcur]
    rfl
  cases hr : w._root_local_map with
  | some root =>
    have hr' : created._root_local_map = some root := by rw [hroot]; exact hr
    obtain ⟨s1, s2⟩ := r6 root hr'
    refine ⟨current, anchor,
      { _root := w._root_local_map
        _previous := w._current_local_map
        _next := none
        _keyframe := some anchor
        _frames := w._frame_queue_for_local_map },
      linked, hc, hanchor, ?_, hkeys, ?_, ?_, rfl, rfl, hkey', hmap',
      q2, q3, q1, ?_, ?_⟩
    · rw [q4, s2, hlm]; rfl
    · rw [q5, r3, hcur]; rfl
    · rw [q7, r4, hinst]; rfl
    · intro hn; cases hn
    · intro root' hroot'
      cases hroot'
      exact ⟨by rw [q6, s1], hr⟩
  | none =>
    have hr' : created._root_local_map = none := by rw [hroot]; exact hr
    obtain ⟨s1, s2⟩ := r7 _ hr' hcur
    refine ⟨current, anchor,
      { _root := some w.local_map_instances
        _previous := w._current_local_map
        _next := none
        _keyframe := some anchor
        _frames := w._frame_queue_for_local_map },
      StdMap.modify linked w.local_map_instances
        (fun m => { m with _root := some w.local_map_instances }),
      hc, hanchor, ?_, ?_, ?_, ?_, rfl, rfl, hkey', hmap', q2, q3, q1, ?_, ?_⟩
    · rw [q4, s2, hlm, StdMap.modify_append]
      simp [StdMap.modify, WorldMap.moved]
    · rw [StdMap.keys_modify]; exact hkeys
    · rw [q5, r3, hcur]; rfl
    · rw [q7, r4, hinst]; rfl
    · intro _
      exact ⟨by rw [q6, s1]; rfl, rfl⟩
    · intro root' hroot'
      cases hroot'

/-! ## The bookkeeping of the identifiers in reachable states -/

/-- Operations that write through pointers only keep the bookkeeping. -/
theorem bookkeepingOk_of_same_keys (w w' : WorldMap) (hI : BookkeepingOk w)
    (hframes : ∀ a, (w'._frames.find a).isSome = (w._frames.find a).isSome)
    (hmaps : w'._local_maps.map Prod.fst = w._local_maps.map Prod.fst)
    (hqueue : w'._frame_queue_for_local_map = w._frame_queue_for_local_map ∨
      w'._frame_queue_for_local_map = [])
    (hcurrent : w'._current_frame = w._current_frame)
    (hcount : w'.frame_instances = w.frame_instances)
    (hmapcount : w'.local_map_instances = w.local_map_instances) : BookkeepingOk w' := by
  obtain ⟨h1, h2, h3, ⟨h4, h5⟩, h6⟩ := hI
  refine ⟨?_, ?_, ?_, ⟨?_, ?_⟩, ?_⟩
  · intro a ha
    rw [hframes] at ha
    rw [hcount]
    exact h1 a ha
  · intro c hc
    rw [hcurrent] at hc
    rw [hframes]
    exact h2 c hc
  · intro x hx
    rcases hqueue with hq | hq
    · rw [hq] at hx
      rw [hcurrent]
      exact h3 x hx
    · rw [hq] at hx
      cases hx
  · rcases hqueue with hq | hq
    · rw [hq]; exact h4
    · rw [hq]; exact List.nodup_nil
  · intro x hx
    rcases hqueue with hq | hq
    · rw [hq] at hx
      rw [hcount]
      exact h5 x hx
    · rw [hq] at hx
      cases hx
  · rw [hmapcount]
    exact StdMap.keys_bound _ _ _ hmaps h6

theorem bookkeepingOk_fresh (parameters_ : WorldMapParameters) :
    BookkeepingOk (WorldMap.fresh parameters_) := by
  refine ⟨?_, ?_, ?_, ⟨?_, ?_⟩, ?_⟩
  · intro a ha
    simp [WorldMap.fresh, StdMap.find] at ha
  · intro c hc
    simp [WorldMap.fresh] at hc
  · intro x hx
    simp [WorldMap.fresh] at hx
  · exact List.nodup_nil
  · intro x hx
    simp [WorldMap.fresh] at hx
  · intro p hp
    simp [WorldMap.fresh] at hp

/-- The fields of the map after `createFrame`. -/
theorem createFrame_fields (w : WorldMap) :
    (createFrame w).1 = w.frame_instances ∧
      (createFrame w).2._current_frame = some w.frame_instances ∧
      (createFrame w).2._previous_frame = w._current_frame ∧
      (createFrame w).2._frame_queue_for_local_map
        = w._frame_queue_for_local_map ++ [w.frame_instances] ∧
      (createFrame w).2.frame_instances = w.frame_instances + 1 ∧
      (createFrame w).2._local_maps = w._local_maps ∧
      (createFrame w).2.local_map_instances = w.local_map_instances ∧
      (createFrame w).2._parameters = w._parameters ∧
      (createFrame w).2._degrees_rotated_window = w._degrees_rotated_window ∧
      (createFrame w).2._distance_traveled_window = w._distance_traveled_window ∧
      (createFrame w).2._current_local_map = w._current_local_map ∧
      (createFrame w).2._root_local_map = w._root_local_map := by
  unfold createFrame
  cases w._current_frame <;> exact ⟨rfl, rfl, rfl, rfl, rfl, rfl, rfl, rfl, rfl, rfl, rfl, rfl⟩

/-- The frame table after `createFrame`, provided the identifier is new. -/
theorem createFrame_find (w : WorldMap) (hfresh : w._frames.find w.frame_instances = none)
    (a : Identifier) :
    (createFrame w).2._frames.find a
      = if a = w.frame_instances then
          some (match w._current_frame with
            | some previous => Frame.construct w._frames (some previous) none
            | none =>
              { Frame.construct w._frames none none with _root := some w.frame_instances })
        else if some a = w._current_frame then
          (w._frames.find a).map fun f => { f with _next := some w.frame_instances }
        else w._frames.find a := by
  unfold createFrame
  cases hc : w._current_frame with
  | none =>
    simp only
    rw [StdMap.find_insert, hfresh]
    by_cases ha : a = w.frame_instances
    · simp [ha]
    · simp [ha]
  | some C =>
    simp only
    have hCfresh : StdMap.find (StdMap.modify w._frames C
        fun f => { f with _next := some w.frame_instances }) w.frame_instances = none := by
      have := StdMap.isSome_find_modify w._frames C w.frame_instances
        fun f => { f with _next := some w.frame_instances }
      rw [hfresh] at this
      cases hx : StdMap.find (StdMap.modify w._frames C
        fun f => { f with _next := some w.frame_instances }) w.frame_instances with
      | none => rfl
      | some v => rw [hx] at this; cases this
    rw [StdMap.find_insert, hCfresh, StdMap.find_modify]
    by_cases ha : a = w.frame_instances
    · simp [ha]
    · by_cases haC : a = C
      · subst haC
        simp [ha]
      · have : ¬ some a = some C := fun hh => haC (Option.some.inj hh)
        simp [ha, haC]

theorem bookkeepingOk_createFrame (w : WorldMap) (hI : BookkeepingOk w) :
    BookkeepingOk (createFrame w).2 := by
  obtain ⟨h1, h2, h3, ⟨h4, h5⟩, h6⟩ := hI
  have hfresh : w._frames.find w.frame_instances = none := by
    cases hf : w._frames.find w.frame_instances with
    | none => rfl
    | some f => exact absurd (h1 _ (by rw [hf]; rfl)) (lt_irrefl _)
  obtain ⟨_, f2, _, f4, f5, f6, f7, _⟩ := createFrame_fields w
  have hsome : ∀ a, ((createFrame w).2._frames.find a).isSome = true →
      a = w.frame_instances ∨ (w._frames.find a).isSome = true := by
    intro a ha
    rw [createFrame_find w hfresh] at ha
    by_cases hx : a = w.frame_instances
    · exact Or.inl hx
    · right
      simp only [hx, if_false] at ha
      split at ha
      · simpa using ha
      · exact ha
  refine ⟨?_, ?_, ?_, ⟨?_, ?_⟩, ?_⟩
  · intro a ha
    rw [f5]
    rcases hsome a ha with hx | hx
    · rw [hx]; exact Nat.lt_succ_self _
    · exact Nat.lt_succ_of_lt (h1 a hx)
  · intro c hc
    rw [f2] at hc
    cases hc
    rw [createFrame_find w hfresh, if_pos rfl]
    rfl
  · intro x hx
    rw [f4, List.getLast?_append] at hx
    simp at hx
    rw [f2, hx]
  · rw [f4]
    refine List.Nodup.append h4 (List.nodup_singleton _) ?_
    intro x hx hx'
    rw [List.mem_singleton] at hx'
    exact absurd (h5 x hx) (by rw [hx']; exact lt_irrefl _)
  · intro x hx
    rw [f4, List.mem_append, List.mem_singleton] at hx
    rw [f5]
    rcases hx with hx | hx
    · exact Nat.lt_succ_of_lt (h5 x hx)
    · rw [hx]; exact Nat.lt_succ_self _
  · rw [f6, f7]
    exact h6

theorem isSome_of_same_links (frames frames' : StdMap Frame)
    (h : ∀ a, (frames'.find a).map Frame.links = (frames.find a).map Frame.links)
    (a : Identifier) : (frames'.find a).isSome = (frames.find a).isSome := by
  have := h a
  cases h1 : frames'.find a <;> cases h2 : frames.find a <;> simp [h1, h2] at this ⊢

theorem bookkeepingOk_createLocalMap (w w' : WorldMap) (drop_framepoints_ b : Bool)
    (distance_last_to_current degrees_last_to_current : real) (hI : BookkeepingOk w)
    (h : createLocalMap add w drop_framepoints_ distance_last_to_current
      degrees_last_to_current = some (b, w')) : BookkeepingOk w' := by
  obtain ⟨c1, c2, c3⟩ := createLocalMap_same_links w w' drop_framepoints_ b _ _ h
  have hsome := isSome_of_same_links _ _ c1
  cases b with
  | false =>
    rcases createLocalMap_cases _ _ _ _ _ _ h with ⟨_, _, rfl⟩ | ⟨current, _, _, hcase⟩
    · exact hI
    · rcases hcase with ⟨_, _, rfl⟩ | ⟨_, hb, _⟩
      · exact bookkeepingOk_of_same_keys w _ hI (fun _ => rfl) rfl (Or.inl rfl) rfl rfl rfl
      · cases hb
  | true =>
    obtain ⟨current, anchor, local_map, earlier, _, _, hmaps, hkeys, _, hcount, _, _, _, _, _,
      _, hqueue, _⟩ := createLocalMap_created w w' drop_framepoints_ _ _ h
    obtain ⟨h1, h2, h3, ⟨h4, h5⟩, h6⟩ := hI
    refine ⟨?_, ?_, ?_, ⟨?_, ?_⟩, ?_⟩
    · intro a ha
      rw [hsome] at ha
      rw [c2]
      exact h1 a ha
    · intro c hc
      rw [c3] at hc
      rw [hsome]
      exact h2 c hc
    · intro x hx
      rw [hqueue] at hx
      cases hx
    · rw [hqueue]; exact List.nodup_nil
    · intro x hx
      rw [hqueue] at hx
      cases hx
    · intro p hp
      rw [hmaps, List.mem_append, List.mem_singleton] at hp
      rw [hcount]
      rcases hp with hp | hp
      · exact Nat.lt_succ_of_lt (StdMap.keys_bound _ _ _ hkeys h6 p hp)
      · rw [hp]; exact Nat.lt_succ_self _

theorem bookkeepingOk_breakTrack (w w' : WorldMap) (frame_ : Identifier)
    (hI : BookkeepingOk w) (h : breakTrack w frame_ = some w') : BookkeepingOk w' := by
  unfold breakTrack at h
  cases hf : w._frames.find frame_ with
  | none => simp [hf] at h
  | some frame =>
    simp only [hf, resetWindowForLocalMapCreation, Bool.false_eq_true, if_false,
      Option.some.injEq] at h
    subst h
    refine bookkeepingOk_of_same_keys w _ hI ?_ rfl (Or.inr rfl) rfl rfl rfl
    intro a
    dsimp only
    exact StdMap.isSome_find_modify _ _ _ _

theorem bookkeepingOk_recordClosure (w w' : WorldMap) (query_ reference_ : Identifier)
    (query_to_reference_ : TransformMatrix3D)
    (landmark_correspondences_ : List Correspondence) (information_ : real)
    (hI : BookkeepingOk w)
    (h : recordClosure w query_ reference_ query_to_reference_ landmark_correspondences_
      information_ = some w') : BookkeepingOk w' := by
  unfold recordClosure at h
  split at h
  · cases h
  · simp only [Option.some.injEq] at h
    subst h
    refine bookkeepingOk_of_same_keys w _ hI (fun _ => rfl) ?_ (Or.inl rfl) rfl rfl rfl
    dsimp only
    exact StdMap.keys_modify _ _ _

theorem bookkeepingOk_setTrack (w w' : WorldMap) (frame_ : Identifier)
    (hI : BookkeepingOk w) (h : setTrack w frame_ = some w') : BookkeepingOk w' := by
  obtain ⟨local_map, last_frame, last_local_map, root_frame, root_local_map, rfl⟩ :=
    setTrack_eq_stitch w w' frame_ h
  refine bookkeepingOk_of_same_keys w _ hI ?_ ?_ (Or.inl rfl) rfl rfl rfl
  · intro a
    simp only [stitch, StdMap.isSome_find_modify]
  · simp only [stitch, StdMap.keys_modify]

/-- The bookkeeping of the identifiers holds in every reachable state. -/
theorem reachable_bookkeepingOk (parameters_ : WorldMapParameters) (w : WorldMap)
    (hr : Reachable add parameters_ w) : BookkeepingOk w := by
  induction hr with
  | fresh => exact bookkeepingOk_fresh parameters_
  | createFrame w _ ih => exact bookkeepingOk_createFrame w ih
  | createLocalMap w w' drop_framepoints_ b d r _ h ih =>
    exact bookkeepingOk_createLocalMap w w' drop_framepoints_ b d r ih h
  | breakTrack w w' frame_ _ _ h ih => exact bookkeepingOk_breakTrack w w' frame_ ih h
  | addLoopClosure w w' query_ reference_ T cs info _ h ih =>
    obtain ⟨c, _, hcase⟩ := addLoopClosure_cases w w' query_ reference_ T cs info h
    rcases hcase with ⟨_, stitched, hs, hrec⟩ | ⟨_, hrec⟩
    · exact bookkeepingOk_recordClosure _ _ _ _ _ _ _ (bookkeepingOk_setTrack _ _ _ ih hs) hrec
    · exact bookkeepingOk_recordClosure _ _ _ _ _ _ _ ih hrec

/-! ## Settled properties of the local-map window -/

/-- Witness for C21: at frame 1 of the example run the window holds frames 0 and
1, exactly the minimum of 2, without rotation; no local map is created. -/
theorem createLocalMap_exact_window_creates_nothing_witness :
    ∃ w', createLocalMap exactSum worldAtFrameOne false 1 0 = some (false, w') ∧
      w'._local_maps = worldAtFrameOne._local_maps := by
  obtain ⟨hA, hB⟩ := @createLocalMap_exact_window_creates_nothing exactSum worldAtFrameOne
    false 1 0
    (by with_unfolding_all decide) (by with_unfolding_all decide)
    (by with_unfolding_all decide)
  obtain ⟨w', h⟩ := hB 1 (by with_unfolding_all rfl)
  exact ⟨w', h, (hA false w' h).2⟩

theorem reachable_trackFrames (parameters_ : WorldMapParameters) (n : Nat) :
    ∀ (w w' : WorldMap), Reachable exactSum parameters_ w → trackFrames n w = some w' →
      Reachable exactSum parameters_ w' := by
  induction n with
  | zero =>
    intro w w' hr h
    simp only [trackFrames, Option.some.injEq] at h
    rw [← h]
    exact hr
  | succ n ih =>
    intro w w' hr h
    simp only [trackFrames] at h
    obtain ⟨w1, h1, h2⟩ := Option.bind_eq_some.1 h
    unfold trackFrame at h1
    obtain ⟨⟨b, w''⟩, hc, rfl⟩ := Option.map_eq_some'.1 h1
    exact ih _ w' (Reachable.createLocalMap _ _ false b 1 0 (Reachable.createFrame w hr) hc) h2

theorem worldAtFrameTwo_reachable : Reachable exactSum runParameters worldAtFrameTwo := by
  have h : (createFrame ((trackFrames 2 (WorldMap.fresh runParameters)).getD
      (WorldMap.fresh runParameters))).2 = worldAtFrameTwo := by with_unfolding_all rfl
  rw [← h]
  exact Reachable.createFrame _
    (reachable_trackFrames runParameters 2 (WorldMap.fresh runParameters) _ Reachable.fresh
      (by with_unfolding_all rfl))

/-- C23: when `createLocalMap` returns true in a reachable state, the new local
map (its identifier is the value of the local-map counter) has been appended to
the local maps, whose earlier entries keep their places, and is the current
local map; it is anchored at the current frame, which is flagged as keyframe
and belongs to the new local map; the translation and rotation accumulators are
zero and the pending window is empty; if there was no root local map the new
local map is the root local map and its own root, and an existing root local map
stays the root local map. -/
theorem createLocalMap_true_installs_local_map (parameters_ : WorldMapParameters)
    (w w' : WorldMap) (drop_framepoints_ : Bool)
    (distance_last_to_current degrees_last_to_current : real)
    (hr : Reachable add parameters_ w)
    (h : createLocalMap add w drop_framepoints_ distance_last_to_current
      degrees_last_to_current = some (true, w')) :
    ∃ (current : Identifier) (local_map : LocalMap) (earlier : StdMap LocalMap),
      w._current_frame = some current ∧ w'._current_frame = some current ∧
      w'._local_maps = earlier ++ [(w.local_map_instances, local_map)] ∧
      earlier.map Prod.fst = w._local_maps.map Prod.fst ∧
      w'._current_local_map = some w.local_map_instances ∧
      w'._local_maps.find w.local_map_instances = some local_map ∧
      local_map._keyframe = some current ∧
      (w'._frames.find current).map (fun f => f._is_keyframe) = some true ∧
      w'.localMap current = some w.local_map_instances ∧
      w'._distance_traveled_window = 0 ∧ w'._degrees_rotated_window = 0 ∧
      w'._frame_queue_for_local_map = [] ∧
      (w._root_local_map = none →
        w'._root_local_map = some w.local_map_instances ∧
        w'.rootLocalMap w.local_map_instances = some w.local_map_instances) ∧
      (∀ root, w._root_local_map = some root → w'._root_local_map = some root) := by
  obtain ⟨_, _, h3, _, h6⟩ := reachable_bookkeepingOk parameters_ w hr
  obtain ⟨current, anchor, local_map, earlier, hc, hanchor, hmaps, hkeys, hcurmap, _, hkey,
    _, hflag, hmember, hdist, hdeg, hqueue, hnoroot, hroot⟩ :=
    createLocalMap_created w w' drop_framepoints_ _ _ h
  have hanchor' : anchor = current := by
    have := h3 anchor hanchor
    rw [hc] at this
    exact (Option.some.inj this).symm
  have hfind : w'._local_maps.find w.local_map_instances = some local_map := by
    rw [hmaps, StdMap.find_append_singleton]
    have hnone : StdMap.find earlier w.local_map_instances = none := by
      rw [StdMap.find_eq_none_iff]
      intro p hp
      exact Nat.ne_of_lt (StdMap.keys_bound _ _ _ hkeys h6 p hp)
    rw [hnone]
    simp
  refine ⟨current, local_map, earlier, hc, ?_, hmaps, hkeys, hcurmap, hfind, ?_, hflag, hmember,
    hdist, hdeg, hqueue, ?_, ?_⟩
  · rw [(createLocalMap_same_links w w' drop_framepoints_ true _ _ h).2.2]
    exact hc
  · rw [hkey, hanchor']
  · intro hn
    obtain ⟨r1, r2⟩ := hnoroot hn
    refine ⟨r1, ?_⟩
    simp only [WorldMap.rootLocalMap, hfind, Option.bind_some]
    exact r2
  · intro root hroot'
    exact (hroot root hroot').1

/-- Witness for C23: at frame 2 of the example run `createLocalMap` returns true;
local map 0 is created, anchored at frame 2, and becomes the root local map. -/
theorem createLocalMap_true_installs_local_map_witness :
    createLocalMap exactSum worldAtFrameTwo false 1 0 = some (true, worldAfterFrameTwo) ∧
    ∃ (current : Identifier) (local_map : LocalMap) (earlier : StdMap LocalMap),
      worldAtFrameTwo._current_frame = some current ∧
      worldAfterFrameTwo._current_frame = some current ∧
      worldAfterFrameTwo._local_maps
        = earlier ++ [(worldAtFrameTwo.local_map_instances, local_map)] ∧
      earlier.map Prod.fst = worldAtFrameTwo._local_maps.map Prod.fst ∧
      worldAfterFrameTwo._current_local_map = some worldAtFrameTwo.local_map_instances ∧
      worldAfterFrameTwo._local_maps.find worldAtFrameTwo.local_map_instances
        = some local_map ∧
      local_map._keyframe = some current ∧
      (worldAfterFrameTwo._frames.find current).map (fun f => f._is_keyframe) = some true ∧
      worldAfterFrameTwo.localMap current = some worldAtFrameTwo.local_map_instances ∧
      worldAfterFrameTwo._distance_traveled_window = 0 ∧
      worldAfterFrameTwo._degrees_rotated_window = 0 ∧
      worldAfterFrameTwo._frame_queue_for_local_map = [] ∧
      (worldAtFrameTwo._root_local_map = none →
        worldAfterFrameTwo._root_local_map = some worldAtFrameTwo.local_map_instances ∧
        worldAfterFrameTwo.rootLocalMap worldAtFrameTwo.local_map_instances
          = some worldAtFrameTwo.local_map_instances) ∧
      (∀ root, worldAtFrameTwo._root_local_map = some root →
        worldAfterFrameTwo._root_local_map = some root) :=
  ⟨by with_unfolding_all rfl,
    createLocalMap_true_installs_local_map runParameters worldAtFrameTwo worldAfterFrameTwo
      false 1 0 worldAtFrameTwo_reachable (by with_unfolding_all rfl)⟩

theorem List.dropLast_dropLast_eq_take {α : Type} (l : List α) :
    l.dropLast.dropLast = l.take (l.length - 2) := by
  rw [List.dropLast_eq_take, List.dropLast_eq_take, List.take_take, List.length_take]
  congr 1
  omega

theorem List.not_mem_take_of_mem_drop {α : Type} (l : List α) (k : Nat) (hl : l.Nodup)
    (a : α) (ha : a ∈ l.drop k) : a ∉ l.take k := by
  rw [← List.take_append_drop k l] at hl
  exact fun ht => (List.nodup_append.1 hl).2.2 ht ha

/-- C24: for a window of `n ≥ 2` distinct frames, `resetWindowForLocalMapCreation`
with `drop_framepoints_` set completes and calls `Frame::clear` on exactly the
first `n - 2` frames of the window: each of them is cleared, while the last two
frames of the window and all frames outside the window are left as they are.
Without `drop_framepoints_` the call completes and leaves the frame table as it
is. -/
theorem resetWindow_clears_all_but_last_two (w : WorldMap)
    (hn : 2 ≤ w._frame_queue_for_local_map.length)
    (hdistinct : w._frame_queue_for_local_map.Nodup) :
    (∃ w', resetWindowForLocalMapCreation w true = some w' ∧
      (∀ a ∈ w._frame_queue_for_local_map.take (w._frame_queue_for_local_map.length - 2),
        w'._frames.find a = (w._frames.find a).map Frame.clear) ∧
      (∀ a ∈ w._frame_queue_for_local_map.drop (w._frame_queue_for_local_map.length - 2),
        w'._frames.find a = w._frames.find a) ∧
      (∀ a, a ∉ w._frame_queue_for_local_map → w'._frames.find a = w._frames.find a)) ∧
    (∃ w', resetWindowForLocalMapCreation w false = some w' ∧ w'._frames = w._frames) := by
  constructor
  · have hfind : ∀ a, StdMap.find (w._frame_queue_for_local_map.dropLast.dropLast.foldl
        (fun frames frame => StdMap.modify frames frame Frame.clear) w._frames) a
        = if a ∈ w._frame_queue_for_local_map.take (w._frame_queue_for_local_map.length - 2)
          then (w._frames.find a).map Frame.clear else w._frames.find a := by
      intro a
      rw [StdMap.find_foldl_modify Frame.clear (fun _ => rfl), List.dropLast_dropLast_eq_take]
    refine ⟨_, by simp only [resetWindowForLocalMapCreation, if_true, hn]; rfl, ?_, ?_, ?_⟩
    · intro a ha
      exact (hfind a).trans (if_pos ha)
    · intro a ha
      exact (hfind a).trans
        (if_neg (List.not_mem_take_of_mem_drop _ _ hdistinct a ha))
    · intro a ha
      exact (hfind a).trans (if_neg fun ht => ha (List.mem_of_mem_take ht))
  · exact ⟨_, rfl, rfl⟩

/-- Witness for C24: a window of the twelve frames 1 to 12; frame 10 is released,
frames 11 and 12 keep their framepoints. -/
theorem resetWindow_clears_all_but_last_two_witness :
    ((∃ w', resetWindowForLocalMapCreation windowOfTwelve true = some w' ∧
      (∀ a ∈ windowOfTwelve._frame_queue_for_local_map.take
          (windowOfTwelve._frame_queue_for_local_map.length - 2),
        w'._frames.find a = (windowOfTwelve._frames.find a).map Frame.clear) ∧
      (∀ a ∈ windowOfTwelve._frame_queue_for_local_map.drop
          (windowOfTwelve._frame_queue_for_local_map.length - 2),
        w'._frames.find a = windowOfTwelve._frames.find a) ∧
      (∀ a, a ∉ windowOfTwelve._frame_queue_for_local_map →
        w'._frames.find a = windowOfTwelve._frames.find a)) ∧
    (∃ w', resetWindowForLocalMapCreation windowOfTwelve false = some w' ∧
      w'._frames = windowOfTwelve._frames)) ∧
    windowOfTwelve._frame_queue_for_local_map = [1, 2, 3, 4, 5, 6, 7, 8, 9, 10, 11, 12] ∧
    ((resetWindowForLocalMapCreation windowOfTwelve true).map fun w' =>
      ((w'._frames.filter fun p => p.2 = Frame.clear p.2).map Prod.fst,
        (w'._frames.filter fun p => p.2 ≠ Frame.clear p.2).map Prod.fst))
      = some ([1, 2, 3, 4, 5, 6, 7, 8, 9, 10], [11, 12]) :=
  ⟨resetWindow_clears_all_but_last_two windowOfTwelve (by decide) (by decide),
    by decide, by decide⟩

/-- C25: in a reachable state `createFrame` returns a frame `F` that was not in
the frame table; `F` becomes the current frame and the former current frame `C`
the previous frame.  If `C` exists then `previous(F) = C`, `next(C) = F` and
the root frame of the map stays; otherwise `F` becomes the root frame of the
map, `root(F) = F` and `F` has no previous frame.  `F` is in the frame table
under its own identifier, every other entry is as before, except that the
next pointer of `C` has been written, and `F` is the last frame of the pending
window, behind the frames that were pending. -/
theorem createFrame_links_and_enqueues (parameters_ : WorldMapParameters) (w : WorldMap)
    (hr : Reachable add parameters_ w) :
    w._frames.find (createFrame w).1 = none ∧
    (createFrame w).2._current_frame = some (createFrame w).1 ∧
    (createFrame w).2._previous_frame = w._current_frame ∧
    (∀ C, w._current_frame = some C →
      (createFrame w).2.previous (createFrame w).1 = some C ∧
      (createFrame w).2.next C = some (createFrame w).1 ∧
      (createFrame w).2._root_frame = w._root_frame ∧
      (createFrame w).2._frames.find C
        = (w._frames.find C).map fun f => { f with _next := some (createFrame w).1 }) ∧
    (w._current_frame = none →
      (createFrame w).2._root_frame = some (createFrame w).1 ∧
      (createFrame w).2.root (createFrame w).1 = some (createFrame w).1 ∧
      (createFrame w).2.previous (createFrame w).1 = none) ∧
    ((createFrame w).2._frames.find (createFrame w).1).isSome = true ∧
    (createFrame w).2.next (createFrame w).1 = none ∧
    (∀ a, a ≠ (createFrame w).1 → some a ≠ w._current_frame →
      (createFrame w).2._frames.find a = w._frames.find a) ∧
    (createFrame w).2._frame_queue_for_local_map
      = w._frame_queue_for_local_map ++ [(createFrame w).1] := by
  obtain ⟨h1, h2, _, _, _⟩ := reachable_bookkeepingOk parameters_ w hr
  have hfresh : w._frames.find w.frame_instances = none := by
    cases hf : w._frames.find w.frame_instances with
    | none => rfl
    | some f => exact absurd (h1 _ (by rw [hf]; rfl)) (lt_irrefl _)
  obtain ⟨f1, f2, f3, f4, _⟩ := createFrame_fields w
  have hfind := createFrame_find w hfresh
  rw [f1]
  refine ⟨hfresh, f2, f3, ?_, ?_, ?_, ?_, ?_, f4⟩
  · intro C hC
    have hCsome := h2 C hC
    have hCne : ¬ C = w.frame_instances := Nat.ne_of_lt (h1 C hCsome)
    obtain ⟨fC, hfC⟩ := Option.isSome_iff_exists.1 hCsome
    refine ⟨?_, ?_, ?_, ?_⟩
    · simp [WorldMap.previous, hfind, hC, Frame.construct]
    · simp [WorldMap.next, hfind, hCne, hC, hfC]
    · unfold createFrame
      rw [hC]
    · simp only [hfind, hCne, if_false, hC, if_true]
  · intro hnone
    refine ⟨?_, ?_, ?_⟩
    · unfold createFrame
      rw [hnone]
    · simp [WorldMap.root, hfind, hnone]
    · simp [WorldMap.previous, hfind, hnone, Frame.construct]
  · rw [hfind, if_pos rfl]
    rfl
  · cases hcur : w._current_frame <;> simp [WorldMap.next, hfind, hcur, Frame.construct]
  · intro a ha hne
    rw [hfind, if_neg ha, if_neg hne]

/-- Witness for C25: `createFrame` on the world map after frames 0 to 2; frame 3
follows the current frame 2. -/
theorem createFrame_links_and_enqueues_witness :
    (createFrame worldAfterFrameTwo).1 = 3 ∧
    (createFrame worldAfterFrameTwo).2.previous 3 = some 2 ∧
    (createFrame worldAfterFrameTwo).2.next 2 = some 3 ∧
    (createFrame worldAfterFrameTwo).2._frame_queue_for_local_map = [3] ∧
    (createFrame worldAfterFrameTwo).2._current_frame
      = some (createFrame worldAfterFrameTwo).1 :=
  ⟨by with_unfolding_all rfl, by with_unfolding_all rfl, by with_unfolding_all rfl,
    by with_unfolding_all rfl,
    (createFrame_links_and_enqueues runParameters worldAfterFrameTwo
      (reachable_trackFrames runParameters 3 (WorldMap.fresh runParameters) _ Reachable.fresh
        (by with_unfolding_all rfl))).2.1⟩

/-! ## A run along a straight line -/

/-- When no local map is due, `createLocalMap` completes and returns false. -/
theorem createLocalMap_not_due (w : WorldMap) (drop_framepoints_ : Bool)
    (distance_last_to_current degrees_last_to_current : real) (current : Identifier)
    (hc : w._current_frame = some current)
    (hnot : ¬ localMapDue (w.moved add distance_last_to_current degrees_last_to_current)) :
    ∃ w', createLocalMap add w drop_framepoints_ distance_last_to_current
        degrees_last_to_current = some (false, w') ∧
      (w' = w ∨ w' = w.moved add distance_last_to_current degrees_last_to_current) := by
  rw [createLocalMap_eq]
  cases hp : w._previous_frame with
  | none => exact ⟨w, rfl, Or.inl rfl⟩
  | some p =>
    rw [hc]
    dsimp only
    rw [if_neg hnot]
    exact ⟨_, rfl, Or.inr rfl⟩

theorem quietRun_fresh (parameters_ : WorldMapParameters) :
    QuietRun parameters_ 0 (WorldMap.fresh parameters_) :=
  ⟨bookkeepingOk_fresh parameters_, rfl, rfl, rfl, rfl, rfl, rfl, fun h => absurd h (lt_irrefl _)⟩

/-- A frame that leaves the window at no more than the minimum number of frames
creates no local map when there is no rotation. -/
theorem quietRun_step (parameters_ : WorldMapParameters) (drop_framepoints_ : Bool)
    (distance : real) (k : Nat) (w : WorldMap) (hzero : add 0 0 = 0)
    (hthreshold : 0 ≤ parameters_.minimum_degrees_rotated_for_local_map)
    (hk : k + 1 ≤ parameters_.minimum_number_of_frames_for_local_map)
    (hq : QuietRun parameters_ k w) :
    ∃ w', createLocalMap add (createFrame w).2 drop_framepoints_ distance 0 = some (false, w') ∧
      QuietRun parameters_ (k + 1) w' := by
  obtain ⟨hI, hp, hmaps, hqueue, hcount, hdeg, hmapcount, hcur⟩ := hq
  obtain ⟨_, f2, _, f4, f5, f6, f7, f8, f9, _⟩ := createFrame_fields w
  have hI1 := bookkeepingOk_createFrame w hI
  have hnot : ¬ localMapDue ((createFrame w).2.moved add distance 0) := by
    simp only [localMapDue, WorldMap.moved]
    rw [f9, hdeg, hzero, f4, f8, hp, hqueue, f6, hmaps]
    simp only [List.length_append, List.length_range, List.length_singleton]
    intro hdue
    rcases hdue with hd | hd | hd
    · exact absurd hd (not_lt.2 hthreshold)
    · exact absurd hd.2 (not_lt.2 hk)
    · exact absurd hd.1 (not_lt.2 hk)
  obtain ⟨w', h, hw'⟩ := createLocalMap_not_due (createFrame w).2 drop_framepoints_ distance 0
    w.frame_instances f2 hnot
  refine ⟨w', h, bookkeepingOk_createLocalMap _ _ _ _ _ _ hI1 h, ?_⟩
  have hfields : w'._parameters = (createFrame w).2._parameters ∧
      w'._local_maps = (createFrame w).2._local_maps ∧
      w'._frame_queue_for_local_map = (createFrame w).2._frame_queue_for_local_map ∧
      w'.frame_instances = (createFrame w).2.frame_instances ∧
      w'._degrees_rotated_window = (createFrame w).2._degrees_rotated_window ∧
      w'.local_map_instances = (createFrame w).2.local_map_instances ∧
      w'._current_frame = (createFrame w).2._current_frame := by
    rcases hw' with rfl | rfl
    · exact ⟨rfl, rfl, rfl, rfl, rfl, rfl, rfl⟩
    · refine ⟨rfl, rfl, rfl, rfl, ?_, rfl, rfl⟩
      show add (createFrame w).2._degrees_rotated_window 0 = _
      rw [f9, hdeg]
      exact hzero
  obtain ⟨g1, g2, g3, g4, g5, g6, g7⟩ := hfields
  refine ⟨?_, ?_, ?_, ?_, ?_, ?_, ?_⟩
  · rw [g1, f8, hp]
  · rw [g2, f6, hmaps]
  · rw [g3, f4, hqueue, hcount, List.range_succ]
  · rw [g4, f5, hcount]
  · rw [g5, f9, hdeg]
  · rw [g6, f7, hmapcount]
  · intro _
    rw [g7, f2, hcount]
    rfl

/-- The frame that makes the window larger than the minimum number of frames
creates the first local map, anchored at that frame. -/
theorem quietRun_create (parameters_ : WorldMapParameters) (drop_framepoints_ : Bool)
    (distance : real) (k : Nat) (w : WorldMap)
    (hk : k = parameters_.minimum_number_of_frames_for_local_map) (hpos : 0 < k)
    (hq : QuietRun parameters_ k w) :
    ∃ w' local_map,
      createLocalMap add (createFrame w).2 drop_framepoints_ distance 0 = some (true, w') ∧
      w'._local_maps = [(0, local_map)] ∧ local_map._keyframe = some k ∧
      local_map._frames = List.range (k + 1) ∧ w'._current_local_map = some 0 ∧
      w'._current_frame = some k := by
  obtain ⟨hI, hp, hmaps, hqueue, hcount, hdeg, hmapcount, hcur⟩ := hq
  obtain ⟨_, f2, f3, f4, f5, f6, f7, f8, f9, _⟩ := createFrame_fields w
  obtain ⟨_, i2, _⟩ := bookkeepingOk_createFrame w hI
  have hlast : (createFrame w).2._frame_queue_for_local_map.getLast? = some k := by
    rw [f4, hcount]
    simp
  have hlength : (createFrame w).2._frame_queue_for_local_map.length = k + 1 := by
    rw [f4, hqueue]
    simp
  have hdue : localMapDue ((createFrame w).2.moved add distance 0) := by
    simp only [localMapDue, WorldMap.moved]
    right; right
    rw [hlength, f8, hp, ← hk, f6, hmaps]
    exact ⟨Nat.lt_succ_self k, by simp [StdMap.size]⟩
  obtain ⟨frame, hframe⟩ := Option.isSome_iff_exists.1 (i2 w.frame_instances f2)
  have hcomplete := @createLocalMap_completes add (createFrame w).2 drop_framepoints_ distance 0
    w.frame_instances frame f2 hframe (by rw [hcount]; exact hlast)
    (fun _ => by rw [hlength]; omega)
  obtain ⟨⟨b, w'⟩, h⟩ := Option.isSome_iff_exists.1 hcomplete
  have hb : b = true := by
    rcases createLocalMap_cases _ _ _ _ _ _ h with ⟨hprev, _, _⟩ | ⟨_, _, _, hcase⟩
    · rw [f3, hcur hpos] at hprev
      cases hprev
    · rcases hcase with ⟨hnot, _, _⟩ | ⟨_, hb, _⟩
      · exact absurd hdue hnot
      · exact hb
  subst hb
  obtain ⟨current, anchor, local_map, earlier, hc, hanchor, hlm, hkeys, hcurmap, _, hkey,
    hfr, _⟩ := createLocalMap_created _ _ _ _ _ h
  have hearlier : earlier = [] := by
    rw [f6, hmaps] at hkeys
    exact List.map_eq_nil_iff.1 hkeys
  rw [hlast] at hanchor
  cases hanchor
  refine ⟨w', local_map, h, ?_, hkey, ?_, ?_, ?_⟩
  · rw [hlm, hearlier, f7, hmapcount]
    rfl
  · rw [hfr, f4, hqueue, hcount, List.range_succ]
  · rw [hcurmap, f7, hmapcount]
  · rw [(createLocalMap_same_links _ _ _ _ _ _ h).2.2, f2, hcount]

theorem trackAlong_quietRun (parameters_ : WorldMapParameters) (drop_framepoints_ : Bool)
    (hzero : add 0 0 = 0)
    (hthreshold : 0 ≤ parameters_.minimum_degrees_rotated_for_local_map)
    (hpos : 0 < parameters_.minimum_number_of_frames_for_local_map) :
    ∀ (distances : List real) (k : Nat) (w : WorldMap), QuietRun parameters_ k w →
      k + distances.length = parameters_.minimum_number_of_frames_for_local_map + 1 →
      distances ≠ [] →
      ∃ w' local_map,
        trackAlong add drop_framepoints_ (straightLine distances) w
          = some (List.replicate (distances.length - 1) false ++ [true], w') ∧
        w'._local_maps = [(0, local_map)] ∧
        local_map._keyframe = some parameters_.minimum_number_of_frames_for_local_map ∧
        local_map._frames
          = List.range (parameters_.minimum_number_of_frames_for_local_map + 1) ∧
        w'._current_local_map = some 0 ∧
        w'._current_frame = some parameters_.minimum_number_of_frames_for_local_map := by
  intro distances
  induction distances with
  | nil => intro k w _ _ hne; exact absurd rfl hne
  | cons d rest ih =>
    intro k w hq hlen _
    cases rest with
    | nil =>
      have hk : k = parameters_.minimum_number_of_frames_for_local_map := by
        simpa using hlen
      obtain ⟨w', local_map, h, h1, h2, h3, h4, h5⟩ :=
        @quietRun_create add parameters_ drop_framepoints_ d k w hk (hk ▸ hpos) hq
      refine ⟨w', local_map, ?_, h1, hk ▸ h2, hk ▸ h3, h4, hk ▸ h5⟩
      simp [straightLine, trackAlong, h]
    | cons d' rest' =>
      have hk : k + 1 ≤ parameters_.minimum_number_of_frames_for_local_map := by
        simp only [List.length_cons] at hlen
        omega
      obtain ⟨w1, h, hq1⟩ :=
        quietRun_step parameters_ drop_framepoints_ d k w hzero hthreshold hk hq
      obtain ⟨w', local_map, hrun, hrest⟩ := ih (k + 1) w1 hq1
        (by simp only [List.length_cons] at hlen ⊢; omega) (by simp)
      refine ⟨w', local_map, ?_, hrest⟩
      have hrun' : trackAlong add drop_framepoints_ (straightLine (d' :: rest')) w1
          = some (List.replicate rest'.length false ++ [true], w') := by
        simpa using hrun
      have hunfold : trackAlong add drop_framepoints_ (straightLine (d :: d' :: rest')) w
          = (createLocalMap add (createFrame w).2 drop_framepoints_ d 0).bind fun r =>
              (trackAlong add drop_framepoints_ (straightLine (d' :: rest')) r.2).map
                fun s => (r.1 :: s.1, s.2) := rfl
      rw [hunfold, h]
      simp only [Option.some_bind, hrun', Option.map_some']
      rfl

/-- C22: from a fresh world map with `minimum_number_of_frames_for_local_map = 10`
and a rotation threshold that is not negative (its default is not part of the
sources), 11 frames along a straight line without rotation, `createLocalMap`
called after each: the calls for frames 0 to 9 return false and the call for
frame 10 returns true, so that exactly one local map exists at the end; it is
anchored at frame 10 and holds frames 0 to 10.  The outcome does not depend on
the distances nor on how their sums are rounded (at frame 10 the window holds 11
frames and there are fewer than 5 local maps), hence it holds for
`minimum_distance_traveled_for_local_map = 0.5` and distances that add up to
0.5.  Of the addition only `0 + 0 = 0` is used, for the rotation. -/
theorem straight_line_creates_one_local_map_at_frame_ten (parameters_ : WorldMapParameters)
    (drop_framepoints_ : Bool) (distances : List real) (hzero : add 0 0 = 0)
    (hframes : parameters_.minimum_number_of_frames_for_local_map = 10)
    (hthreshold : 0 ≤ parameters_.minimum_degrees_rotated_for_local_map)
    (hlength : distances.length = 11) :
    ∃ w local_map,
      trackAlong add drop_framepoints_ (straightLine distances) (WorldMap.fresh parameters_)
        = some ([false, false, false, false, false, false, false, false, false, false, true],
            w) ∧
      w._local_maps = [(0, local_map)] ∧ local_map._keyframe = some 10 ∧
      local_map._frames = [0, 1, 2, 3, 4, 5, 6, 7, 8, 9, 10] ∧
      w._current_local_map = some 0 ∧ w._current_frame = some 10 := by
  have hne : distances ≠ [] := by
    intro h
    rw [h] at hlength
    cases hlength
  obtain ⟨w, local_map, h, h1, h2, h3, h4, h5⟩ :=
    trackAlong_quietRun parameters_ drop_framepoints_ hzero hthreshold
      (by rw [hframes]; decide)
      distances 0 (WorldMap.fresh parameters_) (quietRun_fresh parameters_)
      (by rw [hlength, hframes]) hne
  rw [hlength] at h
  rw [hframes] at h2 h3 h5
  exact ⟨w, local_map, h, h1, h2, h3, h4, h5⟩

/-- Witness for C22: the threshold of 0.5 m, six steps of 1/16 m and four steps
of 1/32 m, which add up to 0.5 m without rounding. -/
theorem straight_line_creates_one_local_map_at_frame_ten_witness :
    straightLineParameters.minimum_distance_traveled_for_local_map = 1 / 2 ∧
    (List.replicate 6 (1 / 16 : real) ++ List.replicate 4 (1 / 32)).sum = 1 / 2 ∧
    ∃ w local_map,
      trackAlong exactSum false
          (straightLine (0 :: (List.replicate 6 (1 / 16) ++ List.replicate 4 (1 / 32))))
          (WorldMap.fresh straightLineParameters)
        = some ([false, false, false, false, false, false, false, false, false, false, true],
            w) ∧
      w._local_maps = [(0, local_map)] ∧ local_map._keyframe = some 10 ∧
      local_map._frames = [0, 1, 2, 3, 4, 5, 6, 7, 8, 9, 10] ∧
      w._current_local_map = some 0 ∧ w._current_frame = some 10 :=
  ⟨rfl, by norm_num [List.replicate],
    @straight_line_creates_one_local_map_at_frame_ten exactSum straightLineParameters false
      (0 :: (List.replicate 6 (1 / 16) ++ List.replicate 4 (1 / 32)))
      (by with_unfolding_all decide) rfl (by with_unfolding_all decide) rfl⟩

/-! ## Lookups when all named landmarks are present -/

theorem updateFiltered_ids (P : Identifier → Prop) (f : FilterState) (q r : Identifier)
    (n : Count) (hq : P q) (hr : P r)
    (h : ∀ p ∈ f.landmark_queries_to_references_filtered, P p.1 ∧ P p.2.1) :
    ∀ p ∈ (updateFiltered f q r n).landmark_queries_to_references_filtered,
      P p.1 ∧ P p.2.1 := by
  have hinsert : ∀ (m : StdMap (Identifier × Count)), (∀ p ∈ m, P p.1 ∧ P p.2.1) →
      ∀ p ∈ StdMap.insert m q (r, n), P p.1 ∧ P p.2.1 := by
    intro m hm p hp
    rcases StdMap.mem_of_mem_insert m q (r, n) p hp with rfl | hp
    · exact ⟨hq, hr⟩
    · exact hm p hp
  unfold updateFiltered
  simp only
  split
  · exact hinsert _ h
  · split
    · intro p hp
      rcases StdMap.mem_assign _ q (q, n) p hp with rfl | hp
      · exact ⟨hq, hq⟩
      · exact h p hp
    · exact h
  · split
    · exact hinsert _ fun p hp => h p ((StdMap.mem_erase _ _ p).1 hp).1
    · exact h
  · exact h

theorem filterStep_ids (P : Identifier → Prop) (f : FilterState) (c : Correspondence)
    (hc : c.is_inlier = true → P c.query ∧ P c.reference)
    (h : ∀ p ∈ f.landmark_queries_to_references_filtered, P p.1 ∧ P p.2.1) :
    ∀ p ∈ (filterStep f c).landmark_queries_to_references_filtered, P p.1 ∧ P p.2.1 := by
  unfold filterStep
  simp only
  by_cases hlt : c.query < c.reference
  · simp only [hlt, if_true]
    split
    · rename_i hin
      exact updateFiltered_ids P _ _ _ _ (hc hin.1).2 (hc hin.1).1 h
    · exact h
  · simp only [hlt, if_false]
    split
    · rename_i hin
      exact updateFiltered_ids P _ _ _ _ (hc hin.1).1 (hc hin.1).2 h
    · exact h

theorem foldl_filterStep_ids (P : Identifier → Prop) (cs : List Correspondence)
    (f : FilterState)
    (hc : ∀ c ∈ cs, c.is_inlier = true → P c.query ∧ P c.reference)
    (h : ∀ p ∈ f.landmark_queries_to_references_filtered, P p.1 ∧ P p.2.1) :
    ∀ p ∈ (cs.foldl filterStep f).landmark_queries_to_references_filtered,
      P p.1 ∧ P p.2.1 := by
  induction cs generalizing f with
  | nil => exact h
  | cons c cs ih =>
    exact ih _ (fun c' hc' => hc c' (List.mem_cons_of_mem _ hc'))
      (filterStep_ids P f c (hc c (List.mem_cons_self _ _)) h)

theorem foldl_closures_ids (P : Identifier → Prop) (closures_ : List ClosureConstraint)
    (f : FilterState)
    (hc : ∀ closure ∈ closures_, ∀ c ∈ closure.landmark_correspondences,
      c.is_inlier = true → P c.query ∧ P c.reference)
    (h : ∀ p ∈ f.landmark_queries_to_references_filtered, P p.1 ∧ P p.2.1) :
    ∀ p ∈ (closures_.foldl
      (fun f closure => closure.landmark_correspondences.foldl filterStep f)
      f).landmark_queries_to_references_filtered, P p.1 ∧ P p.2.1 := by
  induction closures_ generalizing f with
  | nil => exact h
  | cons closure rest ih =>
    exact ih _ (fun c' hc' => hc c' (List.mem_cons_of_mem _ hc'))
      (foldl_filterStep_ids P _ f (hc closure (List.mem_cons_self _ _)) h)

/-- Both identifiers of every entry of the filtered query map are named by an
inlier correspondence of the batch. -/
theorem filterCorrespondences_ids (P : Identifier → Prop) (closures_ : List ClosureConstraint)
    (hc : ∀ closure ∈ closures_, ∀ c ∈ closure.landmark_correspondences,
      c.is_inlier = true → P c.query ∧ P c.reference) :
    ∀ p ∈ (filterCorrespondences closures_).landmark_queries_to_references_filtered,
      P p.1 ∧ P p.2.1 :=
  foldl_closures_ids P closures_ _ hc (fun _ hp => by simp at hp)

theorem lookupReference_isSome (s : MergeState) (r : Identifier) (hI : MergedOk s)
    (h : (s._landmarks.find r).isSome = true ∨
      (s.merged_landmark_identifiers.find r).isSome = true) :
    (lookupReference s r).isSome = true := by
  unfold lookupReference
  cases hr : s._landmarks.find r with
  | some lr => rfl
  | none =>
    rcases h with h | h
    · rw [hr] at h; cases h
    · obtain ⟨absorbing, ha⟩ := Option.isSome_iff_exists.1 h
      obtain ⟨_, hin, _⟩ := hI r absorbing ha
      obtain ⟨lr, hlr⟩ := Option.isSome_iff_exists.1 hin
      simp only [ha, hlr]
      rfl

theorem mergeStep_error (merge : Landmark → Landmark → Landmark) (s : MergeState)
    (e : MergeFailure × MergeState)
    (pair : Identifier × (Identifier × Count)) (h : mergeStep merge s pair = .error e) :
    (e.1 = .null_dereference ∧ s._landmarks.find pair.1 = none) ∨
      (e.1 = .out_of_range ∧ lookupReference s pair.2.1 = none) := by
  unfold mergeStep at h
  split at h
  · rename_i hnone
    cases h
    exact Or.inl ⟨rfl, hnone⟩
  · split at h
    · rename_i hnone
      cases h
      exact Or.inr ⟨rfl, hnone⟩
    · split at h
      · cases h
      · split at h <;> cases h

theorem performMerge_covered (merge : Landmark → Landmark → Landmark) (table : StdMap Landmark)
    (s : MergeState) (q ref : Identifier) (lq lr : Landmark)
    (href : s._landmarks.find ref = some lr) (h : Covered table s) :
    Covered table (performMerge merge s q ref lq lr) := by
  intro x hx
  simp only [performMerge, StdMap.find_erase, StdMap.find_assign, StdMap.find_insert]
  by_cases hxq : x = q
  · right
    simp only [hxq, if_true]
    cases s.merged_landmark_identifiers.find q <;> rfl
  · simp only [hxq, if_false]
    rcases h x hx with h1 | h1
    · left
      by_cases hxr : x = ref
      · simp [hxr, href]
      · simp only [hxr, if_false]
        exact h1
    · exact Or.inr h1

/-- With every landmark of the filtered query map covered, the second loop runs
to its end. -/
theorem mergeLoop_completes (merge : Landmark → Landmark → Landmark)
    (table : StdMap Landmark) :
    ∀ (rest : List (Identifier × (Identifier × Count))) (s : MergeState),
      QueryMapOk rest → MergedOk s →
      (∀ x, (s.merged_landmark_identifiers.find x).isSome = true → ∀ p ∈ rest, x < p.1) →
      Covered table s →
      (∀ p ∈ rest, (table.find p.1).isSome = true ∧ (table.find p.2.1).isSome = true) →
      ∃ s', mergeLoop merge rest s = .ok s' := by
  intro rest
  induction rest with
  | nil => intro s _ _ _ _ _; exact ⟨s, rfl⟩
  | cons pair rest ih =>
    intro s hQ hI hB hC hT
    have hsorted := List.pairwise_cons.1 hQ.1
    have hQ' : QueryMapOk rest := ⟨hsorted.2, fun p hp => hQ.2 p (List.mem_cons_of_mem _ hp)⟩
    have hBp : ∀ x, (s.merged_landmark_identifiers.find x).isSome = true → x < pair.1 :=
      fun x hx => hB x hx pair (List.mem_cons_self _ _)
    have hT' : ∀ p ∈ rest, (table.find p.1).isSome = true ∧ (table.find p.2.1).isSome = true :=
      fun p hp => hT p (List.mem_cons_of_mem _ hp)
    rcases mergeStep_cases merge s pair with (h | ⟨failure, h⟩) | ⟨lq, ref, lr, hq, hr, hne, _, h⟩
    · simp only [mergeLoop, h]
      exact ih s hQ' hI (fun x hx p hp => hB x hx p (List.mem_cons_of_mem _ hp)) hC hT'
    · rcases mergeStep_error merge s _ pair h with ⟨_, hnone⟩ | ⟨_, hnone⟩
      · rcases hC pair.1 (hT pair (List.mem_cons_self _ _)).1 with hfound | hmerged
        · rw [hnone] at hfound
          cases hfound
        · exact absurd (hBp pair.1 hmerged) (lt_irrefl _)
      · have hsome := lookupReference_isSome s pair.2.1 hI
          (hC pair.2.1 (hT pair (List.mem_cons_self _ _)).2)
        rw [hnone] at hsome
        cases hsome
    · simp only [mergeLoop, h]
      have hM := performMerge_mergedOk merge s pair.1 pair.2.1 ref lq lr
        (hQ.2 pair (List.mem_cons_self _ _)) hI hBp hr hne
      refine ih _ hQ' hM.1 ?_
        (performMerge_covered merge table s pair.1 ref lq lr
          (lookupReference_spec s pair.2.1 ref lr hr).1 hC) hT'
      intro x hx p hp
      have h1 := performMerge_merged_bound merge s pair.1 ref lq lr hBp x hx
      exact lt_of_le_of_lt h1 (hsorted.1 p hp)

theorem covered_start (w : WorldMap) : Covered w._landmarks (MergeState.start w) :=
  fun _ hx => Or.inl hx

theorem mergedOk_start (w : WorldMap) : MergedOk (MergeState.start w) := by
  intro q r h
  simp [MergeState.start, StdMap.find] at h

/-- C30: if on entry both landmarks of every inlier correspondence of the batch
are in the landmark table, then `mergeLandmarks` returns normally, and at every
entry of the filtered query map that the second loop reaches the query is in the
table (the "already merged" branch is not taken), and a reference that is not
in the table has an entry in `merged_landmark_identifiers` whose target is in
the table, so that the lookup with one redirection succeeds. -/
theorem mergeLandmarks_lookups_succeed (merge : Landmark → Landmark → Landmark)
    (w : WorldMap) (closures_ : List ClosureConstraint)
    (hpresent : ∀ closure ∈ closures_, ∀ c ∈ closure.landmark_correspondences,
      c.is_inlier = true →
        (w._landmarks.find c.query).isSome = true ∧
        (w._landmarks.find c.reference).isSome = true) :
    (∃ w', mergeLandmarks merge w closures_ = .ok w') ∧
    ∀ (pre post : List (Identifier × (Identifier × Count)))
      (pair : Identifier × (Identifier × Count)) (s : MergeState),
      (filterCorrespondences closures_).landmark_queries_to_references_filtered
        = pre ++ pair :: post →
      mergeLoop merge pre (MergeState.start w) = .ok s →
      (s._landmarks.find pair.1).isSome = true ∧
      (s._landmarks.find pair.2.1 = none →
        ∃ absorbing, s.merged_landmark_identifiers.find pair.2.1 = some absorbing ∧
          (s._landmarks.find absorbing).isSome = true) ∧
      (lookupReference s pair.2.1).isSome = true := by
  have hQ := filterCorrespondences_queryMapOk closures_
  have hT := filterCorrespondences_ids (fun x => (w._landmarks.find x).isSome = true)
    closures_ hpresent
  have hstartB : ∀ x, ((MergeState.start w).merged_landmark_identifiers.find x).isSome = true →
      ∀ p ∈ (filterCorrespondences closures_).landmark_queries_to_references_filtered,
        x < p.1 := by
    intro x hx
    simp [MergeState.start, StdMap.find] at hx
  constructor
  · obtain ⟨s', hs'⟩ := mergeLoop_completes merge w._landmarks _ (MergeState.start w) hQ
      (mergedOk_start w) hstartB (covered_start w) hT
    have hrun : mergeRun merge w closures_ = .ok s' := hs'
    unfold mergeLandmarks
    rw [hrun]
    exact ⟨_, rfl⟩
  · intro pre post pair s hsplit hpre
    rw [hsplit] at hQ hT
    obtain ⟨hI, hB, _, _, _⟩ := mergeLoop_reaches merge w pre post pair s hQ hpre
    have hsorted := List.pairwise_append.1 hQ.1
    have hQpre : QueryMapOk pre :=
      ⟨hsorted.1, fun p hp => hQ.2 p (List.mem_append_left _ hp)⟩
    have hC : Covered w._landmarks s := by
      have := mergeLoop_induction merge (Covered w._landmarks)
        (fun s q r0 ref lq lr _ _ _ hr _ hP =>
          performMerge_covered merge w._landmarks s q ref lq lr
            (lookupReference_spec s r0 ref lr hr).1 hP)
        pre (MergeState.start w) hQpre (mergedOk_start w)
        (by intro x hx; simp [MergeState.start, StdMap.find] at hx) (covered_start w)
      rw [hpre] at this
      exact this
    obtain ⟨hq, hr⟩ := hT pair (List.mem_append_right _ (List.mem_cons_self _ _))
    refine ⟨?_, ?_, lookupReference_isSome s pair.2.1 hI (hC _ hr)⟩
    · rcases hC _ hq with h | h
      · exact h
      · exact absurd (hB _ h) (lt_irrefl _)
    · intro hnone
      rcases hC _ hr with h | h
      · rw [hnone] at h; cases h
      · obtain ⟨absorbing, ha⟩ := Option.isSome_iff_exists.1 h
        exact ⟨absorbing, ha, (hI _ _ ha).2.1⟩

/-- Witness for C30: the chained batch, in which the reference of the second
merge is found through the redirection. -/
theorem mergeLandmarks_lookups_succeed_witness :
    ∃ w', mergeLandmarks Landmark.merge chainWorld chainBatch = .ok w' :=
  (mergeLandmarks_lookups_succeed Landmark.merge chainWorld chainBatch (by decide)).1

/-! ## Settled properties of the parameter parsing -/

theorem commandLine_assign_keeps_tracker_mode (c : CommandLineParameters)
    (parameter_name : String) (value : ParameterValue) :
    (c.assign parameter_name value).tracker_mode = c.tracker_mode := by
  unfold CommandLineParameters.assign
  split
  · unfold CommandLineParameters.set
    split <;> rfl
  · rfl

theorem collection_assign_keeps_tracker_mode (p : ParameterCollection)
    (struct_name parameter_name : String) (value : ParameterValue) :
    (p.assign struct_name parameter_name value).command_line_parameters.tracker_mode
      = p.command_line_parameters.tracker_mode := by
  unfold ParameterCollection.assign
  split
  · exact commandLine_assign_keeps_tracker_mode _ _ _
  · rfl

theorem parseParameter_tracker_mode (conversions : YamlConversions)
    (configuration : YamlDocument) (p : ParameterCollection) (entry : SchemaEntry) :
    (parseParameter conversions configuration p entry).command_line_parameters.tracker_mode
      = p.command_line_parameters.tracker_mode := by
  unfold parseParameter
  simp only
  split
  · exact collection_assign_keeps_tracker_mode _ _ _ _
  · rfl

theorem foldl_parseParameter_tracker_mode (conversions : YamlConversions)
    (configuration : YamlDocument) (entries : List SchemaEntry) (p : ParameterCollection) :
    (entries.foldl (parseParameter conversions configuration)
      p).command_line_parameters.tracker_mode = p.command_line_parameters.tracker_mode := by
  induction entries generalizing p with
  | nil => rfl
  | cons entry rest ih =>
    rw [List.foldl_cons, ih, parseParameter_tracker_mode]

theorem setMode_command_line_parameters (p : ParameterCollection) (mode_ : TrackerMode) :
    (setMode p mode_).command_line_parameters = p.command_line_parameters := by
  unfold setMode
  cases mode_ <;> simp only <;> split <;> rfl

theorem parseParameters_tracker_mode (conversions : YamlConversions)
    (configuration : YamlDocument) (p : ParameterCollection) :
    (parseParameters conversions configuration p).command_line_parameters.tracker_mode
      = p.command_line_parameters.tracker_mode := by
  unfold parseParameters
  rw [foldl_parseParameter_tracker_mode, setMode_command_line_parameters]

theorem parseFromFile_stereo (conversions : YamlConversions) (configuration : YamlDocument)
    (p : ParameterCollection)
    (hmode : configuration.lookup "command_line" "tracker_mode" = some "RGB_STEREO") :
    parseFromFile conversions (some configuration) p
      = .ok (parseParameters conversions configuration
          { p with command_line_parameters :=
              { p.command_line_parameters with tracker_mode := .RGB_STEREO } }) := by
  simp only [parseFromFile, hmode, if_true]

theorem parseFromFile_depth (conversions : YamlConversions) (configuration : YamlDocument)
    (p : ParameterCollection)
    (hmode : configuration.lookup "command_line" "tracker_mode" = some "RGB_DEPTH") :
    parseFromFile conversions (some configuration) p
      = .ok (parseParameters conversions configuration
          { p with command_line_parameters :=
              { p.command_line_parameters with tracker_mode := .RGB_DEPTH } }) := by
  have hne : ¬ ("RGB_DEPTH" = "RGB_STEREO") := by decide
  simp only [parseFromFile, hmode, hne, if_false, if_true]

/-- C26: for a configuration document whose `command_line.tracker_mode` is the
string `tracker_mode`, `parseFromFile` returns normally with the tracker mode
`RGB_STEREO` when the string is "RGB_STEREO" and with the tracker mode
`RGB_DEPTH` when it is "RGB_DEPTH"; for every other string it throws
"invalid tracker mode" with the collection as it was on entry, that is before
any parameter of the document has been assigned or counted. -/
theorem parseFromFile_accepts_exactly_two_tracker_modes (conversions : YamlConversions)
    (configuration : YamlDocument) (p : ParameterCollection) (tracker_mode : String)
    (hmode : configuration.lookup "command_line" "tracker_mode" = some tracker_mode) :
    (tracker_mode = "RGB_STEREO" →
      ∃ p', parseFromFile conversions (some configuration) p = .ok p' ∧
        p'.command_line_parameters.tracker_mode = .RGB_STEREO) ∧
    (tracker_mode = "RGB_DEPTH" →
      ∃ p', parseFromFile conversions (some configuration) p = .ok p' ∧
        p'.command_line_parameters.tracker_mode = .RGB_DEPTH) ∧
    (tracker_mode ≠ "RGB_STEREO" → tracker_mode ≠ "RGB_DEPTH" →
      parseFromFile conversions (some configuration) p = .error (.invalid_tracker_mode, p)) := by
  refine ⟨?_, ?_, ?_⟩
  · intro h
    rw [h] at hmode
    exact ⟨_, parseFromFile_stereo conversions configuration p hmode,
      parseParameters_tracker_mode _ _ _⟩
  · intro h
    rw [h] at hmode
    exact ⟨_, parseFromFile_depth conversions configuration p hmode,
      parseParameters_tracker_mode _ _ _⟩
  · intro h1 h2
    simp only [parseFromFile, hmode, h1, h2, if_false]

/-- Witness for C26: the example document with tracker mode `RGB_STEREO`. -/
theorem parseFromFile_accepts_exactly_two_tracker_modes_witness :
    ∃ p', parseFromFile exampleConversions (some documentWithTrackerMode) unsetParameters
        = .ok p' ∧ p'.command_line_parameters.tracker_mode = .RGB_STEREO :=
  (parseFromFile_accepts_exactly_two_tracker_modes exampleConversions documentWithTrackerMode
    unsetParameters "RGB_STEREO" (by decide)).1 rfl

/-- A key that is missing from the document leaves every parameter as it is;
`PARSE_PARAMETER` only counts it as detected. -/
theorem parseParameter_missing (conversions : YamlConversions) (configuration : YamlDocument)
    (p : ParameterCollection) (entry : SchemaEntry)
    (hmissing : configuration.lookup entry.yaml_group entry.parameter_name = none) :
    parseParameter conversions configuration p entry
      = { p with number_of_parameters_detected := p.number_of_parameters_detected + 1 } := by
  unfold parseParameter
  rw [hmissing]
  rfl

/-- With a valid tracker mode `parseFromFile` returns normally, whatever other
keys the document holds or misses: every `PARSE_PARAMETER` of the mode is
executed. -/
theorem parseFromFile_completes (conversions : YamlConversions) (configuration : YamlDocument)
    (p : ParameterCollection) (tracker_mode : String)
    (hmode : configuration.lookup "command_line" "tracker_mode" = some tracker_mode)
    (hvalid : tracker_mode = "RGB_STEREO" ∨ tracker_mode = "RGB_DEPTH") :
    ∃ mode_, parseFromFile conversions (some configuration) p
      = .ok ((schema mode_).foldl (parseParameter conversions configuration)
          (setMode
            { p with command_line_parameters :=
                { p.command_line_parameters with tracker_mode := mode_ } } mode_)) := by
  rcases hvalid with h | h
  · rw [h] at hmode
    exact ⟨.RGB_STEREO, parseFromFile_stereo conversions configuration p hmode⟩
  · rw [h] at hmode
    exact ⟨.RGB_DEPTH, parseFromFile_depth conversions configuration p hmode⟩

/-- C27, as stated, fails for `command_line.tracker_mode`: for a document that
holds both image topics and a dataset but no tracker mode, `parseFromFile` is
left by the `YAML::TypedBadConversion` of line 286 and none of the keys of the
document is parsed, while the same document with a tracker mode is parsed. -/
theorem missing_tracker_mode_aborts_parseFromFile :
    parseFromFile exampleConversions (some documentWithoutTrackerMode) unsetParameters
      = .error (.bad_conversion, unsetParameters) ∧
    (∃ p', parseFromFile exampleConversions (some documentWithTrackerMode) unsetParameters
        = .ok p' ∧
      p'.command_line_parameters.topic_image_left = "/camera/left/image_raw" ∧
      p'.command_line_parameters.dataset_file_name = "from_file.txt" ∧
      p'.number_of_parameters_detected = 63 ∧ p'.number_of_parameters_parsed = 3) :=
  ⟨rfl, _, rfl, by decide, by decide, by decide, by decide⟩

/-- C28: `validateParameters` throws if and only if `topic_image_left` or
`topic_image_right` is empty; `parseFromCommandLine` throws whenever one of the
two image topics is empty after the command line has been processed (lines
190-273), and when it returns normally both image topics are set. -/
theorem missing_image_topic_is_fatal :
    (∀ p : ParameterCollection,
      (∃ e, validateParameters p = .error e) ↔
        (p.command_line_parameters.topic_image_left.length = 0 ∨
          p.command_line_parameters.topic_image_right.length = 0)) ∧
    (∀ (files : FileSystem) (conversions : YamlConversions) (arguments : List String)
        (p processed : ParameterCollection),
      processCommandLine files conversions arguments p = .ok processed →
      (processed.command_line_parameters.topic_image_left.length = 0 ∨
        processed.command_line_parameters.topic_image_right.length = 0) →
      ∃ e, parseFromCommandLine files conversions arguments p = .error e) ∧
    (∀ (files : FileSystem) (conversions : YamlConversions) (arguments : List String)
        (p p' : ParameterCollection),
      parseFromCommandLine files conversions arguments p = .ok p' →
      p'.command_line_parameters.topic_image_left.length ≠ 0 ∧
        p'.command_line_parameters.topic_image_right.length ≠ 0) := by
  have hvalidate : ∀ p : ParameterCollection,
      (∃ e, validateParameters p = .error e) ↔
        (p.command_line_parameters.topic_image_left.length = 0 ∨
          p.command_line_parameters.topic_image_right.length = 0) := by
    intro p
    unfold validateParameters
    by_cases hl : p.command_line_parameters.topic_image_left.length = 0
    · simp [hl]
    · by_cases hr : p.command_line_parameters.topic_image_right.length = 0
      · simp [hl, hr]
      · simp [hl, hr]
  have hok : ∀ p p' : ParameterCollection, validateParameters p = .ok p' → p' = p := by
    intro p p' h
    unfold validateParameters at h
    split at h
    · cases h
    · split at h
      · cases h
      · cases h; rfl
  refine ⟨hvalidate, ?_, ?_⟩
  · intro files conversions arguments p processed hprocessed hempty
    unfold parseFromCommandLine
    rw [hprocessed]
    exact (hvalidate processed).2 hempty
  · intro files conversions arguments p p' h
    unfold parseFromCommandLine at h
    cases hprocessed : processCommandLine files conversions arguments p with
    | error e => rw [hprocessed] at h; cases h
    | ok processed =>
      rw [hprocessed] at h
      simp only at h
      have heq := hok processed p' h
      subst heq
      have hnot : ¬ ∃ e, validateParameters p' = .error e := by
        rintro ⟨e, he⟩
        rw [h] at he
        cases he
      rw [hvalidate] at hnot
      exact ⟨fun hl => hnot (Or.inl hl), fun hr => hnot (Or.inr hr)⟩

/-- Witness for C28: without arguments and without configuration file no topic
is set, and `parseFromCommandLine` throws. -/
theorem missing_image_topic_is_fatal_witness :
    processCommandLine noFiles exampleConversions [] unsetParameters = .ok unsetParameters ∧
    ∃ e, parseFromCommandLine noFiles exampleConversions [] unsetParameters = .error e :=
  ⟨rfl, missing_image_topic_is_fatal.2.1 noFiles exampleConversions [] unsetParameters
    unsetParameters rfl (Or.inl (by decide))⟩

theorem String.eq_empty_of_length_eq_zero (s : String) (h : s.length = 0) : s = "" := by
  cases s with
  | mk data =>
    have : data = [] := List.length_eq_zero.1 h
    subst this
    rfl

theorem setValue_dataset_file_name (c : CommandLineParameters) (option : ValueOption)
    (value : String) : (c.setValue option value).dataset_file_name = c.dataset_file_name := by
  cases option <;> rfl

theorem setFlag_dataset_file_name (c : CommandLineParameters) (option : FlagOption) :
    (c.setFlag option).dataset_file_name = c.dataset_file_name := by
  cases option <;> rfl

theorem scanArguments_cons (argument : String) (rest : List String)
    (p : ParameterCollection) :
    scanArguments (argument :: rest) p
      = match classify argument with
        | .value option =>
          match rest with
          | [] => .ok p
          | value :: rest' =>
            scanArguments rest'
              { p with
                command_line_parameters := p.command_line_parameters.setValue option value }
        | .help => .error (.help_requested, p)
        | .flag option =>
          scanArguments rest
            { p with command_line_parameters := p.command_line_parameters.setFlag option }
        | .configuration =>
          match rest with
          | [] => .ok p
          | _ :: rest' => scanArguments rest' p
        | .positional =>
          scanArguments rest
            (if p.command_line_parameters.dataset_file_name.length = 0 then
              { p with command_line_parameters :=
                  { p.command_line_parameters with dataset_file_name := argument } }
            else p) := by
  cases rest with
  | nil => simp only [scanArguments]
  | cons value rest' => rw [scanArguments]

theorem positionalArguments_cons (argument : String) (rest : List String) :
    positionalArguments (argument :: rest)
      = match classify argument with
        | .value _ =>
          match rest with
          | [] => []
          | _ :: rest' => positionalArguments rest'
        | .help => positionalArguments rest
        | .flag _ => positionalArguments rest
        | .configuration =>
          match rest with
          | [] => []
          | _ :: rest' => positionalArguments rest'
        | .positional => argument :: positionalArguments rest := by
  cases rest with
  | nil => simp only [positionalArguments]
  | cons value rest' => rw [positionalArguments]

/-- The dataset after the second loop: a dataset that is set is kept, otherwise
it is the first positional token of non-zero length. -/
theorem scanArguments_dataset_file_name :
    ∀ (n : Nat) (arguments : List String) (p p' : ParameterCollection),
      arguments.length ≤ n → scanArguments arguments p = .ok p' →
      p'.command_line_parameters.dataset_file_name
        = if p.command_line_parameters.dataset_file_name.length = 0 then
            firstNonEmpty (positionalArguments arguments)
          else p.command_line_parameters.dataset_file_name := by
  have hnil : ∀ q : ParameterCollection,
      q.command_line_parameters.dataset_file_name
        = if q.command_line_parameters.dataset_file_name.length = 0 then firstNonEmpty []
          else q.command_line_parameters.dataset_file_name := by
    intro q
    split
    · rename_i he
      rw [String.eq_empty_of_length_eq_zero _ he]
      rfl
    · rfl
  intro n
  induction n with
  | zero =>
    intro arguments p p' hn h
    have : arguments = [] := List.length_eq_zero.1 (Nat.le_zero.1 hn)
    subst this
    simp only [scanArguments, Except.ok.injEq] at h
    subst h
    exact hnil p
  | succ n ih =>
    intro arguments p p' hn h
    cases arguments with
    | nil =>
      simp only [scanArguments, Except.ok.injEq] at h
      subst h
      exact hnil p
    | cons argument rest =>
      have hrest : rest.length ≤ n := Nat.le_of_succ_le_succ hn
      rw [scanArguments_cons] at h
      rw [positionalArguments_cons]
      cases hk : classify argument with
      | value option =>
        rw [hk] at h
        cases rest with
        | nil =>
          simp only [Except.ok.injEq] at h
          subst h
          exact hnil p
        | cons value rest' =>
          simp only at h
          have := ih rest' _ p' (Nat.le_of_succ_le hrest) h
          simpa [setValue_dataset_file_name] using this
      | help =>
        rw [hk] at h
        cases h
      | flag option =>
        rw [hk] at h
        simp only at h
        have := ih rest _ p' hrest h
        simpa [setFlag_dataset_file_name] using this
      | configuration =>
        rw [hk] at h
        cases rest with
        | nil =>
          simp only [Except.ok.injEq] at h
          subst h
          exact hnil p
        | cons value rest' =>
          simp only at h
          exact ih rest' _ p' (Nat.le_of_succ_le hrest) h
      | positional =>
        rw [hk] at h
        simp only at h
        have := ih rest _ p' hrest h
        rw [this]
        by_cases he : p.command_line_parameters.dataset_file_name.length = 0
        · simp only [he, if_true]
          by_cases ha : argument.length = 0
          · simp [firstNonEmpty, ha, List.find?]
          · simp [firstNonEmpty, ha, List.find?]
        · simp only [he, if_false]

theorem validateParameters_ok (p p' : ParameterCollection)
    (h : validateParameters p = .ok p') : p' = p := by
  unfold validateParameters at h
  split at h
  · cases h
  · split at h
    · cases h
    · cases h; rfl

/-- C29, as stated, fails: with two positional tokens the dataset is the first
one, not the trailing one; and a dataset set by the configuration file is kept,
whatever positional token the command line ends with. -/
theorem trailing_positional_is_not_the_dataset :
    (∃ p', parseFromCommandLine noFiles exampleConversions
        ["-il", "left", "-ir", "right", "first.txt", "second.txt"] unsetParameters = .ok p' ∧
      p'.command_line_parameters.dataset_file_name = "first.txt") ∧
    positionalArguments ["-il", "left", "-ir", "right", "first.txt", "second.txt"]
      = ["first.txt", "second.txt"] ∧
    (∃ p', parseFromCommandLine oneFile exampleConversions
        ["-c", "configuration.yaml", "trailing.txt"] unsetParameters = .ok p' ∧
      p'.command_line_parameters.dataset_file_name = "from_file.txt") ∧
    positionalArguments ["-c", "configuration.yaml", "trailing.txt"] = ["trailing.txt"] :=
  ⟨⟨_, rfl, by decide⟩, by decide, ⟨_, rfl, by decide⟩, by decide⟩

/-- C29, amended: when `parseFromCommandLine` accepts a command line, a dataset
that is set when the arguments are scanned (before the call or by the
configuration file) is kept, and otherwise the dataset is the first positional
token of non-zero length; in particular, when no dataset is set and the command
line has exactly one positional token, such as a single trailing dataset, the
parsed `dataset_file_name` is that token. -/
theorem dataset_is_first_positional_unless_set (files : FileSystem)
    (conversions : YamlConversions) (arguments : List String)
    (p configured p' : ParameterCollection)
    (hconfigured : loadConfiguration files conversions arguments p = .ok configured)
    (h : parseFromCommandLine files conversions arguments p = .ok p') :
    p'.command_line_parameters.dataset_file_name
      = (if configured.command_line_parameters.dataset_file_name.length = 0 then
          firstNonEmpty (positionalArguments arguments)
        else configured.command_line_parameters.dataset_file_name) ∧
    (∀ token, configured.command_line_parameters.dataset_file_name.length = 0 →
      positionalArguments arguments = [token] →
      p'.command_line_parameters.dataset_file_name = token) := by
  have hmain : p'.command_line_parameters.dataset_file_name
      = (if configured.command_line_parameters.dataset_file_name.length = 0 then
          firstNonEmpty (positionalArguments arguments)
        else configured.command_line_parameters.dataset_file_name) := by
    unfold parseFromCommandLine processCommandLine at h
    rw [hconfigured] at h
    simp only at h
    cases hscan : scanArguments arguments configured with
    | error e => rw [hscan] at h; cases h
    | ok scanned =>
      rw [hscan] at h
      simp only at h
      rw [validateParameters_ok _ _ h, setMode_command_line_parameters]
      exact scanArguments_dataset_file_name arguments.length arguments configured scanned
        (le_refl _) hscan
  refine ⟨hmain, ?_⟩
  intro token hempty hpositional
  rw [hmain, if_pos hempty, hpositional]
  by_cases ht : token.length = 0
  · rw [String.eq_empty_of_length_eq_zero _ ht]
    rfl
  · simp [firstNonEmpty, List.find?, ht]

/-- Witness for the amended C29: both topics and a single trailing dataset. -/
theorem dataset_is_first_positional_unless_set_witness :
    ∃ p', parseFromCommandLine noFiles exampleConversions
        ["-il", "left", "-ir", "right", "data.txt"] unsetParameters = .ok p' ∧
      p'.command_line_parameters.dataset_file_name = "data.txt" :=
  ⟨_, rfl,
    (dataset_is_first_positional_unless_set noFiles exampleConversions
      ["-il", "left", "-ir", "right", "data.txt"] unsetParameters unsetParameters _ rfl rfl).2
      "data.txt" (by decide) (by decide)⟩

/-! ## Keys that are missing from the configuration document -/

/-- Two names of the same field are equal. -/
theorem CommandLineField.ofName_injective (parameter_name other : String)
    (field : CommandLineField)
    (h : CommandLineField.ofName parameter_name = some field)
    (h' : CommandLineField.ofName other = some field) : parameter_name = other := by
  have hdistinct : ∀ e ∈ commandLineFields, ∀ e' ∈ commandLineFields,
      e.2 = e'.2 → e.1 = e'.1 := by decide
  unfold CommandLineField.ofName at h h'
  obtain ⟨e, he, hef⟩ := Option.map_eq_some'.1 h
  obtain ⟨e', he', hef'⟩ := Option.map_eq_some'.1 h'
  have h1 : e.1 = parameter_name := by simpa using List.find?_some he
  have h2 : e'.1 = other := by simpa using List.find?_some he'
  rw [← h1, ← h2]
  exact hdistinct e (List.mem_of_find?_eq_some he) e' (List.mem_of_find?_eq_some he')
    (hef.trans hef'.symm)

theorem CommandLineParameters.get_set_ne (c : CommandLineParameters)
    (field other : CommandLineField) (value : ParameterValue) (hne : field ≠ other) :
    (c.set field value).get other = c.get other := by
  cases field <;> cases other <;> cases value <;> first | rfl | exact absurd rfl hne

theorem commandLine_value_assign_ne (c : CommandLineParameters)
    (parameter_name other : String) (value : ParameterValue) (hne : parameter_name ≠ other) :
    (c.assign parameter_name value).value other = c.value other := by
  unfold CommandLineParameters.assign CommandLineParameters.value
  cases h : CommandLineField.ofName parameter_name with
  | none => rfl
  | some field =>
    cases h' : CommandLineField.ofName other with
    | none => rfl
    | some field' =>
      have hf : field ≠ field' := by
        intro he
        subst he
        exact hne (CommandLineField.ofName_injective _ _ _ h h')
      simp only [Option.map_some', CommandLineParameters.get_set_ne c field field' value hf]

theorem ParameterStore.find_write_ne (store : ParameterStore)
    (struct_name parameter_name struct_name' parameter_name' : String) (value : ParameterValue)
    (hne : (struct_name, parameter_name) ≠ (struct_name', parameter_name')) :
    ParameterStore.find (ParameterStore.write store struct_name parameter_name value)
      struct_name' parameter_name' = ParameterStore.find store struct_name' parameter_name' := by
  unfold ParameterStore.find ParameterStore.write
  rw [List.find?_cons_of_neg _ (by simpa using hne)]
  congr 1
  induction store with
  | nil => rfl
  | cons e rest ih =>
    by_cases hk : e.1 = (struct_name', parameter_name')
    · have hk' : e.1 ≠ (struct_name, parameter_name) := by
        rw [hk]
        exact fun h => hne h.symm
      rw [List.filter_cons, if_pos (by simpa using hk'), List.find?_cons_of_pos _ (by simpa using hk),
        List.find?_cons_of_pos _ (by simpa using hk)]
    · rw [List.find?_cons_of_neg _ (by simpa using hk), List.filter_cons]
      split
      · rw [List.find?_cons_of_neg _ (by simpa using hk)]
        exact ih
      · exact ih

theorem collection_value_assign_ne (p : ParameterCollection)
    (struct_name parameter_name struct_name' parameter_name' : String) (value : ParameterValue)
    (hne : (struct_name, parameter_name) ≠ (struct_name', parameter_name')) :
    (p.assign struct_name parameter_name value).value struct_name' parameter_name'
      = p.value struct_name' parameter_name' := by
  unfold ParameterCollection.assign ParameterCollection.value
  by_cases hs : struct_name = "command_line_parameters"
  · by_cases hs' : struct_name' = "command_line_parameters"
    · have hn : parameter_name ≠ parameter_name' := by
        intro hn
        exact hne (by rw [hs, hs', hn])
      simp only [hs, hs', if_true]
      exact commandLine_value_assign_ne _ _ _ _ hn
    · simp only [hs, hs', if_true, if_false]
  · by_cases hs' : struct_name' = "command_line_parameters"
    · simp only [hs, hs', if_true, if_false]
    · simp only [hs, hs', if_false]
      exact ParameterStore.find_write_ne _ _ _ _ _ _ hne

/-- A `PARSE_PARAMETER` for another parameter, or for a key that is missing from
the document, leaves the value of a parameter as it is. -/
theorem parseParameter_value (conversions : YamlConversions) (configuration : YamlDocument)
    (p : ParameterCollection) (entry : SchemaEntry) (struct_name parameter_name : String)
    (h : (entry.struct_name, entry.parameter_name) = (struct_name, parameter_name) →
      configuration.lookup entry.yaml_group entry.parameter_name = none) :
    (parseParameter conversions configuration p entry).value struct_name parameter_name
      = p.value struct_name parameter_name := by
  by_cases hk : (entry.struct_name, entry.parameter_name) = (struct_name, parameter_name)
  · rw [parseParameter_missing conversions configuration p entry (h hk)]
    rfl
  · unfold parseParameter
    simp only
    split
    · exact collection_value_assign_ne _ _ _ _ _ _ hk
    · rfl

theorem foldl_parseParameter_value (conversions : YamlConversions)
    (configuration : YamlDocument) (struct_name parameter_name : String)
    (entries : List SchemaEntry) (p : ParameterCollection)
    (h : ∀ entry ∈ entries,
      (entry.struct_name, entry.parameter_name) = (struct_name, parameter_name) →
      configuration.lookup entry.yaml_group entry.parameter_name = none) :
    (entries.foldl (parseParameter conversions configuration) p).value struct_name
      parameter_name = p.value struct_name parameter_name := by
  induction entries generalizing p with
  | nil => rfl
  | cons entry rest ih =>
    rw [List.foldl_cons, ih _ (fun e he => h e (List.mem_cons_of_mem _ he)),
      parseParameter_value conversions configuration p entry struct_name parameter_name
        (h entry (List.mem_cons_self _ _))]

set_option maxRecDepth 100000 in
/-- No parameter is assigned by two `PARSE_PARAMETER` invocations of a mode. -/
theorem schema_parameters_distinct (mode_ : TrackerMode) :
    ∀ entry ∈ schema mode_, ∀ other ∈ schema mode_,
      (other.struct_name, other.parameter_name) = (entry.struct_name, entry.parameter_name) →
      other = entry := by
  cases mode_ <;> decide

theorem ParameterCollection.value_tracker_mode (p : ParameterCollection) (mode_ : TrackerMode)
    (struct_name parameter_name : String) :
    ({ p with command_line_parameters :=
        { p.command_line_parameters with tracker_mode := mode_ } } :
      ParameterCollection).value struct_name parameter_name
      = p.value struct_name parameter_name := by
  unfold ParameterCollection.value CommandLineParameters.value
  split
  · cases CommandLineField.ofName parameter_name with
    | none => rfl
    | some field => cases field <;> rfl
  · rfl

/-- C27, amended: for a configuration document whose `command_line.tracker_mode`
is "RGB_STEREO" or "RGB_DEPTH", `parseFromFile` returns normally and has
executed every `PARSE_PARAMETER` of that mode, whatever keys are missing; for
every key of the schema of the mode that is missing from the document, the
parameter has the value it had when the `PARSE_PARAMETER`s started (after
`setMode`), which is the value it had on entry unless `option_recover_landmarks`
was set on entry (then `setMode` has set `enable_landmark_recovery`).  The key
`command_line.tracker_mode` is not among them. -/
theorem missing_key_keeps_parameter (conversions : YamlConversions)
    (configuration : YamlDocument) (p : ParameterCollection) (tracker_mode : String)
    (hmode : configuration.lookup "command_line" "tracker_mode" = some tracker_mode)
    (hvalid : tracker_mode = "RGB_STEREO" ∨ tracker_mode = "RGB_DEPTH") :
    ∃ mode_ p',
      parseFromFile conversions (some configuration) p = .ok p' ∧
      p' = (schema mode_).foldl (parseParameter conversions configuration)
        (setMode
          { p with command_line_parameters :=
              { p.command_line_parameters with tracker_mode := mode_ } } mode_) ∧
      ∀ entry ∈ schema mode_,
        configuration.lookup entry.yaml_group entry.parameter_name = none →
        p'.value entry.struct_name entry.parameter_name
          = (setMode
              { p with command_line_parameters :=
                  { p.command_line_parameters with tracker_mode := mode_ } }
              mode_).value entry.struct_name entry.parameter_name ∧
        (p.command_line_parameters.option_recover_landmarks = false →
          p'.value entry.struct_name entry.parameter_name
            = p.value entry.struct_name entry.parameter_name) := by
  obtain ⟨mode_, hparse⟩ := parseFromFile_completes conversions configuration p tracker_mode
    hmode hvalid
  refine ⟨mode_, _, hparse, rfl, ?_⟩
  intro entry hentry hmissing
  have hkeep := foldl_parseParameter_value conversions configuration entry.struct_name
    entry.parameter_name (schema mode_)
    (setMode
      { p with command_line_parameters :=
          { p.command_line_parameters with tracker_mode := mode_ } } mode_)
    (by
      intro other hother hsame
      rw [schema_parameters_distinct mode_ entry hentry other hother hsame]
      exact hmissing)
  refine ⟨hkeep, ?_⟩
  intro hflag
  rw [hkeep]
  have hset : setMode
      { p with command_line_parameters :=
          { p.command_line_parameters with tracker_mode := mode_ } } mode_
      = { p with command_line_parameters :=
          { p.command_line_parameters with tracker_mode := mode_ } } := by
    unfold setMode
    cases mode_ <;> simp [hflag]
  rw [hset]
  exact ParameterCollection.value_tracker_mode p mode_ _ _

/-- Witness for the amended C27: the example document has a tracker mode and
neither camera info topic; the left camera info topic is as on entry and the
document is parsed to its end. -/
theorem missing_key_keeps_parameter_witness :
    ∃ mode_ p',
      parseFromFile exampleConversions (some documentWithTrackerMode) unsetParameters
        = .ok p' ∧
      p' = (schema mode_).foldl (parseParameter exampleConversions documentWithTrackerMode)
        (setMode
          { unsetParameters with command_line_parameters :=
              { unsetParameters.command_line_parameters with tracker_mode := mode_ } }
          mode_) ∧
      p'.value "command_line_parameters" "topic_camera_info_left"
        = unsetParameters.value "command_line_parameters" "topic_camera_info_left" := by
  obtain ⟨mode_, p', h1, h2, h3⟩ := missing_key_keeps_parameter exampleConversions
    documentWithTrackerMode unsetParameters "RGB_STEREO" (by decide) (Or.inl rfl)
  refine ⟨mode_, p', h1, h2, ?_⟩
  have hmem : ({ yaml_group := "command_line", struct_name := "command_line_parameters"
                 parameter_name := "topic_camera_info_left", parameter_type := .string } :
      SchemaEntry) ∈ schema mode_ := by
    cases mode_ <;> simp [schema, commandLineSchema]
  exact (h3 _ hmem (by decide)).2 rfl

/-! ## Settled properties: frame effects of the track bookkeeping -/

/-- C37: without a previous frame `createLocalMap` returns false and leaves the
world map as it is, with its accumulators, pending window, local maps and
relocalized flag; the map has no previous frame after `createFrame` for the
very first frame and after `breakTrack`. -/
theorem createLocalMap_without_previous_frame_is_idle :
    (∀ (w : WorldMap) (drop_framepoints_ : Bool)
        (distance_last_to_current degrees_last_to_current : real),
      w._previous_frame = none →
      createLocalMap add w drop_framepoints_ distance_last_to_current degrees_last_to_current
        = some (false, w)) ∧
    (∀ w : WorldMap, w._current_frame = none → (createFrame w).2._previous_frame = none) ∧
    (∀ (w w' : WorldMap) (frame_ : Identifier),
      breakTrack w frame_ = some w' → w'._previous_frame = none) := by
  refine ⟨?_, ?_, ?_⟩
  · intro w drop_framepoints_ d r h
    rw [createLocalMap_eq, h]
  · intro w h
    rw [(createFrame_fields w).2.2.1, h]
  · intro w w' frame_ h
    unfold breakTrack at h
    cases hf : w._frames.find frame_ with
    | none => simp [hf] at h
    | some frame =>
      simp only [hf, resetWindowForLocalMapCreation, Bool.false_eq_true, if_false,
        Option.some.injEq] at h
      subst h
      rfl

/-- Witness for C37: right after the track break at frame 5, and at frame 0 of a
fresh map. -/
theorem createLocalMap_without_previous_frame_is_idle_witness :
    createLocalMap exactSum worldAfterBreak true 1 1 = some (false, worldAfterBreak) ∧
    createLocalMap exactSum (createFrame (WorldMap.fresh runParameters)).2 false 1 1
      = some (false, (createFrame (WorldMap.fresh runParameters)).2) :=
  ⟨(@createLocalMap_without_previous_frame_is_idle exactSum).1 worldAfterBreak true 1 1
      (by with_unfolding_all rfl),
    (@createLocalMap_without_previous_frame_is_idle exactSum).1 _ false 1 1
      ((@createLocalMap_without_previous_frame_is_idle exactSum).2.1 _ rfl)⟩

theorem createFrame_saved_pointers (w : WorldMap) :
    (createFrame w).2._last_frame_before_track_break = w._last_frame_before_track_break ∧
      (createFrame w).2._last_local_map_before_track_break
        = w._last_local_map_before_track_break := by
  unfold createFrame
  cases w._current_frame <;> exact ⟨rfl, rfl⟩

theorem resetWindow_saved_pointers (w w' : WorldMap) (drop_framepoints_ : Bool)
    (h : resetWindowForLocalMapCreation w drop_framepoints_ = some w') :
    w'._last_frame_before_track_break = w._last_frame_before_track_break ∧
      w'._last_local_map_before_track_break = w._last_local_map_before_track_break := by
  unfold resetWindowForLocalMapCreation at h
  split at h
  · split at h
    · simp only [Option.some.injEq] at h; subst h; exact ⟨rfl, rfl⟩
    · cases h
  · simp only [Option.some.injEq] at h; subst h; exact ⟨rfl, rfl⟩

theorem construct_saved_pointers (w created : WorldMap)
    (h : LocalMap.construct w = some created) :
    created._last_frame_before_track_break = w._last_frame_before_track_break ∧
      created._last_local_map_before_track_break = w._last_local_map_before_track_break := by
  unfold LocalMap.construct at h
  split at h
  · cases h
  · simp only [Option.some.injEq] at h; subst h; exact ⟨rfl, rfl⟩

theorem rooted_saved_pointers (created : WorldMap) :
    created.rooted._last_frame_before_track_break = created._last_frame_before_track_break ∧
      created.rooted._last_local_map_before_track_break
        = created._last_local_map_before_track_break := by
  unfold WorldMap.rooted
  split <;> exact ⟨rfl, rfl⟩

theorem createLocalMap_saved_pointers (w w' : WorldMap) (drop_framepoints_ b : Bool)
    (distance_last_to_current degrees_last_to_current : real)
    (h : createLocalMap add w drop_framepoints_ distance_last_to_current
      degrees_last_to_current = some (b, w')) :
    w'._last_frame_before_track_break = w._last_frame_before_track_break ∧
      w'._last_local_map_before_track_break = w._last_local_map_before_track_break := by
  rcases createLocalMap_cases _ _ _ _ _ _ h with ⟨_, _, rfl⟩ | ⟨current, _, _, hcase⟩
  · exact ⟨rfl, rfl⟩
  · rcases hcase with ⟨_, _, rfl⟩ | ⟨_, _, created, hcreated, _, _, hreset⟩
    · exact ⟨rfl, rfl⟩
    · obtain ⟨a1, a2⟩ := resetWindow_saved_pointers _ _ _ hreset
      obtain ⟨b1, b2⟩ := rooted_saved_pointers created
      obtain ⟨c1, c2⟩ := construct_saved_pointers _ _ hcreated
      exact ⟨a1.trans (b1.trans c1), a2.trans (b2.trans c2)⟩

theorem breakTrack_saved_pointers (w w' : WorldMap) (frame_ : Identifier)
    (h : breakTrack w frame_ = some w') :
    (w._last_frame_before_track_break ≠ none →
      w'._last_frame_before_track_break = w._last_frame_before_track_break ∧
        w'._last_local_map_before_track_break = w._last_local_map_before_track_break) ∧
    (w._last_frame_before_track_break = none →
      w'._last_frame_before_track_break = w._previous_frame ∧
        w'._last_local_map_before_track_break = w._current_local_map) := by
  unfold breakTrack at h
  cases hf : w._frames.find frame_ with
  | none => simp [hf] at h
  | some frame =>
    simp only [hf, resetWindowForLocalMapCreation, Bool.false_eq_true, if_false,
      Option.some.injEq] at h
    subst h
    constructor
    · intro hs
      simp [hs]
    · intro hs
      simp [hs]

/-- C36: while the track is broken (the saved last frame before the track break
is not null) and no relocalization takes place, `breakTrack` does not write the
saved pointers: after any sequence of `createFrame`, `createLocalMap` and
`breakTrack` calls, with any number of further track breaks, the two saved
pointers are the frame and the local map saved at the first break. -/
theorem breakTrack_keeps_first_saved_pointers (w w' : WorldMap)
    (hsaved : w._last_frame_before_track_break ≠ none)
    (h : WithoutRelocalization add w w') :
    w'._last_frame_before_track_break = w._last_frame_before_track_break ∧
      w'._last_local_map_before_track_break = w._last_local_map_before_track_break := by
  induction h with
  | start => exact ⟨rfl, rfl⟩
  | createFrame v _ ih =>
    obtain ⟨a1, a2⟩ := createFrame_saved_pointers v
    exact ⟨a1.trans ih.1, a2.trans ih.2⟩
  | createLocalMap v v' drop_framepoints_ b d r _ hc ih =>
    obtain ⟨a1, a2⟩ := createLocalMap_saved_pointers v v' drop_framepoints_ b d r hc
    exact ⟨a1.trans ih.1, a2.trans ih.2⟩
  | breakTrack v v' frame_ _ hb ih =>
    have hv : v._last_frame_before_track_break ≠ none := by rw [ih.1]; exact hsaved
    obtain ⟨a1, a2⟩ := (breakTrack_saved_pointers v v' frame_ hb).1 hv
    exact ⟨a1.trans ih.1, a2.trans ih.2⟩

theorem withoutRelocalization_trackFrames (w : WorldMap) (n : Nat) :
    ∀ (v v' : WorldMap), WithoutRelocalization exactSum w v → trackFrames n v = some v' →
      WithoutRelocalization exactSum w v' := by
  induction n with
  | zero =>
    intro v v' hr h
    simp only [trackFrames, Option.some.injEq] at h
    rw [← h]
    exact hr
  | succ n ih =>
    intro v v' hr h
    simp only [trackFrames] at h
    obtain ⟨w1, h1, h2⟩ := Option.bind_eq_some.1 h
    unfold trackFrame at h1
    obtain ⟨⟨b, w''⟩, hc, rfl⟩ := Option.map_eq_some'.1 h1
    exact ih _ v'
      (WithoutRelocalization.createLocalMap _ _ false b 1 0
        (WithoutRelocalization.createFrame v hr) hc) h2

/-- Witness for C36: the track breaks at frame 5, where frame 4 and local map 0
are saved, and again at frame 9; the saved pointers are still frame 4 and local
map 0. -/
theorem breakTrack_keeps_first_saved_pointers_witness :
    worldAfterBreak._last_frame_before_track_break = some 4 ∧
    worldAfterBreak._last_local_map_before_track_break = some 0 ∧
    worldAfterSecondBreak._last_frame_before_track_break
      = worldAfterBreak._last_frame_before_track_break ∧
    worldAfterSecondBreak._last_local_map_before_track_break
      = worldAfterBreak._last_local_map_before_track_break :=
  ⟨by with_unfolding_all rfl, by with_unfolding_all rfl,
    breakTrack_keeps_first_saved_pointers worldAfterBreak worldAfterSecondBreak
      (by with_unfolding_all decide)
      (WithoutRelocalization.breakTrack
        (createFrame ((trackFrames 3 worldAfterBreak).getD (WorldMap.fresh runParameters))).2
        worldAfterSecondBreak 9
        (WithoutRelocalization.createFrame _
          (withoutRelocalization_trackFrames worldAfterBreak 3 worldAfterBreak _
            WithoutRelocalization.start (by with_unfolding_all rfl)))
        (by with_unfolding_all rfl))⟩

theorem StdMap.bind_find_modify {V α : Type} (m : StdMap V) (x y : Identifier) (g : V → V)
    (π : V → Option α) (hg : ∀ v, π (g v) = π v) :
    (StdMap.find (StdMap.modify m x g) y).bind π = (StdMap.find m y).bind π := by
  rw [StdMap.find_modify]
  by_cases h : y = x
  · subst h
    cases StdMap.find m y <;> simp [hg]
  · simp [h]

theorem StdMap.find_modify_ne {V : Type} (m : StdMap V) (x y : Identifier) (g : V → V)
    (h : y ≠ x) : StdMap.find (StdMap.modify m x g) y = StdMap.find m y := by
  rw [StdMap.find_modify, if_neg h]

/-- C39: `setTrack(frame)` writes the root pointer of the given frame and of the
local map of that frame only: the root pointer of every other frame and of
every other local map is as before, so that the frames created between the
track break and the relocalized frame still have the root assigned at the
break. -/
theorem setTrack_writes_two_roots_only (w w' : WorldMap) (frame_ : Identifier)
    (h : setTrack w frame_ = some w') :
    (∀ a, a ≠ frame_ → w'.root a = w.root a) ∧
    (∀ m, w.localMap frame_ ≠ some m → w'.rootLocalMap m = w.rootLocalMap m) := by
  unfold setTrack at h
  cases hf : w._frames.find frame_ with
  | none => simp [hf] at h
  | some frame =>
    simp only [hf] at h
    split at h
    · rename_i local_map last_local_map last_frame hlm _ _
      split at h
      · simp only [Option.some.injEq] at h
        subst h
        constructor
        · intro a ha
          simp only [WorldMap.root, stitch]
          rw [StdMap.find_modify_ne _ _ _ _ ha]
          refine (StdMap.bind_find_modify _ _ _ _ _ ?_).trans ?_
          · intro _; rfl
          · rw [StdMap.find_modify_ne _ _ _ _ ha]
        · intro m hm
          have hm' : m ≠ local_map := by
            intro he
            apply hm
            simp [WorldMap.localMap, hf, hlm, he]
          simp only [WorldMap.rootLocalMap, stitch]
          rw [StdMap.find_modify_ne _ _ _ _ hm']
          refine (StdMap.bind_find_modify _ _ _ _ _ ?_).trans ?_
          · intro _; rfl
          · rw [StdMap.find_modify_ne _ _ _ _ hm']
      · cases h
    · cases h

/-- Witness for C39: the relocalization at frame 20 after the break at frame 5;
frame 10 keeps the root 5 assigned at the break, frame 20 gets root 0. -/
theorem setTrack_writes_two_roots_only_witness :
    (∃ w', setTrack worldBeforeRelocalization 20 = some w' ∧
      w'.root 10 = worldBeforeRelocalization.root 10 ∧ w'.root 20 = some 0) ∧
    worldBeforeRelocalization.root 10 = some 5 := by
  refine ⟨?_, by with_unfolding_all rfl⟩
  have h : setTrack worldBeforeRelocalization 20
      = some ((setTrack worldBeforeRelocalization 20).getD worldBeforeRelocalization) := by
    with_unfolding_all rfl
  exact ⟨_, h,
    (setTrack_writes_two_roots_only worldBeforeRelocalization _ 20 h).1 10 (by decide),
    by with_unfolding_all rfl⟩

/-! ## Settled properties: correspondences that are not inliers, and the cache -/

theorem filterStep_outlier (f : FilterState) (c : Correspondence) (h : c.is_inlier = false) :
    filterStep f c = f := by
  simp [filterStep, h]

theorem foldl_filterStep_dropOutliers (cs : List Correspondence) (f : FilterState) :
    (cs.filter fun c => c.is_inlier).foldl filterStep f = cs.foldl filterStep f := by
  induction cs generalizing f with
  | nil => rfl
  | cons c cs ih =>
    cases h : c.is_inlier with
    | false =>
      rw [List.filter_cons, if_neg (by simp [h]), List.foldl_cons, filterStep_outlier f c h]
      exact ih f
    | true =>
      rw [List.filter_cons, if_pos h, List.foldl_cons, List.foldl_cons]
      exact ih _

theorem foldl_closures_dropOutliers (closures_ : List ClosureConstraint) (f : FilterState) :
    (dropOutliers closures_).foldl
        (fun f closure => closure.landmark_correspondences.foldl filterStep f) f
      = closures_.foldl
        (fun f closure => closure.landmark_correspondences.foldl filterStep f) f := by
  induction closures_ generalizing f with
  | nil => rfl
  | cons cl cls ih =>
    simp only [dropOutliers, List.map_cons, List.foldl_cons, foldl_filterStep_dropOutliers]
    exact ih _

theorem foldl_filterStep_all_outliers (cs : List Correspondence) (f : FilterState)
    (h : ∀ c ∈ cs, c.is_inlier = false) : cs.foldl filterStep f = f := by
  induction cs with
  | nil => rfl
  | cons c cs ih =>
    simp only [List.foldl_cons, filterStep_outlier f c (h c (List.mem_cons_self _ _))]
    exact ih (fun c' hc' => h c' (List.mem_cons_of_mem _ hc'))

theorem foldl_closures_all_outliers (closures_ : List ClosureConstraint) (f : FilterState)
    (h : ∀ closure ∈ closures_, ∀ c ∈ closure.landmark_correspondences,
      c.is_inlier = false) :
    closures_.foldl (fun f closure => closure.landmark_correspondences.foldl filterStep f) f
      = f := by
  induction closures_ with
  | nil => rfl
  | cons cl cls ih =>
    simp only [List.foldl_cons,
      foldl_filterStep_all_outliers _ f (h cl (List.mem_cons_self _ _))]
    exact ih (fun cl' hcl' => h cl' (List.mem_cons_of_mem _ hcl'))

/-- C35: correspondences that are not inliers do not influence merging: for
every batch, `mergeLandmarks` gives the same result (the same world map, on
the same way out) as on the batch from which all correspondences with
`is_inlier = false` are taken out, and a batch that holds no inlier makes the
call return with the landmark table, the tracked-landmark cache and the
merged-landmark counter unchanged. -/
theorem mergeLandmarks_ignores_outliers
    (merge : Landmark → Landmark → Landmark) (w : WorldMap)
    (closures_ : List ClosureConstraint) :
    mergeLandmarks merge w (dropOutliers closures_) = mergeLandmarks merge w closures_ ∧
      ((∀ closure ∈ closures_, ∀ c ∈ closure.landmark_correspondences,
          c.is_inlier = false) →
        mergeLandmarks merge w closures_ = .ok w) := by
  constructor
  · have hf : filterCorrespondences (dropOutliers closures_) = filterCorrespondences closures_ :=
      foldl_closures_dropOutliers closures_ _
    simp only [mergeLandmarks, mergeRun, hf]
  · intro h
    have hf : filterCorrespondences closures_
        = { landmark_queries_to_references_filtered := [],
            landmark_references_to_queries_filtered := [] } :=
      foldl_closures_all_outliers closures_ _ h
    simp [mergeLandmarks, mergeRun, hf, mergeLoop, MergeState.start, StdMap.size]

/-- Witness for C35: the scenario batch with two outliers added. -/
theorem mergeLandmarks_ignores_outliers_witness :
    mergeLandmarks Landmark.merge scenarioWorld (dropOutliers outlierBatch)
        = mergeLandmarks Landmark.merge scenarioWorld outlierBatch ∧
      dropOutliers outlierBatch = scenarioBatch ∧
      mergeLandmarks Landmark.merge scenarioWorld onlyOutliersBatch = .ok scenarioWorld :=
  ⟨(mergeLandmarks_ignores_outliers Landmark.merge scenarioWorld outlierBatch).1,
    by decide,
    (mergeLandmarks_ignores_outliers Landmark.merge scenarioWorld onlyOutliersBatch).2
      (by decide)⟩

theorem performMerge_cacheOk (merge : Landmark → Landmark → Landmark) (s : MergeState)
    (q ref : Identifier) (lq lr : Landmark)
    (href : s._landmarks.find ref = some lr) (hne : q ≠ ref) (h : CacheOk s) :
    CacheOk (performMerge merge s q ref lq lr) := by
  intro y hy
  simp only [performMerge, retrack, List.mem_map] at hy
  obtain ⟨t, ht, hty⟩ := hy
  have href' : ((performMerge merge s q ref lq lr)._landmarks.find ref).isSome = true := by
    simp only [performMerge, StdMap.find_erase, StdMap.find_assign]
    rw [if_neg (fun he => hne he.symm)]
    simp [href]
  by_cases hc : t = q ∨ t = ref
  · rw [if_pos hc] at hty
    rw [← hty]
    exact href'
  · rw [if_neg hc] at hty
    rw [← hty]
    have h1 : ¬ t = q := fun he => hc (Or.inl he)
    have h2 : ¬ t = ref := fun he => hc (Or.inr he)
    simp only [performMerge, StdMap.find_erase, StdMap.find_assign, h1, h2, if_false]
    exact h t ht

/-- When every landmark named by an inlier correspondence is in the table, both
loops run to the end. -/
theorem mergeRun_completes (merge : Landmark → Landmark → Landmark)
    (w : WorldMap) (closures_ : List ClosureConstraint)
    (hpresent : ∀ closure ∈ closures_, ∀ c ∈ closure.landmark_correspondences,
      c.is_inlier = true →
        (w._landmarks.find c.query).isSome = true ∧
        (w._landmarks.find c.reference).isSome = true) :
    ∃ s, mergeRun merge w closures_ = .ok s :=
  mergeLoop_completes merge w._landmarks _ (MergeState.start w)
    (filterCorrespondences_queryMapOk closures_) (mergedOk_start w)
    (by intro x hx; simp [MergeState.start, StdMap.find] at hx) (covered_start w)
    (filterCorrespondences_ids (fun x => (w._landmarks.find x).isSome = true) closures_
      hpresent)

/-- C31: if on entry every entry of the tracked-landmark cache is in the
landmark table and both landmarks of every inlier correspondence are in the
table, then `mergeLandmarks` returns normally and afterwards every entry of the
cache is in the table; every landmark that absorbed another one in the call is
still in the table at the end. -/
theorem mergeLandmarks_keeps_cache_valid (merge : Landmark → Landmark → Landmark)
    (w : WorldMap) (closures_ : List ClosureConstraint)
    (hcache : ∀ x ∈ w._currently_tracked_landmarks, (w._landmarks.find x).isSome = true)
    (hpresent : ∀ closure ∈ closures_, ∀ c ∈ closure.landmark_correspondences,
      c.is_inlier = true →
        (w._landmarks.find c.query).isSome = true ∧
        (w._landmarks.find c.reference).isSome = true) :
    ∃ w', mergeLandmarks merge w closures_ = .ok w' ∧
      (∀ x ∈ w'._currently_tracked_landmarks, (w'._landmarks.find x).isSome = true) ∧
      (∀ q r, (mergedRecord merge w closures_).find q = some r →
        (w'._landmarks.find r).isSome = true) := by
  obtain ⟨s, hs⟩ := mergeRun_completes merge w closures_ hpresent
  have hP := mergeLoop_induction merge CacheOk
    (fun s q r0 ref lq lr _ _ _ hr hne hP =>
      performMerge_cacheOk merge s q ref lq lr (lookupReference_spec s r0 ref lr hr).1 hne hP)
    _ (MergeState.start w) (filterCorrespondences_queryMapOk closures_) (mergedOk_start w)
    (by intro x hx; simp [MergeState.start, StdMap.find] at hx) hcache
  have hM := mergeRun_mergedOk merge w closures_
  have hrun : mergeLoop merge
      (filterCorrespondences closures_).landmark_queries_to_references_filtered
      (MergeState.start w) = .ok s := hs
  rw [hrun] at hP
  rw [hs] at hM
  refine ⟨_, by unfold mergeLandmarks; rw [hs], ?_, ?_⟩
  · exact hP
  · intro q r hqr
    unfold mergedRecord at hqr
    rw [hs] at hqr
    exact (hM q r hqr).2.1

/-! ## Settled properties: the first local map after a track break -/

/-- Witness for C31: the merge scenario, all of whose cache entries and named
landmarks are in the table. -/
theorem mergeLandmarks_keeps_cache_valid_witness :
    ∃ w', mergeLandmarks Landmark.merge scenarioWorld scenarioBatch = .ok w' ∧
      ∀ x ∈ w'._currently_tracked_landmarks, (w'._landmarks.find x).isSome = true := by
  obtain ⟨w', h1, h2, _⟩ := mergeLandmarks_keeps_cache_valid Landmark.merge scenarioWorld
    scenarioBatch (by decide) (by decide)
  exact ⟨w', h1, h2⟩

/-- The local map that a call of `createLocalMap` appends has the former current
local map as its previous local map. -/
theorem createLocalMap_created_previous (w w' : WorldMap) (drop_framepoints_ : Bool)
    (distance_last_to_current degrees_last_to_current : real)
    (h : createLocalMap add w drop_framepoints_ distance_last_to_current
      degrees_last_to_current = some (true, w')) :
    w'._local_maps.getLast?.map (fun p => p.2._previous) = some w._current_local_map := by
  rcases createLocalMap_cases _ _ _ _ _ _ h with ⟨_, hb, _⟩ | ⟨current, hc, _, hcase⟩
  · cases hb
  rcases hcase with ⟨_, hb, _⟩ | ⟨_, _, created, hcreated, _, _, hreset⟩
  · cases hb
  obtain ⟨anchor, linked, _, _, hlm, hcur, hroot, _⟩ := construct_fields _ _ hcreated
  obtain ⟨_, _, _, q4, _⟩ := resetWindow_fields _ _ _ hreset
  obtain ⟨_, _, _, _, _, r6, r7⟩ := rooted_fields created
  rw [q4]
  cases hr : created._root_local_map with
  | some root =>
    rw [(r6 root hr).2, hlm]
    simp [WorldMap.moved]
  | none =>
    rw [(r7 _ hr hcur).2, hlm, StdMap.modify_append]
    simp [StdMap.modify, WorldMap.moved]

/-- The fields of the map after `breakTrack`. -/
theorem breakTrack_fields (w w' : WorldMap) (frame_ : Identifier)
    (h : breakTrack w frame_ = some w') :
    (w._frames.find frame_).isSome = true ∧ w'._root_local_map = none ∧
      w'._frame_queue_for_local_map = [] ∧ w'._current_local_map = w._current_local_map ∧
      w'.frame_instances = w.frame_instances ∧ w'._previous_frame = none ∧
      w'._root_frame = some frame_ ∧ w'._current_frame = w._current_frame ∧
      w'._local_maps = w._local_maps ∧ w'.local_map_instances = w.local_map_instances := by
  unfold breakTrack at h
  cases hf : w._frames.find frame_ with
  | none => simp [hf] at h
  | some frame =>
    simp only [hf, resetWindowForLocalMapCreation, Bool.false_eq_true, if_false,
      Option.some.injEq] at h
    subst h
    exact ⟨rfl, rfl, rfl, rfl, rfl, rfl, rfl, rfl, rfl, rfl⟩

/-- On the way from a track break to the next local map there is no root local
map, the current local map is the one from before the break and the window
holds frames created after the break only. -/
theorem withoutLocalMap_invariant (broken v : WorldMap) (h : WithoutLocalMap add broken v)
    (hI : BookkeepingOk broken) (hroot : broken._root_local_map = none)
    (hwindow : broken._frame_queue_for_local_map = []) :
    BookkeepingOk v ∧ v._root_local_map = none ∧
      v._current_local_map = broken._current_local_map ∧
      (∀ x ∈ v._frame_queue_for_local_map, broken.frame_instances ≤ x) ∧
      broken.frame_instances ≤ v.frame_instances := by
  induction h with
  | start =>
    refine ⟨hI, hroot, rfl, ?_, le_refl _⟩
    intro x hx
    rw [hwindow] at hx
    cases hx
  | createFrame v _ ih =>
    obtain ⟨i1, i2, i3, i4, i5⟩ := ih
    obtain ⟨_, _, _, f4, f5, _, _, _, _, _, f11, f12⟩ := createFrame_fields v
    refine ⟨bookkeepingOk_createFrame v i1, f12.trans i2, f11.trans i3, ?_, ?_⟩
    · intro x hx
      rw [f4, List.mem_append, List.mem_singleton] at hx
      rcases hx with hx | hx
      · exact i4 x hx
      · rw [hx]; exact i5
    · rw [f5]
      exact Nat.le_succ_of_le i5
  | createLocalMap v v' drop_framepoints_ d r _ hc ih =>
    obtain ⟨i1, i2, i3, i4, i5⟩ := ih
    refine ⟨bookkeepingOk_createLocalMap _ _ _ _ _ _ i1 hc, ?_⟩
    rcases createLocalMap_cases _ _ _ _ _ _ hc with ⟨_, _, rfl⟩ | ⟨current, _, _, hcase⟩
    · exact ⟨i2, i3, i4, i5⟩
    · rcases hcase with ⟨_, _, rfl⟩ | ⟨_, hb, _⟩
      · exact ⟨i2, i3, i4, i5⟩
      · cases hb
  | breakTrack v v' frame_ _ hb ih =>
    obtain ⟨i1, i2, i3, i4, i5⟩ := ih
    obtain ⟨_, b2, b3, b4, b5, _⟩ := breakTrack_fields v v' frame_ hb
    refine ⟨bookkeepingOk_breakTrack v v' frame_ i1 hb, b2, b4.trans i3, ?_, ?_⟩
    · intro x hx
      rw [b3] at hx
      cases hx
    · rw [b5]; exact i5

/-- C38: after `breakTrack(frame)` in a reachable state there is no root local
map and the pending window is empty.  The first local map that `createLocalMap`
creates afterwards (after any number of `createFrame` calls, `createLocalMap`
calls that return false and further track breaks) is the current and the root
local map and its own root, its previous local map is the local map that was
current before the break, and the frame at which the track broke is not among
its frames. -/
theorem first_local_map_after_break_is_root (parameters_ : WorldMapParameters)
    (w broken v v' : WorldMap) (frame_ : Identifier) (drop_framepoints_ : Bool)
    (distance_last_to_current degrees_last_to_current : real)
    (hr : Reachable add parameters_ w)
    (hb : breakTrack w frame_ = some broken)
    (hq : WithoutLocalMap add broken v)
    (hc : createLocalMap add v drop_framepoints_ distance_last_to_current
      degrees_last_to_current = some (true, v')) :
    broken._root_local_map = none ∧ broken._frame_queue_for_local_map = [] ∧
    ∃ local_map,
      v'._local_maps.find v.local_map_instances = some local_map ∧
      v'._current_local_map = some v.local_map_instances ∧
      v'._root_local_map = some v.local_map_instances ∧
      local_map._root = some v.local_map_instances ∧
      local_map._previous = w._current_local_map ∧
      frame_ ∉ local_map._frames := by
  have hIw := reachable_bookkeepingOk parameters_ w hr
  obtain ⟨b1, b2, b3, b4, b5, _⟩ := breakTrack_fields w broken frame_ hb
  obtain ⟨i1, i2, i3, i4, _⟩ := withoutLocalMap_invariant broken v hq
    (bookkeepingOk_breakTrack w broken frame_ hIw hb) b2 b3
  refine ⟨b2, b3, ?_⟩
  obtain ⟨current, anchor, local_map, earlier, _, _, hmaps, hkeys, hcurmap, _, _, hfr, _, _, _,
    _, _, hnoroot, _⟩ := createLocalMap_created v v' drop_framepoints_ _ _ hc
  have hprev := createLocalMap_created_previous v v' drop_framepoints_ _ _ hc
  have hfind : v'._local_maps.find v.local_map_instances = some local_map := by
    rw [hmaps, StdMap.find_append_singleton]
    have hnone : StdMap.find earlier v.local_map_instances = none := by
      rw [StdMap.find_eq_none_iff]
      intro p hp
      exact Nat.ne_of_lt (StdMap.keys_bound _ _ _ hkeys i1.2.2.2.2 p hp)
    rw [hnone]
    simp
  obtain ⟨r1, r2⟩ := hnoroot i2
  refine ⟨local_map, hfind, hcurmap, r1, r2, ?_, ?_⟩
  · rw [hmaps] at hprev
    simp at hprev
    rw [hprev, i3, b4]
  · rw [hfr]
    intro hmem
    have h1 := i4 frame_ hmem
    have h2 : frame_ < w.frame_instances := hIw.1 frame_ b1
    rw [b5] at h1
    exact absurd h2 (not_lt.2 h1)

theorem withoutLocalMap_step (w v v' : WorldMap) (drop_framepoints_ : Bool)
    (distance_last_to_current degrees_last_to_current : real)
    (h : WithoutLocalMap add w v)
    (hc : createLocalMap add (createFrame v).2 drop_framepoints_ distance_last_to_current
      degrees_last_to_current = some (false, v')) : WithoutLocalMap add w v' :=
  WithoutLocalMap.createLocalMap _ _ drop_framepoints_ _ _ (WithoutLocalMap.createFrame v h) hc

theorem worldBeforeBreak_reachable : Reachable exactSum runParameters worldBeforeBreak := by
  have h : (createFrame worldAtFrameFour).2 = worldBeforeBreak := by with_unfolding_all rfl
  rw [← h]
  exact Reachable.createFrame _
    (reachable_trackFrames runParameters 5 (WorldMap.fresh runParameters) _ Reachable.fresh
      (by with_unfolding_all rfl))

/-- Witness for C38: the track breaks at frame 5 (local map 0 is current); frames
6 and 7 create no local map; local map 1 is created at frame 8 with frames 6 to
8, as its own root and with local map 0 as previous local map. -/
theorem first_local_map_after_break_is_root_witness :
    breakTrack worldBeforeBreak 5 = some worldAfterBreak ∧
    createLocalMap exactSum worldAtFrameEight false 1 0 = some (true, worldAfterFrameEight) ∧
    worldAfterBreak._root_local_map = none ∧
    worldAfterBreak._frame_queue_for_local_map = [] ∧
    ∃ local_map,
      worldAfterFrameEight._local_maps.find worldAtFrameEight.local_map_instances
        = some local_map ∧
      worldAfterFrameEight._current_local_map = some worldAtFrameEight.local_map_instances ∧
      worldAfterFrameEight._root_local_map = some worldAtFrameEight.local_map_instances ∧
      local_map._root = some worldAtFrameEight.local_map_instances ∧
      local_map._previous = worldBeforeBreak._current_local_map ∧
      5 ∉ local_map._frames := by
  have hb : breakTrack worldBeforeBreak 5 = some worldAfterBreak := by with_unfolding_all rfl
  have hc : createLocalMap exactSum worldAtFrameEight false 1 0 = some (true, worldAfterFrameEight) := by
    with_unfolding_all rfl
  have h1 : WithoutLocalMap exactSum worldAfterBreak
      ((trackFrames 1 worldAfterBreak).getD (WorldMap.fresh runParameters)) :=
    withoutLocalMap_step _ _ _ false 1 0 WithoutLocalMap.start (by with_unfolding_all rfl)
  have h2 : WithoutLocalMap exactSum worldAfterBreak
      ((trackFrames 2 worldAfterBreak).getD (WorldMap.fresh runParameters)) :=
    withoutLocalMap_step _ _ _ false 1 0 h1 (by with_unfolding_all rfl)
  have h3 : WithoutLocalMap exactSum worldAfterBreak worldAtFrameEight := by
    have he : (createFrame ((trackFrames 2 worldAfterBreak).getD
        (WorldMap.fresh runParameters))).2 = worldAtFrameEight := by with_unfolding_all rfl
    rw [← he]
    exact WithoutLocalMap.createFrame _ h2
  exact ⟨hb, hc,
    first_local_map_after_break_is_root runParameters worldBeforeBreak worldAfterBreak
      worldAtFrameEight worldAfterFrameEight 5 false 1 0 worldBeforeBreak_reachable hb h3 hc⟩

theorem reachable_trackAlong (parameters_ : WorldMapParameters) (drop_framepoints_ : Bool) :
    ∀ (motions : List (real × real)) (w : WorldMap) (r : List Bool × WorldMap),
      Reachable add parameters_ w → trackAlong add drop_framepoints_ motions w = some r →
      Reachable add parameters_ r.2 := by
  intro motions
  induction motions with
  | nil =>
    intro w r hr h
    simp only [trackAlong, Option.some.injEq] at h
    rw [← h]
    exact hr
  | cons motion rest ih =>
    intro w r hr h
    simp only [trackAlong] at h
    obtain ⟨⟨b, w1⟩, h1, h2⟩ := Option.bind_eq_some.1 h
    obtain ⟨s, hs, rfl⟩ := Option.map_eq_some'.1 h2
    exact ih w1 s
      (Reachable.createLocalMap _ _ drop_framepoints_ b _ _ (Reachable.createFrame w hr) h1) hs

/-- C32 fails on the code: in the run with `drop_framepoints`, local map 0 is
created at frame 2, which empties the window; at frame 3 the window holds
frame 3 only, a rotation above the threshold makes a local map due, the local
map is constructed for the window of one frame, and the second `pop_back` of
`resetWindowForLocalMapCreation` meets an empty window: the call does not
complete.  Without `drop_framepoints` the same call creates the local map. -/
theorem one_frame_window_is_popped_twice :
    Reachable exactSum runParameters worldAtFrameThree ∧
    worldAtFrameThree._frame_queue_for_local_map = [3] ∧
    localMapDue (worldAtFrameThree.moved exactSum 1 2) ∧
    ((LocalMap.construct (worldAtFrameThree.moved exactSum 1 2)).map
      fun created => created._frame_queue_for_local_map) = some [3] ∧
    createLocalMap exactSum worldAtFrameThree true 1 2 = none ∧
    (createLocalMap exactSum worldAtFrameThree false 1 2).map Prod.fst = some true := by
  refine ⟨?_, by with_unfolding_all rfl, by with_unfolding_all decide,
    by with_unfolding_all rfl, by with_unfolding_all rfl, by with_unfolding_all rfl⟩
  have he : (createFrame ((trackAlong exactSum true [(1, 0), (1, 0), (1, 0)]
      (WorldMap.fresh runParameters)).getD ([], WorldMap.fresh runParameters)).2).2
      = worldAtFrameThree := by with_unfolding_all rfl
  rw [← he]
  exact Reachable.createFrame _
    (reachable_trackAlong runParameters true [(1, 0), (1, 0), (1, 0)]
      (WorldMap.fresh runParameters) _ Reachable.fresh (by with_unfolding_all rfl))

/-- C33 fails on the code: the track breaks at frame 1, when there is no local
map yet, so that `breakTrack` saves frame 0 and a null local map.  At frame 7
(local map 1) the root of the current frame is frame 1 and not the root of
frame 0, `addLoopClosure` calls `setTrack`, and the assertion on
`_last_local_map_before_track_break` fails: neither call completes. -/
theorem early_break_saves_null_local_map :
    Reachable exactSum runParameters worldEarlyBreak ∧
    worldEarlyBreak._current_frame = some 7 ∧
    worldEarlyBreak.root 0 = some 0 ∧ worldEarlyBreak.root 7 = some 1 ∧
    worldEarlyBreak.localMap 7 = some 1 ∧
    worldEarlyBreak._last_frame_before_track_break = some 0 ∧
    worldEarlyBreak._last_local_map_before_track_break = none ∧
    setTrack worldEarlyBreak 7 = none ∧
    addLoopClosure worldEarlyBreak 1 0 [] [] 1 = none := by
  refine ⟨?_, by with_unfolding_all rfl, by with_unfolding_all rfl, by with_unfolding_all rfl,
    by with_unfolding_all rfl, by with_unfolding_all rfl, by with_unfolding_all rfl,
    by with_unfolding_all rfl, by with_unfolding_all rfl⟩
  have h0 : Reachable exactSum runParameters
      ((trackFrames 1 (WorldMap.fresh runParameters)).getD (WorldMap.fresh runParameters)) :=
    reachable_trackFrames runParameters 1 (WorldMap.fresh runParameters) _ Reachable.fresh
      (by with_unfolding_all rfl)
  have h1 : Reachable exactSum runParameters
      ((breakTrack (createFrame ((trackFrames 1 (WorldMap.fresh runParameters)).getD
        (WorldMap.fresh runParameters))).2 1).getD (WorldMap.fresh runParameters)) :=
    Reachable.breakTrack _ _ 1 (Reachable.createFrame _ h0) (by with_unfolding_all rfl)
      (by with_unfolding_all rfl)
  exact reachable_trackFrames runParameters 6 _ worldEarlyBreak h1 (by with_unfolding_all rfl)

/-! ## Batches of disjoint pairs -/

theorem foldl_closures_eq_allCorrespondences (closures_ : List ClosureConstraint)
    (f : FilterState) :
    closures_.foldl (fun f closure => closure.landmark_correspondences.foldl filterStep f) f
      = (allCorrespondences closures_).foldl filterStep f := by
  induction closures_ generalizing f with
  | nil => rfl
  | cons closure rest ih =>
    simp only [List.foldl_cons, allCorrespondences, List.foldl_append]
    exact ih _

theorem Correspondence.larger_smaller_cases (c : Correspondence) :
    (c.larger = c.query ∧ c.smaller = c.reference) ∨
      (c.larger = c.reference ∧ c.smaller = c.query) := by
  unfold Correspondence.larger Correspondence.smaller
  by_cases h : c.query < c.reference <;> simp [h]

theorem filterStep_eq (f : FilterState) (c : Correspondence) :
    filterStep f c =
      if c.is_inlier = true ∧ c.larger ≠ c.smaller then
        updateFiltered f c.larger c.smaller c.matching_count
      else f := rfl

theorem mem_namedIdentifiers (cs : List Correspondence) (x : Identifier) :
    x ∈ namedIdentifiers cs ↔ ∃ c ∈ cs, x = c.query ∨ x = c.reference := by
  induction cs with
  | nil => simp [namedIdentifiers]
  | cons c cs ih =>
    simp only [namedIdentifiers, List.mem_cons, ih]
    constructor
    · rintro (h | h | ⟨d, hd, h⟩)
      · exact ⟨c, Or.inl rfl, Or.inl h⟩
      · exact ⟨c, Or.inl rfl, Or.inr h⟩
      · exact ⟨d, Or.inr hd, h⟩
    · rintro ⟨d, hd | hd, h⟩
      · subst hd
        rcases h with h | h
        · exact Or.inl h
        · exact Or.inr (Or.inl h)
      · exact Or.inr (Or.inr ⟨d, hd, h⟩)

theorem namedIdentifiers_append (a b : List Correspondence) :
    namedIdentifiers (a ++ b) = namedIdentifiers a ++ namedIdentifiers b := by
  induction a with
  | nil => rfl
  | cons c a ih => simp [namedIdentifiers, ih]

theorem namedIdentifiers_shared (cs : List Correspondence)
    (h : (namedIdentifiers cs).Nodup) :
    ∀ c ∈ cs, c.query ≠ c.reference ∧ ∀ d ∈ cs,
      (c.query = d.query ∨ c.query = d.reference ∨ c.reference = d.query ∨
        c.reference = d.reference) → c = d := by
  induction cs with
  | nil => intro c hc; simp at hc
  | cons a cs ih =>
    simp only [namedIdentifiers, List.nodup_cons, List.mem_cons, not_or] at h
    obtain ⟨⟨hqr, hq⟩, hr, hn⟩ := h
    have hmem : ∀ d ∈ cs, d.query ∈ namedIdentifiers cs ∧ d.reference ∈ namedIdentifiers cs :=
      fun d hd => ⟨(mem_namedIdentifiers cs _).2 ⟨d, hd, Or.inl rfl⟩,
        (mem_namedIdentifiers cs _).2 ⟨d, hd, Or.inr rfl⟩⟩
    intro c hc
    rcases List.mem_cons.1 hc with hca | hcs
    · subst hca
      refine ⟨hqr, ?_⟩
      intro d hd hs
      rcases List.mem_cons.1 hd with hda | hds
      · exact hda.symm
      · exfalso
        obtain ⟨h1, h2⟩ := hmem d hds
        rcases hs with hs | hs | hs | hs
        · exact hq (hs ▸ h1)
        · exact hq (hs ▸ h2)
        · exact hr (hs ▸ h1)
        · exact hr (hs ▸ h2)
    · refine ⟨(ih hn c hcs).1, ?_⟩
      intro d hd hs
      rcases List.mem_cons.1 hd with hda | hds
      · exfalso
        subst hda
        obtain ⟨h1, h2⟩ := hmem c hcs
        rcases hs with hs | hs | hs | hs
        · exact hq (hs ▸ h1)
        · exact hr (hs ▸ h1)
        · exact hq (hs ▸ h2)
        · exact hr (hs ▸ h2)
      · exact (ih hn c hcs).2 d hds hs

theorem updateFiltered_new (f : FilterState) (q r : Identifier) (n : Count)
    (hq : f.landmark_queries_to_references_filtered.find q = none)
    (hr : f.landmark_references_to_queries_filtered.find r = none) :
    updateFiltered f q r n =
      { landmark_queries_to_references_filtered :=
          f.landmark_queries_to_references_filtered.insert q (r, n)
        landmark_references_to_queries_filtered :=
          f.landmark_references_to_queries_filtered.insert r (q, n) } := by
  unfold updateFiltered
  simp only [hq, hr]

theorem filterStep_filteredPairs (f : FilterState) (done : List Correspondence)
    (c : Correspondence) (h : FilteredPairs f done) (hin : c.is_inlier = true)
    (hne : c.larger ≠ c.smaller) (hl : ∀ d ∈ done, d.larger ≠ c.larger)
    (hs : ∀ d ∈ done, d.smaller ≠ c.smaller) :
    FilteredPairs (filterStep f c) (done ++ [c]) := by
  obtain ⟨hQ, hR, hlen⟩ := h
  have hq : f.landmark_queries_to_references_filtered.find c.larger = none := by
    rw [StdMap.find_eq_none_iff]
    intro p hp
    obtain ⟨d, hd, rfl⟩ := (hQ p).1 hp
    exact hl d hd
  have hr : f.landmark_references_to_queries_filtered.find c.smaller = none := by
    rw [StdMap.find_eq_none_iff]
    intro p hp
    obtain ⟨d, hd, hp1⟩ := hR p hp
    rw [hp1]
    exact hs d hd
  rw [filterStep_eq, if_pos ⟨hin, hne⟩, updateFiltered_new f _ _ _ hq hr]
  refine ⟨?_, ?_, ?_⟩
  · intro p
    show p ∈ StdMap.insert _ _ _ ↔ _
    unfold StdMap.insert
    rw [hq]
    show p ∈ StdMap.orderedInsert _ _ _ ↔ _
    rw [StdMap.mem_orderedInsert, hQ p]
    constructor
    · rintro (h | ⟨d, hd, h⟩)
      · exact ⟨c, List.mem_append.2 (Or.inr (List.mem_singleton.2 rfl)), h⟩
      · exact ⟨d, List.mem_append.2 (Or.inl hd), h⟩
    · rintro ⟨d, hd, h⟩
      rcases List.mem_append.1 hd with hd | hd
      · exact Or.inr ⟨d, hd, h⟩
      · rw [List.mem_singleton.1 hd] at h
        exact Or.inl h
  · intro p hp
    rcases StdMap.mem_of_mem_insert _ _ _ p hp with h | h
    · exact ⟨c, List.mem_append.2 (Or.inr (List.mem_singleton.2 rfl)), by rw [h]⟩
    · obtain ⟨d, hd, h1⟩ := hR p h
      exact ⟨d, List.mem_append.2 (Or.inl hd), h1⟩
  · show (StdMap.insert _ _ _).length = _
    rw [StdMap.length_insert_new _ _ _ hq, hlen]
    simp

theorem foldl_filterStep_filteredPairs :
    ∀ (cs done : List Correspondence) (f : FilterState),
      FilteredPairs f done → (∀ c ∈ cs, c.is_inlier = true) →
      (namedIdentifiers (done ++ cs)).Nodup →
      FilteredPairs (cs.foldl filterStep f) (done ++ cs) := by
  intro cs
  induction cs with
  | nil => intro done f h _ _; simpa using h
  | cons c cs ih =>
    intro done f h hin hn
    have happ : done ++ c :: cs = (done ++ [c]) ++ cs := by simp
    have hn' := hn
    rw [namedIdentifiers_append] at hn'
    obtain ⟨_, hcn, hdis⟩ := List.nodup_append.1 hn'
    simp only [namedIdentifiers, List.nodup_cons, List.mem_cons, not_or] at hcn
    have hq : c.query ∉ namedIdentifiers done := fun hx =>
      hdis hx (by simp [namedIdentifiers])
    have hr : c.reference ∉ namedIdentifiers done := fun hx =>
      hdis hx (by simp [namedIdentifiers])
    have hdone : ∀ d ∈ done, d.larger ∈ namedIdentifiers done ∧
        d.smaller ∈ namedIdentifiers done := by
      intro d hd
      rcases d.larger_smaller_cases with ⟨h1, h2⟩ | ⟨h1, h2⟩
      · rw [h1, h2]
        exact ⟨(mem_namedIdentifiers done _).2 ⟨d, hd, Or.inl rfl⟩,
          (mem_namedIdentifiers done _).2 ⟨d, hd, Or.inr rfl⟩⟩
      · rw [h1, h2]
        exact ⟨(mem_namedIdentifiers done _).2 ⟨d, hd, Or.inr rfl⟩,
          (mem_namedIdentifiers done _).2 ⟨d, hd, Or.inl rfl⟩⟩
    have hstep : FilteredPairs (filterStep f c) (done ++ [c]) := by
      apply filterStep_filteredPairs f done c h (hin c (List.mem_cons_self _ _))
      · rcases c.larger_smaller_cases with ⟨h1, h2⟩ | ⟨h1, h2⟩
        · rw [h1, h2]; exact hcn.1.1
        · rw [h1, h2]; exact fun e => hcn.1.1 e.symm
      · intro d hd e
        rcases c.larger_smaller_cases with ⟨h1, _⟩ | ⟨h1, _⟩
        · exact hq (h1 ▸ e ▸ (hdone d hd).1)
        · exact hr (h1 ▸ e ▸ (hdone d hd).1)
      · intro d hd e
        rcases c.larger_smaller_cases with ⟨_, h2⟩ | ⟨_, h2⟩
        · exact hr (h2 ▸ e ▸ (hdone d hd).2)
        · exact hq (h2 ▸ e ▸ (hdone d hd).2)
    rw [List.foldl_cons, happ]
    exact ih (done ++ [c]) (filterStep f c) hstep
      (fun d hd => hin d (List.mem_cons_of_mem _ hd)) (happ ▸ hn)

theorem filterCorrespondences_filteredPairs (closures_ : List ClosureConstraint)
    (hin : ∀ c ∈ allCorrespondences closures_, c.is_inlier = true)
    (hn : (namedIdentifiers (allCorrespondences closures_)).Nodup) :
    FilteredPairs (filterCorrespondences closures_) (allCorrespondences closures_) := by
  unfold filterCorrespondences
  rw [foldl_closures_eq_allCorrespondences]
  have h := foldl_filterStep_filteredPairs (allCorrespondences closures_) []
    { landmark_queries_to_references_filtered := [],
      landmark_references_to_queries_filtered := [] }
    ⟨by intro p; simp, by intro p hp; simp at hp, rfl⟩ hin (by simpa using hn)
  simpa using h

theorem sharedLocalMap_comm (a b : Landmark) : sharedLocalMap a b = sharedLocalMap b a := by
  unfold sharedLocalMap
  rw [Bool.eq_iff_iff]
  simp only [List.any_eq_true, decide_eq_true_eq]
  constructor <;>
  · rintro ⟨x, hx, y, hy, h⟩
    exact ⟨y, hy, x, hx, h.symm⟩

theorem performMerge_find_other (merge : Landmark → Landmark → Landmark) (s : MergeState)
    (q r x : Identifier) (lq lr : Landmark) (hq : x ≠ q) (hr : x ≠ r) :
    (performMerge merge s q r lq lr)._landmarks.find x = s._landmarks.find x := by
  show StdMap.find (StdMap.erase (StdMap.assign _ _ _) _) _ = _
  rw [StdMap.find_erase, if_neg hq, StdMap.find_assign, if_neg hr]

theorem performMerge_find_query (merge : Landmark → Landmark → Landmark) (s : MergeState)
    (q r : Identifier) (lq lr : Landmark) :
    (performMerge merge s q r lq lr)._landmarks.find q = none := by
  show StdMap.find (StdMap.erase (StdMap.assign _ _ _) _) _ = _
  rw [StdMap.find_erase, if_pos rfl]

theorem performMerge_find_reference (merge : Landmark → Landmark → Landmark)
    (s : MergeState) (q r : Identifier) (lq lr : Landmark) (hqr : q ≠ r)
    (hr : s._landmarks.find r = some lr) :
    (performMerge merge s q r lq lr)._landmarks.find r = some (merge lr lq) := by
  show StdMap.find (StdMap.erase (StdMap.assign _ _ _) _) _ = _
  rw [StdMap.find_erase, if_neg (fun e => hqr e.symm), StdMap.find_assign, if_pos rfl, hr]
  rfl

theorem mergeStep_merges (merge : Landmark → Landmark → Landmark) (s : MergeState)
    (p : Identifier × (Identifier × Count)) (lq lr : Landmark) (hne : p.1 ≠ p.2.1)
    (hq : s._landmarks.find p.1 = some lq) (hr : s._landmarks.find p.2.1 = some lr)
    (hshared : sharedLocalMap lq lr = false) :
    mergeStep merge s p = .ok (performMerge merge s p.1 p.2.1 lq lr) := by
  have hl : lookupReference s p.2.1 = some (p.2.1, lr) := by
    unfold lookupReference
    rw [hr]
  unfold mergeStep
  rw [hq]
  simp only [hl, if_neg hne, hshared, Bool.false_eq_true, if_false]

theorem mergeLoop_disjoint (merge : Landmark → Landmark → Landmark) :
    ∀ (rest : List (Identifier × (Identifier × Count))) (s : MergeState),
      rest.Pairwise (fun a b => a.1 ≠ b.1 ∧ a.1 ≠ b.2.1 ∧ a.2.1 ≠ b.1 ∧ a.2.1 ≠ b.2.1) →
      (∀ p ∈ rest, p.1 ≠ p.2.1 ∧ s.merged_landmark_identifiers.find p.1 = none ∧
        ∃ lq lr, s._landmarks.find p.1 = some lq ∧ s._landmarks.find p.2.1 = some lr ∧
          sharedLocalMap lq lr = false) →
      ∃ s', mergeLoop merge rest s = .ok s' ∧
        (∀ x, (∀ p ∈ rest, x ≠ p.1 ∧ x ≠ p.2.1) →
          s'._landmarks.find x = s._landmarks.find x) ∧
        (∀ p ∈ rest, s'._landmarks.find p.1 = none ∧
          ∃ lq lr, s._landmarks.find p.1 = some lq ∧ s._landmarks.find p.2.1 = some lr ∧
            s'._landmarks.find p.2.1 = some (merge lr lq)) ∧
        s'.merged_landmark_identifiers.length
          = s.merged_landmark_identifiers.length + rest.length := by
  intro rest
  induction rest with
  | nil =>
    intro s _ _
    exact ⟨s, rfl, fun _ _ => rfl, fun p hp => by simp at hp, rfl⟩
  | cons p rest ih =>
    intro s hpair hall
    obtain ⟨hp, hrest⟩ := List.pairwise_cons.1 hpair
    obtain ⟨hne, hm, lq, lr, hq, hr, hshared⟩ := hall p (List.mem_cons_self _ _)
    have hother : ∀ b ∈ rest, ∀ x, x = b.1 ∨ x = b.2.1 →
        (performMerge merge s p.1 p.2.1 lq lr)._landmarks.find x = s._landmarks.find x := by
      intro b hb x hx
      obtain ⟨h1, h2, h3, h4⟩ := hp b hb
      rcases hx with hx | hx
      · rw [hx]
        exact performMerge_find_other merge s _ _ _ lq lr (fun e => h1 e.symm)
          (fun e => h3 e.symm)
      · rw [hx]
        exact performMerge_find_other merge s _ _ _ lq lr (fun e => h2 e.symm)
          (fun e => h4 e.symm)
    have hall' : ∀ b ∈ rest, b.1 ≠ b.2.1 ∧
        (performMerge merge s p.1 p.2.1 lq lr).merged_landmark_identifiers.find b.1 = none ∧
        ∃ lq' lr', (performMerge merge s p.1 p.2.1 lq lr)._landmarks.find b.1 = some lq' ∧
          (performMerge merge s p.1 p.2.1 lq lr)._landmarks.find b.2.1 = some lr' ∧
          sharedLocalMap lq' lr' = false := by
      intro b hb
      obtain ⟨hbne, hbm, lq', lr', hbq, hbr, hbs⟩ := hall b (List.mem_cons_of_mem _ hb)
      refine ⟨hbne, ?_, lq', lr', ?_, ?_, hbs⟩
      · show StdMap.find (StdMap.insert _ _ _) _ = none
        rw [StdMap.find_insert, if_neg (fun e => (hp b hb).1 e.symm)]
        exact hbm
      · rw [hother b hb _ (Or.inl rfl)]; exact hbq
      · rw [hother b hb _ (Or.inr rfl)]; exact hbr
    obtain ⟨s', hrun, hkeep, hdone, hlen⟩ :=
      ih (performMerge merge s p.1 p.2.1 lq lr) hrest hall'
    refine ⟨s', ?_, ?_, ?_, ?_⟩
    · simp only [mergeLoop, mergeStep_merges merge s p lq lr hne hq hr hshared]
      exact hrun
    · intro x hx
      rw [hkeep x (fun b hb => hx b (List.mem_cons_of_mem _ hb))]
      exact performMerge_find_other merge s _ _ _ lq lr (hx p (List.mem_cons_self _ _)).1
        (hx p (List.mem_cons_self _ _)).2
    · intro b hb
      rcases List.mem_cons.1 hb with hb | hb
      · subst hb
        refine ⟨?_, lq, lr, hq, hr, ?_⟩
        · rw [hkeep b.1 (fun c hc => ⟨(hp c hc).1, (hp c hc).2.1⟩)]
          exact performMerge_find_query merge s _ _ lq lr
        · rw [hkeep b.2.1 (fun c hc => ⟨(hp c hc).2.2.1, (hp c hc).2.2.2⟩)]
          exact performMerge_find_reference merge s _ _ lq lr hne hr
      · obtain ⟨h1, lq', lr', h2, h3, h4⟩ := hdone b hb
        refine ⟨h1, lq', lr', ?_, ?_, h4⟩
        · rw [← hother b hb _ (Or.inl rfl)]; exact h2
        · rw [← hother b hb _ (Or.inr rfl)]; exact h3
    · rw [hlen]
      show (StdMap.insert _ _ _).length + _ = _
      rw [StdMap.length_insert_new _ _ _ hm]
      simp only [List.length_cons]
      omega

theorem shared_of_larger_smaller (c d : Correspondence)
    (h : c.larger = d.larger ∨ c.larger = d.smaller ∨ c.smaller = d.larger ∨
      c.smaller = d.smaller) :
    c.query = d.query ∨ c.query = d.reference ∨ c.reference = d.query ∨
      c.reference = d.reference := by
  rcases c.larger_smaller_cases with ⟨h1, h2⟩ | ⟨h1, h2⟩ <;>
  rcases d.larger_smaller_cases with ⟨h3, h4⟩ | ⟨h3, h4⟩ <;>
  · rw [h1, h2, h3, h4] at h
    tauto

/-- C34: for a batch of inlier correspondences in which no landmark identifier
is named twice (so that query and reference of a correspondence differ), all
named landmarks are in the table and no pair shares a local map,
`mergeLandmarks` returns normally; a landmark is in the table afterwards
exactly when it was in the table before and is not the larger identifier of a
correspondence; a landmark that no correspondence names is unchanged; the
smaller-identifier landmark of every pair is the result of merging the
larger one into it; the merged-landmark counter grows by the number of
correspondences. -/
theorem mergeLandmarks_disjoint_pairs (merge : Landmark → Landmark → Landmark)
    (w : WorldMap) (closures_ : List ClosureConstraint)
    (hin : ∀ c ∈ allCorrespondences closures_, c.is_inlier = true)
    (hn : (namedIdentifiers (allCorrespondences closures_)).Nodup)
    (hpresent : ∀ x ∈ namedIdentifiers (allCorrespondences closures_),
      (w._landmarks.find x).isSome = true)
    (hshared : ∀ c ∈ allCorrespondences closures_,
      ∀ lq ∈ w._landmarks.find c.query, ∀ lr ∈ w._landmarks.find c.reference,
        sharedLocalMap lq lr = false) :
    ∃ w', mergeLandmarks merge w closures_ = .ok w' ∧
      (∀ x, (w'._landmarks.find x).isSome = true ↔
        ((w._landmarks.find x).isSome = true ∧
          ∀ c ∈ allCorrespondences closures_, x ≠ c.larger)) ∧
      (∀ x, x ∉ namedIdentifiers (allCorrespondences closures_) →
        w'._landmarks.find x = w._landmarks.find x) ∧
      (∀ c ∈ allCorrespondences closures_, ∃ lq lr,
        w._landmarks.find c.larger = some lq ∧ w._landmarks.find c.smaller = some lr ∧
          w'._landmarks.find c.smaller = some (merge lr lq)) ∧
      w'._number_of_merged_landmarks
        = w._number_of_merged_landmarks + (allCorrespondences closures_).length := by
  obtain ⟨hQ, _, hlen⟩ := filterCorrespondences_filteredPairs closures_ hin hn
  have hsorted := (filterCorrespondences_queryMapOk closures_).1
  have hshare := namedIdentifiers_shared _ hn
  have hnamed : ∀ c ∈ allCorrespondences closures_,
      c.larger ∈ namedIdentifiers (allCorrespondences closures_) ∧
      c.smaller ∈ namedIdentifiers (allCorrespondences closures_) ∧
      c.larger ≠ c.smaller := by
    intro c hc
    rcases c.larger_smaller_cases with ⟨h1, h2⟩ | ⟨h1, h2⟩
    · rw [h1, h2]
      exact ⟨(mem_namedIdentifiers _ _).2 ⟨c, hc, Or.inl rfl⟩,
        (mem_namedIdentifiers _ _).2 ⟨c, hc, Or.inr rfl⟩, (hshare c hc).1⟩
    · rw [h1, h2]
      exact ⟨(mem_namedIdentifiers _ _).2 ⟨c, hc, Or.inr rfl⟩,
        (mem_namedIdentifiers _ _).2 ⟨c, hc, Or.inl rfl⟩, fun e => (hshare c hc).1 e.symm⟩
  have hapart : ∀ c ∈ allCorrespondences closures_, ∀ d ∈ allCorrespondences closures_,
      (c.larger = d.larger ∨ c.larger = d.smaller ∨ c.smaller = d.larger ∨
        c.smaller = d.smaller) → c = d :=
    fun c hc d hd h => (hshare c hc).2 d hd (shared_of_larger_smaller c d h)
  have hpair : List.Pairwise
      (fun a b : Identifier × (Identifier × Count) =>
        a.1 ≠ b.1 ∧ a.1 ≠ b.2.1 ∧ a.2.1 ≠ b.1 ∧ a.2.1 ≠ b.2.1)
      (filterCorrespondences closures_).landmark_queries_to_references_filtered := by
    refine List.Pairwise.imp_of_mem ?_ hsorted
    intro a b ha hb hlt
    obtain ⟨c, hc, rfl⟩ := (hQ a).1 ha
    obtain ⟨d, hd, rfl⟩ := (hQ b).1 hb
    have hcd : c ≠ d := by
      intro e
      rw [e] at hlt
      exact Nat.lt_irrefl _ hlt
    exact ⟨fun e => hcd (hapart c hc d hd (Or.inl e)),
      fun e => hcd (hapart c hc d hd (Or.inr (Or.inl e))),
      fun e => hcd (hapart c hc d hd (Or.inr (Or.inr (Or.inl e)))),
      fun e => hcd (hapart c hc d hd (Or.inr (Or.inr (Or.inr e))))⟩
  have hfound : ∀ c ∈ allCorrespondences closures_, ∃ lq lr,
      w._landmarks.find c.larger = some lq ∧ w._landmarks.find c.smaller = some lr ∧
        sharedLocalMap lq lr = false := by
    intro c hc
    obtain ⟨lq, hlq⟩ := Option.isSome_iff_exists.1 (hpresent _ (hnamed c hc).1)
    obtain ⟨lr, hlr⟩ := Option.isSome_iff_exists.1 (hpresent _ (hnamed c hc).2.1)
    refine ⟨lq, lr, hlq, hlr, ?_⟩
    rcases c.larger_smaller_cases with ⟨h1, h2⟩ | ⟨h1, h2⟩
    · rw [h1] at hlq
      rw [h2] at hlr
      exact hshared c hc lq hlq lr hlr
    · rw [h1] at hlq
      rw [h2] at hlr
      rw [sharedLocalMap_comm]
      exact hshared c hc lr hlr lq hlq
  have hall : ∀ p ∈ (filterCorrespondences closures_).landmark_queries_to_references_filtered,
      p.1 ≠ p.2.1 ∧ (MergeState.start w).merged_landmark_identifiers.find p.1 = none ∧
        ∃ lq lr, (MergeState.start w)._landmarks.find p.1 = some lq ∧
          (MergeState.start w)._landmarks.find p.2.1 = some lr ∧
          sharedLocalMap lq lr = false := by
    intro p hp
    obtain ⟨c, hc, rfl⟩ := (hQ p).1 hp
    exact ⟨(hnamed c hc).2.2, rfl, hfound c hc⟩
  obtain ⟨s', hrun, hkeep, hdone, hcount⟩ := mergeLoop_disjoint merge _ _ hpair hall
  have hmem : ∀ c ∈ allCorrespondences closures_,
      (c.larger, (c.smaller, c.matching_count)) ∈
        (filterCorrespondences closures_).landmark_queries_to_references_filtered :=
    fun c hc => (hQ _).2 ⟨c, hc, rfl⟩
  have hunnamed : ∀ x, (∀ c ∈ allCorrespondences closures_, x ≠ c.larger ∧ x ≠ c.smaller) →
      s'._landmarks.find x = w._landmarks.find x := by
    intro x hx
    refine hkeep x ?_
    intro p hp
    obtain ⟨c, hc, rfl⟩ := (hQ p).1 hp
    exact hx c hc
  have hsmaller : ∀ c ∈ allCorrespondences closures_, ∃ lq lr,
      w._landmarks.find c.larger = some lq ∧ w._landmarks.find c.smaller = some lr ∧
        s'._landmarks.find c.smaller = some (merge lr lq) :=
    fun c hc => (hdone _ (hmem c hc)).2
  refine ⟨_, by unfold mergeLandmarks mergeRun; rw [hrun], ?_, ?_, hsmaller, ?_⟩
  · intro x
    show (s'._landmarks.find x).isSome = true ↔ _
    constructor
    · intro hx
      have hlarger : ∀ c ∈ allCorrespondences closures_, x ≠ c.larger := by
        intro c hc e
        rw [e, (hdone _ (hmem c hc)).1] at hx
        cases hx
      refine ⟨?_, hlarger⟩
      by_cases hs : ∃ c ∈ allCorrespondences closures_, x = c.smaller
      · obtain ⟨c, hc, rfl⟩ := hs
        exact hpresent _ (hnamed c hc).2.1
      · rw [← hunnamed x (fun c hc => ⟨hlarger c hc, fun e => hs ⟨c, hc, e⟩⟩)]
        exact hx
    · rintro ⟨hx, hlarger⟩
      by_cases hs : ∃ c ∈ allCorrespondences closures_, x = c.smaller
      · obtain ⟨c, hc, rfl⟩ := hs
        obtain ⟨lq, lr, _, _, h3⟩ := hsmaller c hc
        rw [h3]
        rfl
      · rw [hunnamed x (fun c hc => ⟨hlarger c hc, fun e => hs ⟨c, hc, e⟩⟩)]
        exact hx
  · intro x hx
    show s'._landmarks.find x = _
    refine hunnamed x ?_
    intro c hc
    exact ⟨fun e => hx (e ▸ (hnamed c hc).1), fun e => hx (e ▸ (hnamed c hc).2.1)⟩
  · show w._number_of_merged_landmarks + s'.merged_landmark_identifiers.length = _
    rw [hcount, hlen]
    simp [MergeState.start]

/-- Witness for C34: three inlier correspondences over six different landmarks
of a table of seven, each landmark in a local map of its own. -/
theorem mergeLandmarks_disjoint_pairs_witness :
    (namedIdentifiers (allCorrespondences disjointBatch)).Nodup ∧
    ∃ w', mergeLandmarks Landmark.merge disjointWorld disjointBatch = .ok w' ∧
      (∀ x, (w'._landmarks.find x).isSome = true ↔
        ((disjointWorld._landmarks.find x).isSome = true ∧
          ∀ c ∈ allCorrespondences disjointBatch, x ≠ c.larger)) ∧
      w'._number_of_merged_landmarks = 3 := by
  obtain ⟨w', h1, h2, _, _, h5⟩ := mergeLandmarks_disjoint_pairs Landmark.merge disjointWorld
    disjointBatch (by decide) (by decide) (by decide)
    (by decide)
  exact ⟨by decide, w', h1, h2, h5⟩

end proslam
